import Mathlib

/-!
# gocloud.dev/pubsub: a shallow embedding of the portable Topic / Subscription layer

The definitions below follow `pubsub/pubsub.go`.  Conventions of the embedding:

* a Go `error` value is `Option GoError` (`none` is `nil`);
* a Go `string` that may hold arbitrary bytes (metadata keys and values) is a
  list of byte values, so ill-formed UTF-8 can be written down;
* a `map[string]string` is the list of its entries in the order in which one
  `range` loop visits them; statements that quantify over that list (or over
  its permutations) therefore quantify over the iteration order;
* a pointer to a struct is the struct value, threaded through the functions;
* a closure stored in a field is kept as data (which closure it is, and what it
  captured) together with an interpreter for it;
* results of calls that leave the package (the driver, the batcher, the retry
  helper, the clock) are arguments of the function that makes the call;
* a function that can block forever returns `Option`, `none` meaning that the
  call never returns;
* a `float64` is a value of the IEEE 754 binary64 format, and every operation
  on it rounds its exact result to nearest, ties to even, one operation at a
  time (no fused multiply-add).
-/

namespace Pubsub

/-! ## Errors and contexts -/

/-- The canonical error codes of package `gcerrors`. -/
inductive ErrorCode
  | OK
  | Unknown
  | NotFound
  | AlreadyExists
  | InvalidArgument
  | Internal
  | Unimplemented
  | FailedPrecondition
  | PermissionDenied
  | ResourceExhausted
  | Canceled
  | DeadlineExceeded
  deriving DecidableEq, Repr

/-- A byte string: the Go `string` type without any encoding assumption. -/
abbrev GoString := List Nat

/-- The type `amqp.ErrorCondition`, as far as `azurepubsub` tells conditions
apart: the eight Service Bus conditions named in `errorCode` (the constants
`servicebus.ErrorNotFound` and so on, pairwise different since they label the
cases of one `switch`), and every other condition by its text. -/
inductive AmqpCondition
  | ErrorNotFound
  | ErrorPreconditionFailed
  | ErrorInternalError
  | ErrorNotImplemented
  | ErrorUnauthorizedAccess
  | ErrorNotAllowed
  | ErrorResourceLimitExceeded
  | ErrorInvalidField
  | other (condition : String)
  deriving DecidableEq, Repr

/-- The non-nil Go error values that occur in the package.
`ctxCanceled` and `ctxDeadlineExceeded` are `context.Canceled` and
`context.DeadlineExceeded`; `errorf` is `fmt.Errorf` with one `%q` argument;
`provider` is an error produced by a driver; `gcerrNewf c msg` is
`gcerr.Newf(c, nil, msg)`; `gcerrNew c cause msg` is `gcerr.New(c, cause, 2, msg)`;
`amqp c` is an `*amqp.Error` with condition `c`; `errorsNew msg` is
`errors.New(msg)`; `fmtErrorf format args` is `fmt.Errorf` with the arguments
`args` as they print, and `fmtErrorfErr format args err` is `fmt.Errorf` whose
last argument is the error `err`. -/
inductive GoError
  | ctxCanceled
  | ctxDeadlineExceeded
  | errorf (format : String) (arg : GoString)
  | provider (tag : Nat)
  | gcerrNewf (code : ErrorCode) (msg : String)
  | gcerrNew (code : ErrorCode) (cause : GoError) (msg : String)
  | amqp (condition : AmqpCondition)
  | errorsNew (msg : String)
  | fmtErrorf (format : String) (args : List String)
  | fmtErrorfErr (format : String) (args : List String) (err : GoError)
  deriving DecidableEq, Repr

/-- A `context.Context` as one call observes it: `Err` is the value of
`ctx.Err()`, and `ctx.Done()` is closed exactly when it is not nil. -/
structure Context where
  Err : Option GoError
  deriving DecidableEq, Repr

/-- Whether the channel `ctx.Done()` is closed. -/
def Context.Done (ctx : Context) : Bool := ctx.Err.isSome

/-- The live context `context.Background()`. -/
def Context.Background : Context := ⟨none⟩

/-- A context whose `cancel` function has been called. -/
def Context.canceled : Context := ⟨some GoError.ctxCanceled⟩

/-! ## `unicode/utf8.ValidString` -/

/-- A UTF-8 continuation byte, `10xxxxxx`. -/
def isCont (b : Nat) : Bool := 0x80 ≤ b && b ≤ 0xBF

/-- The function `utf8.ValidString` of the Go standard library: the bytes are a
sequence of well-formed UTF-8 encodings (no overlong forms, no surrogates,
nothing above U+10FFFF). -/
def ValidString : List Nat → Bool
  | [] => true
  | b :: rest =>
    if b < 0x80 then ValidString rest
    else if 0xC2 ≤ b && b ≤ 0xDF then
      match rest with
      | c1 :: r => isCont c1 && ValidString r
      | _ => false
    else if 0xE0 ≤ b && b ≤ 0xEF then
      match rest with
      | c1 :: c2 :: r =>
        (if b = 0xE0 then 0xA0 ≤ c1 && c1 ≤ 0xBF
         else if b = 0xED then 0x80 ≤ c1 && c1 ≤ 0x9F
         else isCont c1) && isCont c2 && ValidString r
      | _ => false
    else if 0xF0 ≤ b && b ≤ 0xF4 then
      match rest with
      | c1 :: c2 :: c3 :: r =>
        (if b = 0xF0 then 0x90 ≤ c1 && c1 ≤ 0xBF
         else if b = 0xF4 then 0x80 ≤ c1 && c1 ≤ 0x8F
         else isCont c1) && isCont c2 && isCont c3 && ValidString r
      | _ => false
    else false

/-! ## Messages -/

/-- The type `driver.AckID`, an `interface{}` holding an opaque token chosen by
the provider: `none` is the nil interface (an AckID that was never set). -/
abbrev AckID := Option Nat

/-- The type `driver.Message`: payload, metadata, ack token and the `AsFunc`
hook (kept as an opaque tag). -/
structure DriverMessage where
  Body : List Nat
  Metadata : List (GoString × GoString)
  AckID : AckID
  AsFunc : Option Nat
  deriving DecidableEq, Repr

/-- The closure stored in `Message.ack`.  `unset` is the nil func of a message
that was not built by `getNextBatch`; `queueAck id` is the closure built when
`s.ackFunc == nil` (it captured the AckID `id`); `callAckFunc` is the closure
built when `s.ackFunc != nil`. -/
inductive AckClosure
  | unset
  | queueAck (id : AckID)
  | callAckFunc
  deriving DecidableEq, Repr

/-- The struct `Message`.  Times are nanoseconds; `processingStartTime = 0` is
the zero time.  The mutex `mu` is not a field: every function below runs its
critical section in one piece. -/
structure Message where
  Body : List Nat
  Metadata : List (GoString × GoString)
  processingStartTime : Int
  asFunc : Option Nat
  ack : AckClosure
  isAcked : Bool
  deriving DecidableEq, Repr

/-- How a call ends: it returns, or it panics with a value; in both cases the
state it leaves behind is recorded. -/
inductive Outcome (σ : Type)
  | returned (s : σ)
  | panicked (s : σ) (value : String)
  deriving DecidableEq, Repr

/-- The state a call leaves behind. -/
def Outcome.state {σ : Type} : Outcome σ → σ
  | .returned s => s
  | .panicked s _ => s

/-- Whether the call returned normally. -/
def Outcome.isReturned {σ : Type} : Outcome σ → Bool
  | .returned _ => true
  | .panicked _ _ => false

/-! ## The batcher -/

/-- Modelled from the spec: `internal/batcher` is not part of the sources.  A
batcher "accepts a continuous stream of individually-submitted items"; the
model keeps the items submitted so far, in submission order, how often
`Shutdown` was called, and whether the last `Shutdown` call has returned
(it "waits for in-flight batches to finish"). -/
structure Batcher (α : Type) where
  items : List α
  shutdownCalls : Nat
  shutdownReturned : Bool
  deriving DecidableEq, Repr

/-- A batcher as `batcher.New` returns it. -/
def Batcher.New {α : Type} : Batcher α := ⟨[], 0, false⟩

/-- Modelled from the spec: `Batcher.Add`, the state change only (the item is
submitted); what the call returns is an argument of the caller. -/
def Batcher.Add {α : Type} (item : α) (b : Batcher α) : Batcher α :=
  { b with items := b.items ++ [item] }

/-- Modelled from the spec: `Batcher.AddNoWait`, the "non-blocking variant that
fires-and-forgets". -/
def Batcher.AddNoWait {α : Type} (item : α) (b : Batcher α) : Batcher α :=
  { b with items := b.items ++ [item] }

/-- Modelled from the spec: `Batcher.Shutdown`, called in a goroutine of its
own by the two `Shutdown` methods.  `flushed` says whether the in-flight
batches finish, that is, whether the call returns while its caller waits. -/
def Batcher.Shutdown {α : Type} (flushed : Bool) (b : Batcher α) : Batcher α :=
  { b with shutdownCalls := b.shutdownCalls + 1, shutdownReturned := flushed }

/-! ## wrapError -/

/-- Modelled from the spec: `gcerr.DoNotWrap` is not part of the sources.  An
error is passed through unwrapped when it is "already-wrapped/pass-through,
e.g. context cancellation". -/
def DoNotWrap : GoError → Bool
  | .ctxCanceled => true
  | .ctxDeadlineExceeded => true
  | _ => false

/-- The function `wrapError`; `ec` is the driver method `ErrorCode`. -/
def wrapError (ec : GoError → ErrorCode) (err : GoError) : GoError :=
  if DoNotWrap err then err
  else GoError.gcerrNew (ec err) err "pubsub"

/-! ## Topic -/

/-- The struct `Topic`.  `cancelCalls` counts the calls of `t.cancel`, the
cancel function of the context that all SendBatch calls share; `sent` is the
list of batches the driver has been handed by `SendBatch`, one entry for every
run of the batch handler. -/
structure Topic where
  batcher : Batcher Message
  err : Option GoError
  cancelCalls : Nat
  sent : List (List DriverMessage)
  deriving DecidableEq, Repr

/-- The function `newTopic`. -/
def newTopic : Topic := ⟨Batcher.New, none, 0, []⟩

/-- The metadata loop of `Topic.Send`: the entries are visited in order, and
the first key or value that is not valid UTF-8 ends the loop with an error. -/
def checkMetadata : List (GoString × GoString) → Option GoError
  | [] => none
  | (k, v) :: rest =>
    if !ValidString k then
      some (GoError.errorf
        "pubsub.Send: Message.Metadata keys must be valid UTF-8 strings: %q" k)
    else if !ValidString v then
      some (GoError.errorf
        "pubsub.Send: Message.Metadata values must be valid UTF-8 strings: %q" v)
    else checkMetadata rest

/-- The method `Topic.Send`.  `addResult` is what `t.batcher.Add(ctx, m)`
returns if it is called.  The result is the returned error and the Topic after
the call. -/
def Topic.Send (ctx : Context) (m : Message) (addResult : Option GoError)
    (t : Topic) : Option GoError × Topic :=
  match ctx.Err with
  | some e => (some e, t)
  | none =>
    match t.err with
    | some e => (some e, t)
    | none =>
      match checkMetadata m.Metadata with
      | some e => (some e, t)
      | none => (addResult, { t with batcher := t.batcher.Add m })

/-- The error `Topic.Shutdown` stores in `t.err`. -/
def topicClosed : GoError :=
  GoError.gcerrNewf ErrorCode.FailedPrecondition "pubsub: Topic closed"

/-- The method `Topic.Shutdown`.  It stores the closed error, starts
`t.batcher.Shutdown()` in a goroutine that closes `c` when that call returns,
and waits in `select` for `ctx.Done()` or `c`.  `flushed` says whether the
batcher call returns; with a live context and `flushed = false` neither case
of the `select` ever becomes ready and the method does not return.  Otherwise
it calls `t.cancel` and returns `ctx.Err()`. -/
def Topic.Shutdown (ctx : Context) (flushed : Bool) (t : Topic) :
    Option (Option GoError × Topic) :=
  let t1 := { t with err := some topicClosed }
  let t2 := { t1 with batcher := t1.batcher.Shutdown flushed }
  if ctx.Done || flushed then
    some (ctx.Err, { t2 with cancelCalls := t2.cancelCalls + 1 })
  else none

/-- The handler of `defaultBatcher`: every Message of the batch becomes a
`driver.Message` with its Body and Metadata, the list is handed to
`dt.SendBatch` (inside `retry.Call`, whose final result is `sendResult`), and a
failure is wrapped. -/
def defaultBatcher.handler (ec : GoError → ErrorCode) (ms : List Message)
    (sendResult : Option GoError) (t : Topic) : Option GoError × Topic :=
  let dms : List DriverMessage :=
    ms.map fun m => { Body := m.Body, Metadata := m.Metadata, AckID := none, AsFunc := none }
  let t1 := { t with sent := t.sent ++ [dms] }
  match sendResult with
  | some e => (some (wrapError ec e), t1)
  | none => (none, t1)

/-- One operation on a Topic: a call of `Send`, a call of `Shutdown`, or one
run of the send batch handler. -/
inductive TopicOp
  | send (ctx : Context) (m : Message) (addResult : Option GoError)
  | shutdown (ctx : Context) (flushed : Bool)
  | sendHandler (ms : List Message) (sendResult : Option GoError)
  deriving DecidableEq, Repr

/-- The Topic after one operation, `none` if the operation never returns. -/
def TopicOp.apply (ec : GoError → ErrorCode) : TopicOp → Topic → Option Topic
  | .send ctx m addResult, t => some (Topic.Send ctx m addResult t).2
  | .shutdown ctx flushed, t => (Topic.Shutdown ctx flushed t).map Prod.snd
  | .sendHandler ms sendResult, t => some (defaultBatcher.handler ec ms sendResult t).2

/-- The Topic after a sequence of operations, each of which returns. -/
def Topic.run (ec : GoError → ErrorCode) : List TopicOp → Topic → Option Topic
  | [], t => some t
  | op :: ops, t =>
    match op.apply ec t with
    | some t1 => Topic.run ec ops t1
    | none => none

/-! ## float64 -/

/-- A value of the Go type `float64`, the IEEE 754 binary64 format.  Every
finite value of the format is a whole multiple of 2^-1074, the smallest
subnormal: `finite neg m` is `m` such units with the sign bit `neg`, so that
`finite true 0` is the negative zero. -/
inductive Float64
  | finite (neg : Bool) (units : Nat)
  | inf (neg : Bool)
  | nan
  deriving DecidableEq, Repr

/-- The number of units in 1.0, that is 2^1074. -/
def Float64.unit : Nat := 1 <<< 1074

/-- The first magnitude that is too large for a finite value: 2^1024, in units. -/
def Float64.overflow : Nat := 1 <<< 2098

/-- The whole number nearest to `n / d`, the even one when two are equally
near. -/
def Float64.nearest (n d : Nat) : Nat :=
  let q := n / d
  let r := n % d
  if 2 * r < d then q
  else if d < 2 * r then q + 1
  else if q % 2 = 0 then q else q + 1

/-- The number of low bits a magnitude of `q` units has to give up to fit the
53 bits of a significand: 0 below 2^53, and `e` from 2^(52+e) up to 2^(53+e).
It is found by bisection: `Float64.excess j q acc` adds to `acc` the largest
`e` below 2^j for which `q` is at least 2^(52+acc+e). -/
def Float64.excess : Nat → Nat → Nat → Nat
  | 0, _, acc => acc
  | j + 1, q, acc =>
    if 2 ^ 52 ≤ q >>> (acc + 2 ^ j) then Float64.excess j q (acc + 2 ^ j)
    else Float64.excess j q acc

/-- The magnitude nearest to `n / d` units that a `float64` can hold, without
the upper limit of the format: a multiple of 2^e units, where `e` is the
excess of `n / d`. -/
def Float64.roundUnits (n d : Nat) : Nat :=
  let u := 1 <<< Float64.excess 12 (n / d) 0
  Float64.nearest n (d * u) * u

/-- Rounding to nearest, ties to even: the `float64` that an operation with
the exact result `n / d` units and the sign `neg` returns.  A rounded magnitude
of 2^1024 or more is an infinity. -/
def Float64.round (neg : Bool) (n d : Nat) : Float64 :=
  let m := Float64.roundUnits n d
  if m < Float64.overflow then .finite neg m else .inf neg

/-- The conversion `float64(i)` of an integer. -/
def Float64.ofInt (i : Int) : Float64 :=
  Float64.round (decide (i < 0)) (i.natAbs * Float64.unit) 1

/-- The value `0`. -/
def Float64.zero : Float64 := .finite false 0

/-- The finite value as a signed number of units. -/
def Float64.signed (neg : Bool) (m : Nat) : Int := if neg then -(m : Int) else m

/-- The operator `*` on `float64`. -/
def Float64.mul : Float64 → Float64 → Float64
  | .finite s1 m1, .finite s2 m2 => Float64.round (xor s1 s2) (m1 * m2) Float64.unit
  | .finite s1 m1, .inf s2 => if m1 = 0 then .nan else .inf (xor s1 s2)
  | .inf s1, .finite s2 m2 => if m2 = 0 then .nan else .inf (xor s1 s2)
  | .inf s1, .inf s2 => .inf (xor s1 s2)
  | _, _ => .nan

/-- The operator `+` on `float64`. -/
def Float64.add : Float64 → Float64 → Float64
  | .finite s1 m1, .finite s2 m2 =>
    if s1 = s2 then Float64.round s1 (m1 + m2) 1
    else if m2 < m1 then Float64.round s1 (m1 - m2) 1
    else if m1 < m2 then Float64.round s2 (m2 - m1) 1
    else .finite false 0
  | .finite _ _, .inf s2 => .inf s2
  | .inf s1, .finite _ _ => .inf s1
  | .inf s1, .inf s2 => if s1 = s2 then .inf s1 else .nan
  | _, _ => .nan

/-- The operator `/` on `float64`. -/
def Float64.div : Float64 → Float64 → Float64
  | .finite s1 m1, .finite s2 m2 =>
    if m2 = 0 then (if m1 = 0 then .nan else .inf (xor s1 s2))
    else Float64.round (xor s1 s2) (m1 * Float64.unit) m2
  | .finite s1 _, .inf s2 => .finite (xor s1 s2) 0
  | .inf s1, .finite s2 _ => .inf (xor s1 s2)
  | _, _ => .nan

/-- The operator `<` on `float64`. -/
def Float64.lt : Float64 → Float64 → Bool
  | .finite s1 m1, .finite s2 m2 => decide (Float64.signed s1 m1 < Float64.signed s2 m2)
  | .finite _ _, .inf s2 => !s2
  | .inf s1, .finite _ _ => s1
  | .inf s1, .inf s2 => s1 && !s2
  | _, _ => false

/-- The operator `==` on `float64`. -/
def Float64.eq : Float64 → Float64 → Bool
  | .finite s1 m1, .finite s2 m2 => decide (Float64.signed s1 m1 = Float64.signed s2 m2)
  | .inf s1, .inf s2 => s1 == s2
  | _, _ => false

/-- The function `math.Ceil`. -/
def Float64.Ceil : Float64 → Float64
  | .finite neg m =>
    let whole := m / Float64.unit * Float64.unit
    if m = whole then .finite neg m
    else if neg then .finite true whole
    else .finite false (whole + Float64.unit)
  | x => x

/-- The function `math.Min`. -/
def Float64.Min (x y : Float64) : Float64 :=
  if x = .inf true || y = .inf true then .inf true
  else if x = .nan || y = .nan then .nan
  else if x.eq Float64.zero && x.eq y then
    (if x = .finite true 0 then x else y)
  else if x.lt y then x
  else y

/-- The conversion `int(x)` of a `float64`: the fraction is discarded.  For a
value that does not fit an `int` the language leaves the result to the
implementation; the model gives the result on amd64, the smallest `int`. -/
def Float64.toInt : Float64 → Int
  | .finite neg m =>
    let t := Float64.signed neg (m / Float64.unit)
    if -9223372036854775808 ≤ t ∧ t < 9223372036854775808 then t else -9223372036854775808
  | _ => -9223372036854775808

/-- The exact value of a finite `float64`, its units divided by the number of
units in 1.0 (and 0 for an infinity and for NaN). -/
def Float64.toRat : Float64 → ℚ
  | .finite neg m => (Float64.signed neg m : ℚ) / (Float64.unit : ℚ)
  | _ => 0

/-! ## Subscription -/

/-- The driver of a Subscription as the package uses it.  `AckFunc` is the
value of `ds.AckFunc()`, stored in `s.ackFunc` by `newSubscription`: `none` is
nil, and `some f` is a function whose call number `i` (counting from 0) returns
normally when `f i = none` and panics with value `v` when `f i = some v`. -/
structure SubscriptionDriver where
  AckFunc : Option (Nat → Option String)
  ErrorCode : GoError → Pubsub.ErrorCode

/-- The struct `Subscription`.  `ackFuncCalls` counts the calls of `s.ackFunc`
and `cancelCalls` those of `s.cancel`.  A channel is a number: `waitc` is the
channel of the fetch in flight, `chansMade` the number of channels made so far
and `closedChans` the channels that have been closed. -/
structure Subscription where
  ackBatcher : Batcher AckID
  ackFuncCalls : Nat
  cancelCalls : Nat
  q : List Message
  err : Option GoError
  waitc : Option Nat
  avgProcessTime : Float64
  chansMade : Nat
  closedChans : List Nat
  deriving DecidableEq

/-- The function `newSubscription`. -/
def newSubscription : Subscription :=
  { ackBatcher := Batcher.New, ackFuncCalls := 0, cancelCalls := 0, q := [],
    err := none, waitc := none, avgProcessTime := Float64.zero, chansMade := 0,
    closedChans := [] }

/-- The method `Duration.Seconds` of package `time`, for a duration in
nanoseconds: `float64(sec) + float64(nsec)/1e9`, where `sec` and `nsec` are the
quotient and the remainder of the division by a second, both rounded towards
zero. -/
def Seconds (d : Int) : Float64 :=
  let sec := d.tdiv 1000000000
  let nsec := d.tmod 1000000000
  (Float64.ofInt sec).add ((Float64.ofInt nsec).div (Float64.ofInt 1000000000))

/-- The constant `desiredQueueDuration`, in nanoseconds. -/
def desiredQueueDuration : Int := 2 * 1000000000

/-- The constant `decay`, 0.05, converted to `float64` where it is used. -/
def decay : Float64 := Float64.round false (5 * Float64.unit) 100

/-- The constant expression `1-decay`: the compiler computes 0.95 exactly and
converts that to `float64`. -/
def oneMinusDecay : Float64 := Float64.round false (95 * Float64.unit) 100

/-- The method `Subscription.addProcessingTime`. -/
def Subscription.addProcessingTime (d : Int) (s : Subscription) : Subscription :=
  let d := if d = 0 then 1 else d
  if s.avgProcessTime.eq Float64.zero then
    { s with avgProcessTime := Seconds d }
  else
    { s with avgProcessTime :=
        (s.avgProcessTime.mul oneMinusDecay).add ((Seconds d).mul decay) }

/-- The number of messages `Subscription.Receive` asks the driver for. -/
def Subscription.Receive.nMessages (avgProcessTime : Float64) : Nat :=
  if Float64.zero.lt avgProcessTime then
    let n := Float64.Ceil ((Seconds desiredQueueDuration).div avgProcessTime)
    (Float64.toInt (Float64.Min n (Float64.ofInt 1000))).toNat
  else 1

/-- The Message `m2` that the loop of `getNextBatch` builds from the driver
message `m`: Body, Metadata and `asFunc` are copied, and the `ack` closure is
chosen by `s.ackFunc == nil`. -/
def Subscription.getNextBatch.m2 (ds : SubscriptionDriver) (m : DriverMessage) : Message :=
  { Body := m.Body, Metadata := m.Metadata, processingStartTime := 0,
    asFunc := m.AsFunc, isAcked := false,
    ack := if ds.AckFunc.isNone then AckClosure.queueAck m.AckID
           else AckClosure.callAckFunc }

/-- The method `Subscription.getNextBatch`.  `rb` is the result of the
`ReceiveBatch` call made inside `retry.Call`: the messages and the final
error. -/
def Subscription.getNextBatch (ds : SubscriptionDriver)
    (rb : List DriverMessage × Option GoError) : List Message × Option GoError :=
  match rb.2 with
  | some e => ([], some (wrapError ds.ErrorCode e))
  | none => (rb.1.map (Subscription.getNextBatch.m2 ds), none)

/-- Running the closure `m.ack` at time `now` on the Subscription that built
it.  Both closures of `getNextBatch` first call
`s.addProcessingTime(time.Since(m2.processingStartTime))`; then one submits
the AckID with `AddNoWait` and the other calls `s.ackFunc`.  Calling a nil func
panics. -/
def AckClosure.run (ds : SubscriptionDriver) (now : Int) (m : Message)
    (s : Subscription) : AckClosure → Outcome Subscription
  | .unset => .panicked s "invalid memory address or nil pointer dereference"
  | .queueAck id =>
    let s1 := s.addProcessingTime (now - m.processingStartTime)
    .returned { s1 with ackBatcher := s1.ackBatcher.AddNoWait id }
  | .callAckFunc =>
    let s1 := s.addProcessingTime (now - m.processingStartTime)
    match ds.AckFunc with
    | none => .panicked s1 "invalid memory address or nil pointer dereference"
    | some f =>
      let s2 := { s1 with ackFuncCalls := s1.ackFuncCalls + 1 }
      match f s1.ackFuncCalls with
      | none => .returned s2
      | some v => .panicked s2 v

/-- What one call of `Message.Ack` did: how it ended, with the message and the
Subscription it left behind, and how many times it entered the body of the
closure `m.ack`. -/
structure AckCall where
  outcome : Outcome (Message × Subscription)
  ackRuns : Nat

/-- The method `Message.Ack`, called at time `now`. -/
def Message.Ack (ds : SubscriptionDriver) (now : Int) (m : Message)
    (s : Subscription) : AckCall :=
  if m.isAcked then
    ⟨.panicked (m, s) "Ack() called twice on message", 0⟩
  else
    match m.ack, m.ack.run ds now m s with
    | .unset, r => ⟨.panicked (m, r.state) "invalid memory address or nil pointer dereference", 0⟩
    | _, .panicked s1 v => ⟨.panicked (m, s1) v, 1⟩
    | _, .returned s1 => ⟨.returned ({ m with isAcked := true }, s1), 1⟩

/-- A caller that calls `m.Ack()` once per element of `nows`, recovering from
every panic: the message and Subscription at the end, and the total number of
times the body of `m.ack` was entered. -/
def Message.AckAll (ds : SubscriptionDriver) :
    List Int → Message → Subscription → Message × Subscription × Nat
  | [], m, s => (m, s, 0)
  | now :: nows, m, s =>
    let c := Message.Ack ds now m s
    let r := Message.AckAll ds nows c.outcome.state.1 c.outcome.state.2
    (r.1, r.2.1, c.ackRuns + r.2.2)

/-- Where one goroutine stands inside `Subscription.Receive`: at the top of
the loop; in the `select` on the channel `waitc` it copied; between
`s.mu.Unlock()` and the return of `getNextBatch(ctx, nMessages)`; or done, by
`return` or by a panic. -/
inductive ReceivePC
  | top
  | waiting (waitc : Nat)
  | fetching (nMessages : Nat)
  | returned (m : Option Message) (err : Option GoError)
  | panicked (value : String)
  deriving DecidableEq, Repr

/-- What a step of `Receive` reads from outside the Subscription: the clock,
which case `select` takes when both are ready, and the result of the driver
call made by `getNextBatch`. -/
structure ReceiveEnv where
  now : Int
  pickCtx : Bool
  batch : List DriverMessage × Option GoError
  deriving DecidableEq, Repr

/-- One step of `Subscription.Receive`: a stretch of the method that runs with
`s.mu` held, or the single blocking point before it.  `none` means the
goroutine cannot move (it is blocked in `select`, or it is done). -/
def Subscription.Receive.step (ds : SubscriptionDriver) (ctx : Context)
    (env : ReceiveEnv) : ReceivePC → Subscription → Option (ReceivePC × Subscription)
  | .top, s =>
    match s.err with
    | some e => some (.returned none (some e), s)
    | none =>
      match s.q with
      | m :: rest =>
        some (.returned (some { m with processingStartTime := env.now }) none,
              { s with q := rest })
      | [] =>
        match s.waitc with
        | some c => some (.waiting c, s)
        | none =>
          some (.fetching (Subscription.Receive.nMessages s.avgProcessTime),
                { s with waitc := some s.chansMade, chansMade := s.chansMade + 1 })
  | .waiting c, s =>
    if s.closedChans.contains c && (!ctx.Done || !env.pickCtx) then some (.top, s)
    else
      match ctx.Err with
      | some e => some (.returned none (some e), s)
      | none => none
  | .fetching _, s =>
    let r := Subscription.getNextBatch ds env.batch
    match s.waitc with
    | none => some (.panicked "close of nil channel", s)
    | some c =>
      let s1 := { s with closedChans := c :: s.closedChans, waitc := none }
      match r.2 with
      | some e => some (.returned none (some e), s1)
      | none => some (.top, { s1 with q := s1.q ++ r.1 })
  | .returned _ _, _ => none
  | .panicked _, _ => none

/-- A goroutine running `Receive` from the position `pc` until it is done,
taking one element of the list for every step; `none` if it blocks or the list
runs out first. -/
def Subscription.Receive.run (ds : SubscriptionDriver) (ctx : Context) :
    List ReceiveEnv → ReceivePC → Subscription → Option (ReceivePC × Subscription)
  | _, .returned m e, s => some (.returned m e, s)
  | _, .panicked v, s => some (.panicked v, s)
  | [], _, _ => none
  | env :: envs, pc, s =>
    match Subscription.Receive.step ds ctx env pc s with
    | none => none
    | some (pc1, s1) => Subscription.Receive.run ds ctx envs pc1 s1

/-- The method `Subscription.Receive`: a call that starts at the top of the
loop. -/
def Subscription.Receive (ds : SubscriptionDriver) (ctx : Context)
    (envs : List ReceiveEnv) (s : Subscription) : Option (ReceivePC × Subscription) :=
  Subscription.Receive.run ds ctx envs ReceivePC.top s

/-- The error `Subscription.Shutdown` stores in `s.err`. -/
def subscriptionClosed : GoError :=
  GoError.gcerrNewf ErrorCode.FailedPrecondition "pubsub: Subscription closed"

/-- The method `Subscription.Shutdown`; it has the shape of `Topic.Shutdown`,
with `s.ackBatcher` and `s.cancel`. -/
def Subscription.Shutdown (ctx : Context) (flushed : Bool) (s : Subscription) :
    Option (Option GoError × Subscription) :=
  let s1 := { s with err := some subscriptionClosed }
  let s2 := { s1 with ackBatcher := s1.ackBatcher.Shutdown flushed }
  if ctx.Done || flushed then
    some (ctx.Err, { s2 with cancelCalls := s2.cancelCalls + 1 })
  else none

/-- The handler of `defaultAckBatcher`.  `sendAcksResult` is the result of
`retry.Call` around `ds.SendAcks(ctx2, ids)`; a failure is wrapped and stored
in `s.err`. -/
def defaultAckBatcher.handler (ds : SubscriptionDriver) (_ids : List AckID)
    (sendAcksResult : Option GoError) (s : Subscription) : Option GoError × Subscription :=
  match sendAcksResult with
  | some e =>
    let err := wrapError ds.ErrorCode e
    (some err, { s with err := some err })
  | none => (none, s)

/-- One operation on a Subscription: a step of some goroutine inside `Receive`,
a call of `Shutdown`, a call of `Message.Ack` on some message, one run of the
ack batch handler, or a call of `addProcessingTime`. -/
inductive SubscriptionOp
  | receiveStep (ctx : Context) (env : ReceiveEnv) (pc : ReceivePC)
  | shutdown (ctx : Context) (flushed : Bool)
  | ack (now : Int) (m : Message)
  | ackHandler (ids : List AckID) (sendAcksResult : Option GoError)
  | addProcessingTime (d : Int)
  deriving DecidableEq, Repr

/-- The Subscription after one operation, `none` if the operation cannot move
or never returns. -/
def SubscriptionOp.apply (ds : SubscriptionDriver) :
    SubscriptionOp → Subscription → Option Subscription
  | .receiveStep ctx env pc, s => (Subscription.Receive.step ds ctx env pc s).map Prod.snd
  | .shutdown ctx flushed, s => (Subscription.Shutdown ctx flushed s).map Prod.snd
  | .ack now m, s => some (Message.Ack ds now m s).outcome.state.2
  | .ackHandler ids r, s => some (defaultAckBatcher.handler ds ids r s).2
  | .addProcessingTime d, s => some (s.addProcessingTime d)

/-- The Subscription after a sequence of operations, each of which moves. -/
def Subscription.run (ds : SubscriptionDriver) :
    List SubscriptionOp → Subscription → Option Subscription
  | [], s => some s
  | op :: ops, s =>
    match op.apply ds s with
    | some s1 => Subscription.run ds ops s1
    | none => none

/-- Whether the operation is a run of the ack batch handler whose `SendAcks`
call failed. -/
def SubscriptionOp.isFailedAckHandler : SubscriptionOp → Bool
  | .ackHandler _ (some _) => true
  | _ => false

/-- The local queue holds only messages that `getNextBatch` built. -/
def Subscription.queueBuilt (ds : SubscriptionDriver) (s : Subscription) : Prop :=
  ∀ x ∈ s.q, ∃ dm, x = Subscription.getNextBatch.m2 ds dm

/-- A position of `Receive` that hands out a message hands out one that
`getNextBatch` built, stamped with a processing start time. -/
def ReceivePC.handsOutBuilt (ds : SubscriptionDriver) (pc : ReceivePC) : Prop :=
  ∀ m e, pc = ReceivePC.returned (some m) e →
    ∃ dm now, m = { Subscription.getNextBatch.m2 ds dm with processingStartTime := now }

/-! ## Sequences of calls -/

/-- One caller calling `Receive` once for every element of the list, one call
after the other; a call gets its context and the values for its steps.  The
result is how every call ended and the Subscription after the last one, `none`
if some call does not return. -/
def Subscription.ReceiveAll (ds : SubscriptionDriver) :
    List (Context × List ReceiveEnv) → Subscription → Option (List ReceivePC × Subscription)
  | [], s => some ([], s)
  | (ctx, envs) :: calls, s =>
    match Subscription.Receive ds ctx envs s with
    | none => none
    | some (pc, s1) =>
      match Subscription.ReceiveAll ds calls s1 with
      | none => none
      | some (pcs, s2) => some (pc :: pcs, s2)

/-- One call of `addProcessingTime` for every sample of the list, in order. -/
def Subscription.addProcessingTimes : List Int → Subscription → Subscription
  | [], s => s
  | d :: ds, s => Subscription.addProcessingTimes ds (s.addProcessingTime d)

/-! ## Concurrent callers of Receive -/

/-- Whether the goroutine is between `s.mu.Unlock()` and the return of
`getNextBatch`, that is, whether its `ReceiveBatch` call is outstanding. -/
def ReceivePC.isFetching : ReceivePC → Bool
  | .fetching _ => true
  | _ => false

/-- A Subscription together with the goroutines that have called `Receive` on
it: `pcs[i]` is where goroutine `i` stands. -/
structure System where
  s : Subscription
  pcs : List ReceivePC
  deriving DecidableEq

/-- What can happen next in a System: a further goroutine calls `Receive` and
stands at the top of the loop; goroutine `i` takes its next step; or an
operation other than a step of `Receive` runs on the Subscription. -/
inductive SystemOp
  | call
  | step (i : Nat) (ctx : Context) (env : ReceiveEnv)
  | other (op : SubscriptionOp)
  deriving DecidableEq

/-- Whether the operation is not part of a `Receive` call. -/
def SystemOp.isOther : SystemOp → Bool
  | .other _ => true
  | _ => false

/-- The System after one operation; `none` when goroutine `i` does not exist or
cannot move, and for a `Receive` step that is not taken by a goroutine. -/
def SystemOp.apply (ds : SubscriptionDriver) : SystemOp → System → Option System
  | .call, σ => some { σ with pcs := σ.pcs ++ [ReceivePC.top] }
  | .step i ctx env, σ =>
    match σ.pcs[i]? with
    | none => none
    | some pc =>
      match Subscription.Receive.step ds ctx env pc σ.s with
      | none => none
      | some (pc1, s1) => some ⟨s1, σ.pcs.set i pc1⟩
  | .other (.receiveStep _ _ _), _ => none
  | .other op, σ => (op.apply ds σ.s).map fun s1 => { σ with s := s1 }

/-- The System after an interleaving, given as the sequence of its operations. -/
def System.run (ds : SubscriptionDriver) : List SystemOp → System → Option System
  | [], σ => some σ
  | op :: ops, σ =>
    match op.apply ds σ with
    | some σ1 => System.run ds ops σ1
    | none => none

/-- The number of outstanding `ReceiveBatch` calls. -/
def System.fetching (σ : System) : Nat := σ.pcs.countP ReceivePC.isFetching

/-- The invariant of a System: a `ReceiveBatch` call is outstanding exactly
when `waitc` is not nil, there is at most one, and the local queue is empty
meanwhile. -/
def System.inv (σ : System) : Prop :=
  σ.fetching = (if σ.s.waitc.isSome then 1 else 0) ∧ (σ.s.waitc.isSome → σ.s.q = [])

/-- No permanent error is stored while a fetch is in flight. -/
def System.errFree (σ : System) : Prop := σ.s.waitc.isSome → σ.s.err = none

/-! ## retry.Call -/

/-- Modelled from the spec: `internal/retry` is not part of the sources.
`retry.Call` "executes a single no-argument operation; on failure, if both (a)
the caller's context is not done and (b) the operation's error is classified
retryable by a provider-supplied predicate, it waits an exponentially
increasing, jittered backoff and retries; otherwise it returns the last error
unmodified."  The operation is given by its results: `f i` is what its call
number `i` returns.  The first number bounds the calls that are followed, the
second is the number of calls made so far; the result is the returned error
with the total number of calls, `none` if the bound is reached first. -/
def retry.Call (ctx : Context) (isRetryable : GoError → Bool) (f : Nat → Option GoError) :
    Nat → Nat → Option (Option GoError × Nat)
  | 0, _ => none
  | fuel + 1, i =>
    match f i with
    | none => some (none, i + 1)
    | some e =>
      if !ctx.Done && isRetryable e then retry.Call ctx isRetryable f fuel (i + 1)
      else some (some e, i + 1)

/-- One run of the handler of `defaultBatcher` with the `retry.Call` inside it:
`SendBatch i` is what call number `i` of `dt.SendBatch(ctx2, dms)` returns.  The
result is what the handler returns, the Topic after it and the number of
`SendBatch` calls. -/
def defaultBatcher.handlerCall (fuel : Nat) (ctx : Context) (IsRetryable : GoError → Bool)
    (ec : GoError → ErrorCode) (ms : List Message) (SendBatch : Nat → Option GoError)
    (t : Topic) : Option ((Option GoError × Topic) × Nat) :=
  (retry.Call ctx IsRetryable SendBatch fuel 0).map fun r =>
    (defaultBatcher.handler ec ms r.1 t, r.2)

/-- One run of the handler of `defaultAckBatcher` with the `retry.Call` inside
it: `SendAcks i` is what call number `i` of `ds.SendAcks(ctx2, ids)` returns. -/
def defaultAckBatcher.handlerCall (fuel : Nat) (ctx : Context) (IsRetryable : GoError → Bool)
    (ds : SubscriptionDriver) (ids : List AckID) (SendAcks : Nat → Option GoError)
    (s : Subscription) : Option ((Option GoError × Subscription) × Nat) :=
  (retry.Call ctx IsRetryable SendAcks fuel 0).map fun r =>
    (defaultAckBatcher.handler ds ids r.1 s, r.2)

/-! ## URLs and the URL multiplexer -/

/-- The type `url.Values` as `u.Query()` returns it: for every key its first
value and its further values (`url.ParseQuery` never stores a key without a
value), the entries in the order in which one `range` loop visits them. -/
abbrev Values := List (String × String × List String)

/-- The method `url.Values.Get`: the first value of the key, or the empty
string. -/
def Values.Get : Values → String → String
  | [], _ => ""
  | (k, v, _) :: rest, key => if k = key then v else Values.Get rest key

/-- The method `url.Values.Del`. -/
def Values.Del (q : Values) (key : String) : Values := q.filter fun kv => kv.1 != key

/-- A `*url.URL`: scheme, host, path, the query as text, and the map that
`u.Query()` makes of that text whenever it is called. -/
structure URL where
  Scheme : String
  Host : String
  Path : String
  RawQuery : String
  Query : Values
  deriving DecidableEq, Repr

/-- The method `URL.String`, without escaping, of a URL that has no opaque
part, user information, forced query or fragment (the model has no such
fields).  The scheme is followed by ":", and "//" is written only when there is
a host or a path to follow it; a path that does not start with "/" is
separated from the host by "/", and a path whose first segment holds a ":" and
that would start the text is written after "./". -/
def URL.String (u : URL) : String :=
  (if u.Scheme = "" then "" else u.Scheme ++ ":") ++
  (if (u.Scheme ≠ "" ∨ u.Host ≠ "") ∧ (u.Host ≠ "" ∨ u.Path ≠ "") then "//" else "") ++
  u.Host ++
  (if u.Path ≠ "" ∧ u.Path.front ≠ '/' ∧ u.Host ≠ "" then "/" else "") ++
  (if u.Scheme = "" ∧ u.Host = "" ∧ (u.Path.takeWhile (· ≠ '/')).contains ':' then "./"
   else "") ++
  u.Path ++
  (if u.RawQuery = "" then "" else "?" ++ u.RawQuery)

/-- Modelled from the spec: `internal/openurl` is not part of the sources.  A
`SchemeMap` is the registry of "scheme string to opener" entries, in the order
of their registration. -/
structure SchemeMap (α : Type) where
  m : List (String × α)

/-- The opener registered for a scheme, if there is one. -/
def SchemeMap.lookup {α : Type} (sm : SchemeMap α) (scheme : String) : Option α :=
  (sm.m.find? fun kv => kv.1 = scheme).map Prod.snd

/-- Modelled from the spec: `SchemeMap.Register`.  "Register(scheme, opener) is
only valid once per scheme within one registry instance; a duplicate
registration is a fatal programmer error"; the registry is append-only. -/
def SchemeMap.Register {α : Type} (api typ scheme : String) (value : α)
    (sm : SchemeMap α) : Outcome (SchemeMap α) :=
  match sm.lookup scheme with
  | some _ => .panicked sm ("scheme already registered for " ++ api ++ "." ++ typ)
  | none => .returned ⟨sm.m ++ [(scheme, value)]⟩

/-- The "no provider registered" error of the lookup. -/
def noProviderRegistered (typ scheme : String) : GoError :=
  GoError.fmtErrorf "open %s: no provider registered for %s" [typ, scheme]

/-- Modelled from the spec: `SchemeMap.FromURL` "looks up the opener for its
scheme, and fails with a distinct no provider registered error if absent". -/
def SchemeMap.FromURL {α : Type} (typ : String) (u : URL) (sm : SchemeMap α) :
    Except GoError α :=
  match sm.lookup u.Scheme with
  | none => .error (noProviderRegistered typ u.Scheme)
  | some v => .ok v

/-- Modelled from the spec: `SchemeMap.FromString` "parses the string as a URL"
and then looks the scheme up.  `parse` is `url.Parse`. -/
def SchemeMap.FromString {α : Type} (parse : String → Except GoError URL) (typ urlstr : String)
    (sm : SchemeMap α) : Except GoError (α × URL) :=
  match parse urlstr with
  | .error e => .error (GoError.fmtErrorfErr "open %s: %v" [typ] e)
  | .ok u =>
    match sm.FromURL typ u with
    | .error e => .error e
    | .ok v => .ok (v, u)

/-- The interface `TopicURLOpener`: the method `OpenTopicURL`. -/
abbrev TopicURLOpener := Context → URL → Option Topic × Option GoError

/-- The interface `SubscriptionURLOpener`: the method `OpenSubscriptionURL`. -/
abbrev SubscriptionURLOpener := Context → URL → Option Subscription × Option GoError

/-- The struct `URLMux`. -/
structure URLMux where
  subscriptionSchemes : SchemeMap SubscriptionURLOpener
  topicSchemes : SchemeMap TopicURLOpener

/-- The zero value of `URLMux`, "a multiplexer with no registered schemes". -/
def URLMux.zero : URLMux := ⟨⟨[]⟩, ⟨[]⟩⟩

/-- The method `URLMux.RegisterTopic`. -/
def URLMux.RegisterTopic (scheme : String) (opener : TopicURLOpener) (mux : URLMux) :
    Outcome URLMux :=
  match mux.topicSchemes.Register "pubsub" "Topic" scheme opener with
  | .returned sm => .returned { mux with topicSchemes := sm }
  | .panicked sm v => .panicked { mux with topicSchemes := sm } v

/-- The method `URLMux.RegisterSubscription`. -/
def URLMux.RegisterSubscription (scheme : String) (opener : SubscriptionURLOpener)
    (mux : URLMux) : Outcome URLMux :=
  match mux.subscriptionSchemes.Register "pubsub" "Subscription" scheme opener with
  | .returned sm => .returned { mux with subscriptionSchemes := sm }
  | .panicked sm v => .panicked { mux with subscriptionSchemes := sm } v

/-- What an `Open` method of the multiplexer did: the two values it returns,
and the schemes of the openers it called. -/
structure Opened (α : Type) where
  value : Option α
  err : Option GoError
  called : List String

/-- The method `URLMux.OpenTopic`. -/
def URLMux.OpenTopic (parse : String → Except GoError URL) (ctx : Context) (urlstr : String)
    (mux : URLMux) : Opened Topic :=
  match mux.topicSchemes.FromString parse "Topic" urlstr with
  | .error e => ⟨none, some e, []⟩
  | .ok (opener, u) => ⟨(opener ctx u).1, (opener ctx u).2, [u.Scheme]⟩

/-- The method `URLMux.OpenSubscription`. -/
def URLMux.OpenSubscription (parse : String → Except GoError URL) (ctx : Context)
    (urlstr : String) (mux : URLMux) : Opened Subscription :=
  match mux.subscriptionSchemes.FromString parse "Subscription" urlstr with
  | .error e => ⟨none, some e, []⟩
  | .ok (opener, u) => ⟨(opener ctx u).1, (opener ctx u).2, [u.Scheme]⟩

/-- A registration on a multiplexer: `RegisterTopic` or `RegisterSubscription`. -/
inductive MuxOp
  | registerTopic (scheme : String) (opener : TopicURLOpener)
  | registerSubscription (scheme : String) (opener : SubscriptionURLOpener)

/-- The multiplexer after one registration, whether it returned or panicked. -/
def MuxOp.apply : MuxOp → URLMux → URLMux
  | .registerTopic scheme opener, mux => (mux.RegisterTopic scheme opener).state
  | .registerSubscription scheme opener, mux => (mux.RegisterSubscription scheme opener).state

/-- The multiplexer after a sequence of registrations. -/
def URLMux.run : List MuxOp → URLMux → URLMux
  | [], mux => mux
  | op :: ops, mux => URLMux.run ops (op.apply mux)

/-! ## azurepubsub -/

/-- The constant `azurepubsub.Scheme`. -/
def azurepubsub.Scheme : String := "azuresb"

/-- A non-nil `error` value as `errorCode` can be handed one: an interface
that holds a nil `*amqp.Error` pointer (the type assertion succeeds on it and
yields nil), or an error value of the model above. -/
inductive azurepubsub.ErrorValue
  | nilAmqpError
  | value (err : GoError)
  deriving DecidableEq, Repr

/-- The function `errorCode` of `azurepubsub`; `none` is the panic of the nil
pointer dereference in `aerr.Condition`. -/
def azurepubsub.errorCode : azurepubsub.ErrorValue → Option ErrorCode
  | .nilAmqpError => none
  | .value (.amqp .ErrorNotFound) => some ErrorCode.NotFound
  | .value (.amqp .ErrorPreconditionFailed) => some ErrorCode.FailedPrecondition
  | .value (.amqp .ErrorInternalError) => some ErrorCode.Internal
  | .value (.amqp .ErrorNotImplemented) => some ErrorCode.Unimplemented
  | .value (.amqp .ErrorUnauthorizedAccess) => some ErrorCode.PermissionDenied
  | .value (.amqp .ErrorNotAllowed) => some ErrorCode.PermissionDenied
  | .value (.amqp .ErrorResourceLimitExceeded) => some ErrorCode.ResourceExhausted
  | .value (.amqp .ErrorInvalidField) => some ErrorCode.InvalidArgument
  | .value (.amqp (.other _)) => some ErrorCode.Unknown
  | .value _ => some ErrorCode.Unknown

/-- The methods `topic.ErrorCode` and `subscription.ErrorCode`, which return
`errorCode(err)`, on the error values of the model; `errorCode` returns on
every one of them, so the second case is never taken. -/
def azurepubsub.ErrorCode (err : GoError) : ErrorCode :=
  match azurepubsub.errorCode (.value err) with
  | some c => c
  | none => ErrorCode.Unknown

/-- The methods `topic.IsRetryable` and `subscription.IsRetryable`. -/
def azurepubsub.IsRetryable (_err : GoError) : Bool := false

/-- The method `subscription.AckFunc`, which returns nil, and the method
`subscription.ErrorCode`. -/
def azurepubsub.subscription : SubscriptionDriver := ⟨none, azurepubsub.ErrorCode⟩

/-- The calls that `URLOpener` makes into the Service Bus SDK and the standard
library, by their results: the error of `servicebus.NewNamespace` for a
connection string, of `ns.NewTopic` for a topic name, of
`parentTopic.NewSubscription` for a topic and a subscription name, and
`path.Join`. -/
structure azurepubsub.ServiceBus where
  NewNamespace : String → Option GoError
  NewTopic : String → Option GoError
  NewSubscription : String → String → Option GoError
  pathJoin : String → String → String

/-- The struct `URLOpener` of `azurepubsub`: its connection string (the options
are passed on unread). -/
structure azurepubsub.URLOpener where
  ConnectionString : String

/-- The method `URLOpener.namespace`: the error it returns. -/
def azurepubsub.URLOpener.namespace (sb : azurepubsub.ServiceBus) (kind : String) (u : URL)
    (o : azurepubsub.URLOpener) : Option GoError :=
  if o.ConnectionString = "" then
    some (GoError.fmtErrorf "open %s %v: ConnectionString is required" [kind, u.String])
  else
    match sb.NewNamespace o.ConnectionString with
    | some err =>
      some (GoError.fmtErrorfErr "open %s %v: invalid connection string %q: %v"
        [kind, u.String, o.ConnectionString] err)
    | none => none

/-- The method `URLOpener.OpenTopicURL`: the two values it returns and the URL
it was given, as the call leaves it. -/
def azurepubsub.URLOpener.OpenTopicURL (sb : azurepubsub.ServiceBus) (_ctx : Context) (u : URL)
    (o : azurepubsub.URLOpener) : (Option Topic × Option GoError) × URL :=
  match o.namespace sb "topic" u with
  | some err => ((none, some err), u)
  | none =>
    match u.Query with
    | (param, _) :: _ =>
      ((none, some (GoError.fmtErrorf "open topic %q: invalid query parameter %q"
        [u.String, param])), u)
    | [] =>
      let topicName := sb.pathJoin u.Host u.Path
      match sb.NewTopic topicName with
      | some err =>
        ((none, some (GoError.fmtErrorfErr "open topic %v: couldn't open topic %q: %v"
          [u.String, topicName] err)), u)
      | none => ((some newTopic, none), u)

/-- The method `URLOpener.OpenSubscriptionURL`: the two values it returns and
the URL it was given, as the call leaves it.  `q` is the map that `u.Query()`
made; `Del` works on that map. -/
def azurepubsub.URLOpener.OpenSubscriptionURL (sb : azurepubsub.ServiceBus) (_ctx : Context)
    (u : URL) (o : azurepubsub.URLOpener) : (Option Subscription × Option GoError) × URL :=
  match o.namespace sb "subscription" u with
  | some err => ((none, some err), u)
  | none =>
    let topicName := sb.pathJoin u.Host u.Path
    match sb.NewTopic topicName with
    | some err =>
      ((none, some (GoError.fmtErrorfErr "open subscription %v: couldn't open topic %q: %v"
        [u.String, topicName] err)), u)
    | none =>
      let q := u.Query
      let subName := Values.Get q "subscription"
      let q := Values.Del q "subscription"
      if subName = "" then
        ((none, some (GoError.fmtErrorf
          "open subscription %q: missing required query parameter subscription" [u.String])), u)
      else
        match q with
        | (param, _) :: _ =>
          ((none, some (GoError.fmtErrorf "open subscription %q: invalid query parameter %q"
            [u.String, param])), u)
        | [] =>
          match sb.NewSubscription topicName subName with
          | some err =>
            ((none, some (GoError.fmtErrorfErr
              "open subscription %v: couldn't open subscription %q: %v"
              [u.String, subName] err)), u)
          | none => ((some newSubscription, none), u)

/-- The function `init` of `azurepubsub`, on the default multiplexer: the one
opener `o` is registered for topics and for subscriptions under `Scheme`.  The
second registration runs only if the first has returned. -/
def azurepubsub.init (oTopic : TopicURLOpener) (oSub : SubscriptionURLOpener) (mux : URLMux) :
    Outcome URLMux :=
  match mux.RegisterTopic azurepubsub.Scheme oTopic with
  | .panicked m v => .panicked m v
  | .returned m => m.RegisterSubscription azurepubsub.Scheme oSub

/-- What `SendAcks` does on the network, in order. -/
inductive azurepubsub.NetAction
  | dial
  | negotiateClaim
  | newLink
  | updateDisposition (lockTokens : List Nat)
  | close
  deriving DecidableEq, Repr

/-- The results of the network calls of `SendAcks`: `amqp.Dial`,
`cbs.NegotiateClaim`, `rpc.NewLink` and `link.RetryableRPC`. -/
structure azurepubsub.AmqpResults where
  Dial : Option GoError
  NegotiateClaim : Option GoError
  NewLink : Option GoError
  RetryableRPC : Option GoError
  deriving DecidableEq, Repr

/-- The method `subscription.SendAcks`: the error it returns and what it did
on the network.  An AckID that is a `*uuid.UUID` is `some` token; `client.Close`
is deferred once the dial has succeeded. -/
def azurepubsub.SendAcks (r : azurepubsub.AmqpResults) (ids : List AckID) :
    Option GoError × List azurepubsub.NetAction :=
  if ids.length = 0 then (none, [])
  else
    match r.Dial with
    | some err => (some err, [.dial])
    | none =>
      match r.NegotiateClaim with
      | some _ => (none, [.dial, .negotiateClaim, .close])
      | none =>
        let lockIds := ids.filterMap id
        match r.NewLink with
        | some err => (some err, [.dial, .negotiateClaim, .newLink, .close])
        | none =>
          (r.RetryableRPC,
           [.dial, .negotiateClaim, .newLink, .updateDisposition lockIds, .close])

/-! ## constantvar -/

/-- A `*runtimevar.Variable` built by `constantvar`: `New(value)` holds a
value, `NewError(err)` always fails with `err`. -/
inductive constantvar.Variable
  | New (value : String)
  | NewError (err : GoError)
  deriving DecidableEq, Repr

/-- The calls that `constantvar` makes into package `runtimevar`, by their
results: `DecoderByName` for a decoder name, and `Decode` of a decoder on
bytes. -/
structure constantvar.Runtimevar where
  DecoderByName : String → Except GoError Nat
  Decode : Nat → String → Except GoError String

/-- The function `NewBytes`. -/
def constantvar.NewBytes (rv : constantvar.Runtimevar) (b : String) (decoder : Nat) :
    constantvar.Variable :=
  match rv.Decode decoder b with
  | .error err => constantvar.Variable.NewError err
  | .ok value => constantvar.Variable.New value

/-- The loop of `OpenVariableURL` over the query map, from the entry it is
about to visit, with the current `value` and `errVal`: it ends with the final
`value` and `errVal`, or returns an error at a parameter it does not know. -/
def constantvar.OpenVariableURL.loop (u : URL) :
    Values → String → Option GoError → Except GoError (String × Option GoError)
  | [], value, errVal => .ok (value, errVal)
  | (param, val, _) :: rest, value, errVal =>
    if param = "decoder" then constantvar.OpenVariableURL.loop u rest value errVal
    else if param = "val" then constantvar.OpenVariableURL.loop u rest val errVal
    else if param = "err" then
      constantvar.OpenVariableURL.loop u rest value (some (GoError.errorsNew val))
    else
      .error (GoError.fmtErrorf "open variable %q: invalid query parameter %q"
        [u.String, param])

/-- The method `URLOpener.OpenVariableURL` of `constantvar`. -/
def constantvar.OpenVariableURL (rv : constantvar.Runtimevar) (u : URL) :
    Option constantvar.Variable × Option GoError :=
  let q := u.Query
  match rv.DecoderByName (Values.Get q "decoder") with
  | .error err =>
    (none, some (GoError.fmtErrorfErr "open variable %q: invalid \"decoder\": %v" [u.String] err))
  | .ok decoder =>
    match constantvar.OpenVariableURL.loop u q "" none with
    | .error err => (none, some err)
    | .ok (value, errVal) =>
      match errVal with
      | some e => (some (constantvar.Variable.NewError e), none)
      | none => (some (constantvar.NewBytes rv value decoder), none)

/-! ## Concrete inputs -/

/-- The driver of an at-most-once provider whose ack function panics, one of
the two common implementations named in the package documentation. -/
def panicDriver : SubscriptionDriver :=
  ⟨some fun _ => some "Ack called on an at-most-once subscription", fun _ => ErrorCode.Unknown⟩

/-- The driver of an at-least-once provider: `AckFunc()` is nil. -/
def queueDriver : SubscriptionDriver := ⟨none, fun _ => ErrorCode.Unknown⟩

/-- A driver message with body "hi" and AckID 7. -/
def dm0 : DriverMessage := ⟨[104, 105], [], some 7, none⟩

/-- The clock reads 100 and the driver returns the single message `dm0`. -/
def env0 : ReceiveEnv := ⟨100, false, ([dm0], none)⟩

/-- The message `Receive` hands out on `panicDriver` after fetching `dm0`. -/
def recvMsg : Message :=
  { Body := [104, 105], Metadata := [], processingStartTime := 100, asFunc := none,
    ack := AckClosure.callAckFunc, isAcked := false }

/-- The Subscription after that `Receive`: one channel made and closed. -/
def recvSub : Subscription := { newSubscription with chansMade := 1, closedChans := [0] }

/-- A message to send, with the valid metadata entry "k" = "v". -/
def msgHi : Message :=
  { Body := [104, 105], Metadata := [([107], [118])], processingStartTime := 0, asFunc := none,
    ack := AckClosure.unset, isAcked := false }

/-- A message with a second metadata entry whose key is the byte 0xFF. -/
def msgBad : Message := { msgHi with Metadata := [([107], [118]), ([255], [118])] }

/-- A message with two metadata keys that are not valid UTF-8, the bytes 255
and 254. -/
def msgTwoBad : Message := { msgHi with Metadata := [([255], [118]), ([254], [118])] }

/-- The Topic `newTopic` after a `Shutdown` that flushed. -/
def closedTopic : Topic :=
  { newTopic with err := some topicClosed, batcher := ⟨[], 1, true⟩, cancelCalls := 1 }

/-- The Topic `newTopic` after a `Shutdown` that returned on its context. -/
def abandonedTopic : Topic :=
  { newTopic with err := some topicClosed, batcher := ⟨[], 1, false⟩, cancelCalls := 1 }

/-- The Subscription `newSubscription` after a `Shutdown` that returned on
its context. -/
def closedSubscription : Subscription :=
  { newSubscription with err := some subscriptionClosed, ackBatcher := ⟨[], 1, false⟩,
                         cancelCalls := 1 }

/-- The error the ack batch handler stores when `SendAcks` fails with the
provider error 1 on `queueDriver`. -/
def ackFailure : GoError := GoError.gcerrNew ErrorCode.Unknown (GoError.provider 1) "pubsub"

/-- Two goroutines have called `Receive` on a new Subscription and the first
has taken its step: it owns the fetch, the second stands at the top. -/
def twoCallers : System :=
  ⟨{ newSubscription with waitc := some 0, chansMade := 1 },
   [ReceivePC.fetching 1, ReceivePC.top]⟩

/-- A Subscription whose messages take a millisecond on average. -/
def fastSub : Subscription := { newSubscription with avgProcessTime := Seconds 1000000 }

/-- A Subscription whose messages take a second on average. -/
def slowSub : Subscription := { newSubscription with avgProcessTime := Seconds 1000000000 }

/-- A Subscription without error and with an empty queue whose fetch (on the
channel 0) is in flight. -/
def fetchingSub : Subscription := { newSubscription with waitc := some 0, chansMade := 1 }

/-- The driver call of the fetch fails with `context.Canceled`. -/
def envCanceled : ReceiveEnv := ⟨100, false, ([], some GoError.ctxCanceled)⟩

/-- The driver call of the fetch fails with the provider error 1. -/
def envFailed : ReceiveEnv := ⟨100, false, ([], some (GoError.provider 1))⟩

/-- The URL "azuresb://mytopic". -/
def urlMyTopic : URL := ⟨"azuresb", "mytopic", "", "", []⟩

/-- The URL "azuresb://mytopic?param=value". -/
def urlParam : URL := ⟨"azuresb", "mytopic", "", "param=value", [("param", "value", [])]⟩

/-- The URL "azuresb://mytopic?subscription=mysub". -/
def urlSub : URL :=
  ⟨"azuresb", "mytopic", "", "subscription=mysub", [("subscription", "mysub", [])]⟩

/-- The URL "azuresb://mytopic?subscription=mysub&param=value". -/
def urlSubParam : URL :=
  ⟨"azuresb", "mytopic", "", "subscription=mysub&param=value",
   [("subscription", "mysub", []), ("param", "value", [])]⟩

/-- A `url.Parse` that knows the URL "azuresb://mytopic". -/
def parseMyTopic (urlstr : String) : Except GoError URL :=
  if urlstr = "azuresb://mytopic" then .ok urlMyTopic
  else .error (GoError.errorsNew "parse: invalid URL")

/-- A Service Bus SDK all of whose calls succeed. -/
def okServiceBus : azurepubsub.ServiceBus :=
  ⟨fun _ => none, fun _ => none, fun _ _ => none, fun host path => host ++ path⟩

/-- An opener with the connection string of the tests. -/
def testOpener : azurepubsub.URLOpener :=
  ⟨"Endpoint=sb://foo.servicebus.windows.net/;SharedAccessKeyName=RootManageSharedAccessKey"⟩

/-- The topic opener of `azurepubsub` on `okServiceBus`. -/
def azureTopicOpener : TopicURLOpener :=
  fun ctx u => (testOpener.OpenTopicURL okServiceBus ctx u).1

/-- The subscription opener of `azurepubsub` on `okServiceBus`. -/
def azureSubscriptionOpener : SubscriptionURLOpener :=
  fun ctx u => (testOpener.OpenSubscriptionURL okServiceBus ctx u).1

/-- The multiplexer after `azurepubsub.init`. -/
def azureMux : URLMux :=
  ⟨⟨[("azuresb", azureSubscriptionOpener)]⟩, ⟨[("azuresb", azureTopicOpener)]⟩⟩

/-- An operation that fails twice with the provider error 1 and then
succeeds. -/
def failsTwice (i : Nat) : Option GoError :=
  if i < 2 then some (GoError.provider 1) else none

/-- An operation that always fails with the provider error 1. -/
def failsAlways (_i : Nat) : Option GoError := some (GoError.provider 1)

/-- The connection is dialed and the credential negotiation fails. -/
def claimFails : azurepubsub.AmqpResults :=
  ⟨none, some (GoError.provider 2), none, none⟩

/-- A package `runtimevar` that knows the decoders "" and "string" and decodes
bytes to themselves. -/
def okRuntimevar : constantvar.Runtimevar :=
  ⟨fun name => if name = "" ∨ name = "string" then .ok 0
               else .error (GoError.errorsNew "unsupported decoder"),
   fun _ b => .ok b⟩

/-- The URL "constant://?a=1&b=2", its query visited as a, b. -/
def urlTwoUnknown : URL := ⟨"constant", "", "", "a=1&b=2", [("a", "1", []), ("b", "2", [])]⟩

/-- The URL "constant://?err=boom&val=foo", its query visited as err, val. -/
def urlErrVal : URL :=
  ⟨"constant", "", "", "err=boom&val=foo", [("err", "boom", []), ("val", "foo", [])]⟩

/-! ## Frame lemmas -/

theorem addProcessingTime_frame (d : Int) (s : Subscription) :
    (s.addProcessingTime d).err = s.err ∧ (s.addProcessingTime d).q = s.q ∧
    (s.addProcessingTime d).waitc = s.waitc ∧
    (s.addProcessingTime d).ackFuncCalls = s.ackFuncCalls ∧
    (s.addProcessingTime d).ackBatcher = s.ackBatcher ∧
    (s.addProcessingTime d).cancelCalls = s.cancelCalls := by
  by_cases h : s.avgProcessTime.eq Float64.zero <;> simp [Subscription.addProcessingTime, h]

theorem getNextBatch_built (ds : SubscriptionDriver)
    (rb : List DriverMessage × Option GoError) :
    ∀ x ∈ (Subscription.getNextBatch ds rb).1, ∃ dm, x = Subscription.getNextBatch.m2 ds dm := by
  intro x hx
  unfold Subscription.getNextBatch at hx
  split at hx
  · simp at hx
  · simp only [List.mem_map] at hx
    obtain ⟨dm, _, rfl⟩ := hx
    exact ⟨dm, rfl⟩

theorem receive_step_frame (ds : SubscriptionDriver) (ctx : Context) (env : ReceiveEnv)
    (pc pc1 : ReceivePC) (s s1 : Subscription)
    (h : Subscription.Receive.step ds ctx env pc s = some (pc1, s1)) :
    s1.err = s.err ∧ (s.queueBuilt ds → s1.queueBuilt ds ∧ pc1.handsOutBuilt ds) := by
  cases pc with
  | top =>
    simp only [Subscription.Receive.step] at h
    split at h
    · simp only [Option.some.injEq, Prod.mk.injEq] at h
      obtain ⟨rfl, rfl⟩ := h
      exact ⟨rfl, fun hq => ⟨hq, by intro m e hm; simp at hm⟩⟩
    · split at h
      · rename_i m rest hqe
        simp only [Option.some.injEq, Prod.mk.injEq] at h
        obtain ⟨rfl, rfl⟩ := h
        refine ⟨rfl, fun hq => ⟨?_, ?_⟩⟩
        · intro x hx
          exact hq x (by rw [hqe]; exact List.mem_cons_of_mem _ hx)
        · intro m0 e hm
          obtain ⟨dm, hdm⟩ := hq m (by rw [hqe]; exact List.mem_cons_self _ _)
          simp only [ReceivePC.returned.injEq, Option.some.injEq] at hm
          exact ⟨dm, env.now, by rw [← hm.1, hdm]⟩
      · split at h <;>
        · simp only [Option.some.injEq, Prod.mk.injEq] at h
          obtain ⟨rfl, rfl⟩ := h
          exact ⟨rfl, fun hq => ⟨hq, by intro m e hm; simp at hm⟩⟩
  | waiting c =>
    simp only [Subscription.Receive.step] at h
    split at h
    · simp only [Option.some.injEq, Prod.mk.injEq] at h
      obtain ⟨rfl, rfl⟩ := h
      exact ⟨rfl, fun hq => ⟨hq, by intro m e hm; simp at hm⟩⟩
    · split at h
      · simp only [Option.some.injEq, Prod.mk.injEq] at h
        obtain ⟨rfl, rfl⟩ := h
        exact ⟨rfl, fun hq => ⟨hq, by intro m e hm; simp at hm⟩⟩
      · simp at h
  | fetching n =>
    simp only [Subscription.Receive.step] at h
    split at h
    · simp only [Option.some.injEq, Prod.mk.injEq] at h
      obtain ⟨rfl, rfl⟩ := h
      exact ⟨rfl, fun hq => ⟨hq, by intro m e hm; simp at hm⟩⟩
    · split at h
      · simp only [Option.some.injEq, Prod.mk.injEq] at h
        obtain ⟨rfl, rfl⟩ := h
        exact ⟨rfl, fun hq => ⟨hq, by intro m e hm; simp at hm⟩⟩
      · simp only [Option.some.injEq, Prod.mk.injEq] at h
        obtain ⟨rfl, rfl⟩ := h
        refine ⟨rfl, fun hq => ⟨?_, by intro m e hm; simp at hm⟩⟩
        intro x hx
        simp only [List.mem_append] at hx
        rcases hx with hx | hx
        · exact hq x hx
        · exact getNextBatch_built ds env.batch x hx
  | returned m e => simp [Subscription.Receive.step] at h
  | panicked v => simp [Subscription.Receive.step] at h

theorem receive_run_built (ds : SubscriptionDriver) (ctx : Context) :
    ∀ (envs : List ReceiveEnv) (pc pc1 : ReceivePC) (s s1 : Subscription),
      Subscription.Receive.run ds ctx envs pc s = some (pc1, s1) →
      s.queueBuilt ds → pc.handsOutBuilt ds →
      s1.queueBuilt ds ∧ pc1.handsOutBuilt ds := by
  intro envs
  induction envs with
  | nil =>
    intro pc pc1 s s1 h hq hpc
    cases pc <;> simp [Subscription.Receive.run] at h
    all_goals (obtain ⟨rfl, rfl⟩ := h; exact ⟨hq, hpc⟩)
  | cons env envs ih =>
    intro pc pc1 s s1 h hq hpc
    cases pc with
    | returned m e =>
      simp [Subscription.Receive.run] at h
      obtain ⟨rfl, rfl⟩ := h; exact ⟨hq, hpc⟩
    | panicked v =>
      simp [Subscription.Receive.run] at h
      obtain ⟨rfl, rfl⟩ := h; exact ⟨hq, hpc⟩
    | top =>
      simp only [Subscription.Receive.run] at h
      split at h
      · simp at h
      · rename_i pc2 s2 hstep
        obtain ⟨hq2, hpc2⟩ := (receive_step_frame ds ctx env _ _ _ _ hstep).2 hq
        exact ih _ _ _ _ h hq2 hpc2
    | waiting c =>
      simp only [Subscription.Receive.run] at h
      split at h
      · simp at h
      · rename_i pc2 s2 hstep
        obtain ⟨hq2, hpc2⟩ := (receive_step_frame ds ctx env _ _ _ _ hstep).2 hq
        exact ih _ _ _ _ h hq2 hpc2
    | fetching n =>
      simp only [Subscription.Receive.run] at h
      split at h
      · simp at h
      · rename_i pc2 s2 hstep
        obtain ⟨hq2, hpc2⟩ := (receive_step_frame ds ctx env _ _ _ _ hstep).2 hq
        exact ih _ _ _ _ h hq2 hpc2

theorem ackClosure_run_frame (ds : SubscriptionDriver) (now : Int) (m : Message)
    (s : Subscription) (c : AckClosure) :
    (c.run ds now m s).state.err = s.err ∧ (c.run ds now m s).state.q = s.q := by
  have hfr := addProcessingTime_frame (now - m.processingStartTime) s
  have he := hfr.1
  have hq := hfr.2.1
  cases c with
  | unset => exact ⟨rfl, rfl⟩
  | queueAck id =>
    exact ⟨by simpa [AckClosure.run, Outcome.state] using he,
           by simpa [AckClosure.run, Outcome.state] using hq⟩
  | callAckFunc =>
    unfold AckClosure.run
    cases ds.AckFunc with
    | none => exact ⟨by simpa [Outcome.state] using he, by simpa [Outcome.state] using hq⟩
    | some f =>
      simp only
      split
      · exact ⟨by simpa [Outcome.state] using he, by simpa [Outcome.state] using hq⟩
      · exact ⟨by simpa [Outcome.state] using he, by simpa [Outcome.state] using hq⟩

theorem ack_frame (ds : SubscriptionDriver) (now : Int) (m : Message) (s : Subscription) :
    (Message.Ack ds now m s).outcome.state.2.err = s.err ∧
    (Message.Ack ds now m s).outcome.state.2.q = s.q := by
  have hr := ackClosure_run_frame ds now m s m.ack
  unfold Message.Ack
  split
  · exact ⟨rfl, rfl⟩
  · split
    · simpa [Outcome.state] using hr
    · rename_i heq _
      rw [heq] at hr
      simpa [Outcome.state] using hr
    · rename_i heq _
      rw [heq] at hr
      simpa [Outcome.state] using hr

theorem subscriptionOp_apply_frame (ds : SubscriptionDriver) (op : SubscriptionOp)
    (s s1 : Subscription) (h : op.apply ds s = some s1) :
    (s1.err = s.err ∨ s1.err = some subscriptionClosed ∨
      (op.isFailedAckHandler = true ∧ s1.err ≠ none)) ∧
    (s.queueBuilt ds → s1.queueBuilt ds) := by
  cases op with
  | receiveStep ctx env pc =>
    simp only [SubscriptionOp.apply, Option.map_eq_some'] at h
    obtain ⟨a, ha, rfl⟩ := h
    have hf := receive_step_frame ds ctx env pc a.1 s a.2 ha
    exact ⟨Or.inl hf.1, fun hq => (hf.2 hq).1⟩
  | shutdown ctx flushed =>
    simp only [SubscriptionOp.apply, Subscription.Shutdown, Option.map_eq_some'] at h
    obtain ⟨a, ha, rfl⟩ := h
    split at ha
    · simp only [Option.some.injEq] at ha
      subst ha
      exact ⟨Or.inr (Or.inl rfl), fun hq => hq⟩
    · simp at ha
  | ack now m =>
    simp only [SubscriptionOp.apply, Option.some.injEq] at h
    subst h
    have hf := ack_frame ds now m s
    refine ⟨Or.inl hf.1, fun hq => ?_⟩
    intro x hx
    rw [hf.2] at hx
    exact hq x hx
  | ackHandler ids r =>
    simp only [SubscriptionOp.apply, Option.some.injEq] at h
    subst h
    cases r with
    | none => exact ⟨Or.inl rfl, fun hq => hq⟩
    | some e =>
      exact ⟨Or.inr (Or.inr ⟨rfl, by simp [defaultAckBatcher.handler]⟩), fun hq => hq⟩
  | addProcessingTime d =>
    simp only [SubscriptionOp.apply, Option.some.injEq] at h
    subst h
    have hf := addProcessingTime_frame d s
    refine ⟨Or.inl hf.1, fun hq => ?_⟩
    intro x hx
    rw [hf.2.1] at hx
    exact hq x hx

theorem subscription_run_frame (ds : SubscriptionDriver) :
    ∀ (ops : List SubscriptionOp) (s s1 : Subscription), Subscription.run ds ops s = some s1 →
      (s.err ≠ none → s1.err ≠ none) ∧
      (s.err = some subscriptionClosed → (∀ op ∈ ops, op.isFailedAckHandler = false) →
        s1.err = some subscriptionClosed) ∧
      (s.queueBuilt ds → s1.queueBuilt ds) := by
  intro ops
  induction ops with
  | nil =>
    intro s s1 h
    simp only [Subscription.run, Option.some.injEq] at h
    subst h
    exact ⟨id, fun hc _ => hc, id⟩
  | cons op ops ih =>
    intro s s1 h
    simp only [Subscription.run] at h
    split at h
    · rename_i s2 hop
      obtain ⟨h1, h2, h3⟩ := ih s2 s1 h
      obtain ⟨herr, hq⟩ := subscriptionOp_apply_frame ds op s s2 hop
      refine ⟨?_, ?_, fun hb => h3 (hq hb)⟩
      · rcases herr with he | he | ⟨_, he⟩
        · exact fun hc => h1 (he ▸ hc)
        · exact fun _ => h1 (by simp [he])
        · exact fun _ => h1 he
      · intro hc hall
        have hrest : ∀ o ∈ ops, o.isFailedAckHandler = false :=
          fun o ho => hall o (List.mem_cons_of_mem _ ho)
        rcases herr with he | he | ⟨hf, _⟩
        · exact h2 (he ▸ hc) hrest
        · exact h2 he hrest
        · have := hall op (List.mem_cons_self _ _)
          rw [hf] at this
          cases this
    · simp at h

theorem newSubscription_queueBuilt (ds : SubscriptionDriver) :
    newSubscription.queueBuilt ds := by
  intro x hx
  simp [newSubscription] at hx

theorem receive_of_err (ds : SubscriptionDriver) (ctx : Context)
    (env : ReceiveEnv) (envs : List ReceiveEnv) (s : Subscription) (e : GoError)
    (h : s.err = some e) :
    Subscription.Receive ds ctx (env :: envs) s = some (ReceivePC.returned none (some e), s) := by
  unfold Subscription.Receive
  simp only [Subscription.Receive.run, Subscription.Receive.step, h]

theorem subscription_shutdown_result (ctx : Context) (flushed : Bool) (s s1 : Subscription)
    (r : Option GoError) (h : Subscription.Shutdown ctx flushed s = some (r, s1)) :
    r = ctx.Err ∧ s1.err = some subscriptionClosed ∧ s1.q = s.q := by
  unfold Subscription.Shutdown at h
  split at h
  · simp only [Option.some.injEq, Prod.mk.injEq] at h
    obtain ⟨rfl, rfl⟩ := h
    exact ⟨rfl, rfl, rfl⟩
  · simp at h

theorem checkMetadata_isSome (md : List (GoString × GoString))
    (h : ∃ kv ∈ md, ValidString kv.1 = false ∨ ValidString kv.2 = false) :
    ∃ e, checkMetadata md = some e := by
  induction md with
  | nil => simp at h
  | cons kv rest ih =>
    obtain ⟨k, v⟩ := kv
    unfold checkMetadata
    by_cases hk : ValidString k = false
    · simp [hk]
    · by_cases hv : ValidString v = false
      · simp [hk, hv]
      · simp only [Bool.not_eq_false] at hk hv
        simp only [hk, hv, Bool.not_true, Bool.false_eq_true, if_false]
        apply ih
        obtain ⟨kv, hmem, hbad⟩ := h
        rcases List.mem_cons.mp hmem with rfl | hmem
        · simp [hk, hv] at hbad
        · exact ⟨kv, hmem, hbad⟩

theorem checkMetadata_quotes_invalid (md : List (GoString × GoString)) (e : GoError)
    (h : checkMetadata md = some e) :
    ∃ kv ∈ md,
      (ValidString kv.1 = false ∧ e = GoError.errorf
        "pubsub.Send: Message.Metadata keys must be valid UTF-8 strings: %q" kv.1) ∨
      (ValidString kv.2 = false ∧ e = GoError.errorf
        "pubsub.Send: Message.Metadata values must be valid UTF-8 strings: %q" kv.2) := by
  induction md with
  | nil => simp [checkMetadata] at h
  | cons kv rest ih =>
    obtain ⟨k, v⟩ := kv
    unfold checkMetadata at h
    by_cases hk : ValidString k = false
    · simp only [hk, Bool.not_false, if_true, Option.some.injEq] at h
      exact ⟨(k, v), List.mem_cons_self _ _, Or.inl ⟨hk, h.symm⟩⟩
    · by_cases hv : ValidString v = false
      · simp only [Bool.not_eq_false] at hk
        simp only [hk, hv, Bool.not_true, Bool.false_eq_true, if_false, Bool.not_false,
          if_true, Option.some.injEq] at h
        exact ⟨(k, v), List.mem_cons_self _ _, Or.inr ⟨hv, h.symm⟩⟩
      · simp only [Bool.not_eq_false] at hk hv
        simp only [hk, hv, Bool.not_true, Bool.false_eq_true, if_false] at h
        obtain ⟨kv, hmem, hkv⟩ := ih h
        exact ⟨kv, List.mem_cons_of_mem _ hmem, hkv⟩

theorem send_of_err (ctx : Context) (m : Message) (addResult : Option GoError)
    (t : Topic) (e : GoError) (h : t.err = some e) :
    Topic.Send ctx m addResult t =
      (match ctx.Err with
       | some e0 => some e0
       | none => some e, t) := by
  unfold Topic.Send
  cases ctx.Err <;> simp [h]

theorem topicOp_apply_err (ec : GoError → ErrorCode) (op : TopicOp) (t t1 : Topic)
    (h : op.apply ec t = some t1) : t1.err = t.err ∨ t1.err = some topicClosed := by
  cases op with
  | send ctx m a =>
    simp only [TopicOp.apply, Option.some.injEq] at h
    subst h
    left
    unfold Topic.Send
    split
    · rfl
    · split
      · rfl
      · split <;> rfl
  | shutdown ctx flushed =>
    simp only [TopicOp.apply, Topic.Shutdown, Option.map_eq_some'] at h
    obtain ⟨a, ha, rfl⟩ := h
    split at ha
    · simp only [Option.some.injEq] at ha
      subst ha
      right; rfl
    · simp at ha
  | sendHandler ms r =>
    simp only [TopicOp.apply, Option.some.injEq] at h
    subst h
    left
    unfold defaultBatcher.handler
    split <;> rfl

theorem topic_run_err (ec : GoError → ErrorCode) :
    ∀ (ops : List TopicOp) (t t1 : Topic), Topic.run ec ops t = some t1 →
      (t.err = some topicClosed → t1.err = some topicClosed) ∧
      (t.err ≠ none → t1.err ≠ none) := by
  intro ops
  induction ops with
  | nil =>
    intro t t1 h
    simp only [Topic.run, Option.some.injEq] at h
    subst h
    exact ⟨id, id⟩
  | cons op ops ih =>
    intro t t1 h
    simp only [Topic.run] at h
    split at h
    · rename_i t2 hop
      obtain ⟨h1, h2⟩ := ih t2 t1 h
      rcases topicOp_apply_err ec op t t2 hop with he | he
      · exact ⟨fun hc => h1 (he ▸ hc), fun hc => h2 (he ▸ hc)⟩
      · exact ⟨fun _ => h1 he, fun _ => h2 (by simp [he])⟩
    · simp at h

theorem topic_shutdown_result (ctx : Context) (flushed : Bool) (t t1 : Topic)
    (r : Option GoError) (h : Topic.Shutdown ctx flushed t = some (r, t1)) :
    r = ctx.Err ∧ t1.err = some topicClosed ∧ t1.batcher.shutdownReturned = flushed ∧
    (ctx.Done || flushed) = true := by
  unfold Topic.Shutdown at h
  split at h
  · rename_i hc
    simp only [Option.some.injEq, Prod.mk.injEq] at h
    obtain ⟨rfl, rfl⟩ := h
    exact ⟨rfl, rfl, rfl, hc⟩
  · simp at h

theorem ack_of_run_returned (ds : SubscriptionDriver) (now : Int) (m : Message)
    (w w1 : Subscription) (hacked : m.isAcked = false) (hset : m.ack ≠ AckClosure.unset)
    (hrun : m.ack.run ds now m w = Outcome.returned w1) :
    Message.Ack ds now m w = ⟨Outcome.returned ({ m with isAcked := true }, w1), 1⟩ := by
  unfold Message.Ack
  rw [if_neg (by simp [hacked])]
  cases hk : m.ack with
  | unset => exact absurd hk hset
  | queueAck id => rw [hk] at hrun; simp only [hrun]
  | callAckFunc => rw [hk] at hrun; simp only [hrun]

theorem built_run_returned (ds : SubscriptionDriver) (dm : DriverMessage) (now0 now : Int)
    (w : Subscription) (hf : ∀ f, ds.AckFunc = some f → f w.ackFuncCalls = none) :
    ∃ w1, AckClosure.run ds now
        { Subscription.getNextBatch.m2 ds dm with processingStartTime := now0 } w
        (Subscription.getNextBatch.m2 ds dm).ack = Outcome.returned w1 := by
  have hfr := addProcessingTime_frame (now - now0) w
  cases hA : ds.AckFunc with
  | none => exact ⟨_, by simp [Subscription.getNextBatch.m2, hA, AckClosure.run]; rfl⟩
  | some f =>
    exact ⟨_, by simp [Subscription.getNextBatch.m2, hA, AckClosure.run, hfr.2.2.2.1, hf f hA]; rfl⟩

/-! ## Message.Ack -/

/-- C1, as amended: on a Subscription reached from `newSubscription` by
operations of the package, let `Receive` return the message `m`.  If the
driver's ack function, when there is one, returns normally at the time of the
call, then the first `m.Ack()` returns normally, having entered the closure
`m.ack` exactly once and set `isAcked`; and every later `Ack` on that message
panics with "Ack() called twice on message", does not enter the closure and
leaves the Subscription as it was. -/
theorem ack_first_returns_second_panics (ds : SubscriptionDriver) (ctx : Context)
    (ops : List SubscriptionOp) (envs : List ReceiveEnv) (s s1 : Subscription) (m : Message)
    (hreach : Subscription.run ds ops newSubscription = some s)
    (hrecv : Subscription.Receive ds ctx envs s = some (ReceivePC.returned (some m) none, s1))
    (now : Int) (w : Subscription)
    (hf : ∀ f, ds.AckFunc = some f → f w.ackFuncCalls = none) :
    Message.Ack ds now m w =
        ⟨Outcome.returned ({ m with isAcked := true }, (m.ack.run ds now m w).state), 1⟩ ∧
      (m.ack.run ds now m w).isReturned = true ∧
      ∀ (now2 : Int) (w2 : Subscription),
        Message.Ack ds now2 { m with isAcked := true } w2 =
          ⟨Outcome.panicked ({ m with isAcked := true }, w2) "Ack() called twice on message", 0⟩ := by
  have hq : s.queueBuilt ds :=
    (subscription_run_frame ds ops newSubscription s hreach).2.2 (newSubscription_queueBuilt ds)
  have hb := (receive_run_built ds ctx envs _ _ _ _ hrecv hq
    (by intro m e hm; simp at hm)).2 m none rfl
  obtain ⟨dm, now0, rfl⟩ := hb
  obtain ⟨w1, hw1⟩ := built_run_returned ds dm now0 now w hf
  have hset : (Subscription.getNextBatch.m2 ds dm).ack ≠ AckClosure.unset := by
    unfold Subscription.getNextBatch.m2
    cases ds.AckFunc <;> simp
  refine ⟨?_, ?_, ?_⟩
  · have := ack_of_run_returned ds now
      { Subscription.getNextBatch.m2 ds dm with processingStartTime := now0 } w w1 rfl hset hw1
    rw [this]
    show _ = AckCall.mk (Outcome.returned (_, (AckClosure.run ds now _ w
      (Subscription.getNextBatch.m2 ds dm).ack).state)) 1
    rw [hw1]; rfl
  · show (AckClosure.run ds now _ w (Subscription.getNextBatch.m2 ds dm).ack).isReturned = true
    rw [hw1]; rfl
  · intro now2 w2
    simp [Message.Ack]

/-- Witness for C1, as amended: on the at-least-once driver `queueDriver`,
`Receive` on a new Subscription fetches `dm0` and hands it out; its first `Ack`
returns and the second panics. -/
theorem ack_first_returns_second_panics_witness :
    Subscription.run queueDriver [] newSubscription = some newSubscription ∧
    Subscription.Receive queueDriver Context.Background [env0, env0, env0] newSubscription =
      some (ReceivePC.returned (some { recvMsg with ack := AckClosure.queueAck (some 7) }) none,
            recvSub) ∧
    (Message.Ack queueDriver 105 { recvMsg with ack := AckClosure.queueAck (some 7) } recvSub).ackRuns
      = 1 ∧
    ((AckClosure.queueAck (some 7)).run queueDriver 105
        { recvMsg with ack := AckClosure.queueAck (some 7) } recvSub).isReturned = true ∧
    Message.Ack queueDriver 106
        { recvMsg with ack := AckClosure.queueAck (some 7), isAcked := true } recvSub =
      ⟨Outcome.panicked ({ recvMsg with ack := AckClosure.queueAck (some 7), isAcked := true }, recvSub)
        "Ack() called twice on message", 0⟩ :=
  have hf : ∀ f, queueDriver.AckFunc = some f → f recvSub.ackFuncCalls = none := by
    intro f h; simp [queueDriver] at h
  have h := ack_first_returns_second_panics queueDriver Context.Background []
    [env0, env0, env0] newSubscription recvSub { recvMsg with ack := AckClosure.queueAck (some 7) }
    rfl (by decide) 105 recvSub hf
  ⟨rfl, by decide, by rw [h.1], h.2.1, h.2.2 106 recvSub⟩

/-- Counterexample to C1 as stated: on `panicDriver`, whose ack function
panics, `Receive` hands out `recvMsg`, and the first `Ack` on it does not
return normally. -/
theorem ack_first_call_can_panic :
    Subscription.Receive panicDriver Context.Background [env0, env0, env0] newSubscription
      = some (ReceivePC.returned (some recvMsg) none, recvSub) ∧
    (recvMsg.Ack panicDriver 105 recvSub).outcome.isReturned = false := by
  decide

/-- C2, the code at the failing input: `recvMsg` is handed out by `Receive` on
`panicDriver`; a caller that calls `Ack` twice, recovering from the panic of
the first call, enters the closure `m.ack` twice: the ack function of the
driver has been called twice and `isAcked` is still false. -/
theorem ackAll_enters_closure_twice :
    Subscription.Receive panicDriver Context.Background [env0, env0, env0] newSubscription
      = some (ReceivePC.returned (some recvMsg) none, recvSub) ∧
    (Message.AckAll panicDriver [105, 106] recvMsg recvSub).2.2 = 2 ∧
    (Message.AckAll panicDriver [105, 106] recvMsg recvSub).2.1.ackFuncCalls = 2 ∧
    (Message.AckAll panicDriver [105, 106] recvMsg recvSub).1.isAcked = false := by
  have h1 := addProcessingTime_frame
  refine ⟨by decide, ?_, ?_, ?_⟩ <;>
  simp [Message.AckAll, Message.Ack, AckClosure.run, recvMsg, panicDriver, Outcome.state, h1,
    recvSub, newSubscription]

/-! ## Topic.Send -/

/-- C3, as amended: after `Topic.Shutdown` has returned, and after any further
operations on the Topic, every `Send` whose context is not done returns the
closed error `topicClosed` for every message and leaves the Topic, and so its
batcher, untouched; a `Send` whose context is done returns that context's
error instead, and does not touch the Topic either. -/
theorem send_after_shutdown (ec : GoError → ErrorCode) (t t1 t2 : Topic)
    (ctx0 : Context) (flushed : Bool) (r : Option GoError) (ops : List TopicOp)
    (hsd : Topic.Shutdown ctx0 flushed t = some (r, t1))
    (hops : Topic.run ec ops t1 = some t2)
    (ctx : Context) (m : Message) (addResult : Option GoError) :
    Topic.Send ctx m addResult t2 =
      (match ctx.Err with
       | some e => some e
       | none => some topicClosed, t2) :=
  send_of_err ctx m addResult t2 topicClosed
    ((topic_run_err ec ops t1 t2 hops).1 (topic_shutdown_result ctx0 flushed t t1 r hsd).2.1)

/-- Witness for C3, as amended: shut down a new Topic, send once more and run
the handler once; a `Send` with a live context then returns `topicClosed`. -/
theorem send_after_shutdown_witness :
    Topic.Shutdown Context.Background true newTopic = some (none, closedTopic) ∧
    Topic.run (fun _ => ErrorCode.Unknown)
      [TopicOp.send Context.Background msgHi none, TopicOp.sendHandler [msgHi] none]
      closedTopic = some { closedTopic with sent := [[⟨[104, 105], [([107], [118])], none, none⟩]] } ∧
    Topic.Send Context.Background msgHi none
        { closedTopic with sent := [[⟨[104, 105], [([107], [118])], none, none⟩]] } =
      (some topicClosed, { closedTopic with sent := [[⟨[104, 105], [([107], [118])], none, none⟩]] }) :=
  ⟨by decide, by decide,
   send_after_shutdown (fun _ => ErrorCode.Unknown) newTopic closedTopic _
     Context.Background true none
     [TopicOp.send Context.Background msgHi none, TopicOp.sendHandler [msgHi] none]
     (by decide) (by decide) Context.Background msgHi none⟩

/-- Counterexample to C3 as stated: after `Shutdown` has returned, a `Send`
with a canceled context returns `context.Canceled`, which is not the closed
error. -/
theorem closed_send_canceled_ctx :
    Topic.Shutdown Context.Background true newTopic = some (none, closedTopic) ∧
    Topic.Send Context.canceled msgHi none closedTopic = (some GoError.ctxCanceled, closedTopic) ∧
    GoError.ctxCanceled ≠ topicClosed := by
  decide

/-- C5: for every Topic and every message, a `Send` whose context is done
returns exactly the context's error and leaves the Topic, and so its batcher,
untouched. -/
theorem send_ctx_done (t : Topic) (m : Message) (addResult : Option GoError)
    (ctx : Context) (e : GoError) (h : ctx.Err = some e) :
    Topic.Send ctx m addResult t = (some e, t) := by
  unfold Topic.Send
  rw [h]

/-- Witness for C5: a closed Topic with an invalid message, and an open Topic
with a valid one. -/
theorem send_ctx_done_witness :
    Topic.Send Context.canceled msgBad none closedTopic = (some GoError.ctxCanceled, closedTopic) ∧
    Topic.Send Context.canceled msgHi none newTopic = (some GoError.ctxCanceled, newTopic) :=
  ⟨send_ctx_done closedTopic msgBad none Context.canceled GoError.ctxCanceled rfl,
   send_ctx_done newTopic msgHi none Context.canceled GoError.ctxCanceled rfl⟩

/-- Counterexample to C6 as stated: the metadata of `msgTwoBad` has two keys
that are not valid UTF-8.  Visited in one order `Send` returns the error that
quotes the key 255, visited in the other order the error that quotes the key
254: the error `Send` returns depends on the iteration order. -/
theorem send_error_depends_on_order :
    [([254], [118]), ([255], [118])].Perm msgTwoBad.Metadata ∧
    (Topic.Send Context.Background msgTwoBad none newTopic).1 =
      some (GoError.errorf
        "pubsub.Send: Message.Metadata keys must be valid UTF-8 strings: %q" [255]) ∧
    (Topic.Send Context.Background
        { msgTwoBad with Metadata := [([254], [118]), ([255], [118])] } none newTopic).1 =
      some (GoError.errorf
        "pubsub.Send: Message.Metadata keys must be valid UTF-8 strings: %q" [254]) ∧
    (Topic.Send Context.Background msgTwoBad none newTopic).1 ≠
      (Topic.Send Context.Background
        { msgTwoBad with Metadata := [([254], [118]), ([255], [118])] } none newTopic).1 := by
  refine ⟨List.Perm.swap _ _ _, by decide, by decide, by decide⟩

/-- C6, as amended: let the metadata of `m` hold a key or a value that is not
valid UTF-8, and let `md` be those entries in any iteration order.  On an open
Topic with a live context, `Send` returns a non-nil error and leaves the Topic
untouched, so nothing is submitted to the batcher and nothing reaches the
driver.  The error is the one of the metadata loop and quotes a key or a value
of the map that is not valid UTF-8; which one it quotes is decided by the
order. -/
theorem send_invalid_metadata (t : Topic) (m : Message)
    (md : List (GoString × GoString)) (addResult : Option GoError) (ctx : Context)
    (hctx : ctx.Err = none) (hopen : t.err = none)
    (hbad : ∃ kv ∈ m.Metadata, ValidString kv.1 = false ∨ ValidString kv.2 = false)
    (hperm : md.Perm m.Metadata) :
    ∃ e, checkMetadata md = some e ∧
      Topic.Send ctx { m with Metadata := md } addResult t = (some e, t) ∧
      (Topic.Send ctx { m with Metadata := md } addResult t).2.batcher.items = t.batcher.items ∧
      ∃ kv ∈ m.Metadata,
        (ValidString kv.1 = false ∧ e = GoError.errorf
          "pubsub.Send: Message.Metadata keys must be valid UTF-8 strings: %q" kv.1) ∨
        (ValidString kv.2 = false ∧ e = GoError.errorf
          "pubsub.Send: Message.Metadata values must be valid UTF-8 strings: %q" kv.2) := by
  have hbad1 : ∃ kv ∈ md, ValidString kv.1 = false ∨ ValidString kv.2 = false := by
    obtain ⟨kv, hmem, hb⟩ := hbad
    exact ⟨kv, hperm.mem_iff.mpr hmem, hb⟩
  obtain ⟨e, he⟩ := checkMetadata_isSome md hbad1
  have hs : Topic.Send ctx { m with Metadata := md } addResult t = (some e, t) := by
    unfold Topic.Send
    simp only [hctx, hopen, he]
  obtain ⟨kv, hmem, hkv⟩ := checkMetadata_quotes_invalid md e he
  exact ⟨e, he, hs, by rw [hs], kv, hperm.mem_iff.mp hmem, hkv⟩

/-- Witness for C6, as amended: the metadata of `msgBad`, visited in the other
order. -/
theorem send_invalid_metadata_witness :
    (∃ kv ∈ msgBad.Metadata, ValidString kv.1 = false ∨ ValidString kv.2 = false) ∧
    ∃ e, checkMetadata [([255], [118]), ([107], [118])] = some e ∧
      Topic.Send Context.Background { msgBad with Metadata := [([255], [118]), ([107], [118])] }
        none newTopic = (some e, newTopic) ∧
      (Topic.Send Context.Background { msgBad with Metadata := [([255], [118]), ([107], [118])] }
        none newTopic).2.batcher.items = newTopic.batcher.items ∧
      ∃ kv ∈ msgBad.Metadata,
        (ValidString kv.1 = false ∧ e = GoError.errorf
          "pubsub.Send: Message.Metadata keys must be valid UTF-8 strings: %q" kv.1) ∨
        (ValidString kv.2 = false ∧ e = GoError.errorf
          "pubsub.Send: Message.Metadata values must be valid UTF-8 strings: %q" kv.2) :=
  have hbad : ∃ kv ∈ msgBad.Metadata, ValidString kv.1 = false ∨ ValidString kv.2 = false :=
    ⟨([255], [118]), by decide, by decide⟩
  ⟨hbad, send_invalid_metadata newTopic msgBad [([255], [118]), ([107], [118])] none
    Context.Background rfl rfl hbad (List.Perm.swap _ _ _)⟩

/-! ## Subscription.Receive after Shutdown -/

/-- C4, as amended: after `Subscription.Shutdown` has returned, and after any
further operations on the Subscription, every `Receive`, for every context and
every state of the local queue, returns a nil message together with the
permanent error of the Subscription and leaves the Subscription untouched; that
error is the closed error `subscriptionClosed` when no run of the ack batch
handler has failed since the `Shutdown`. -/
theorem receive_after_shutdown (ds : SubscriptionDriver) (s s1 s2 : Subscription)
    (ctx0 : Context) (flushed : Bool) (r : Option GoError) (ops : List SubscriptionOp)
    (hsd : Subscription.Shutdown ctx0 flushed s = some (r, s1))
    (hops : Subscription.run ds ops s1 = some s2)
    (ctx : Context) (env : ReceiveEnv) (envs : List ReceiveEnv) :
    (∃ e, s2.err = some e ∧
      Subscription.Receive ds ctx (env :: envs) s2 = some (ReceivePC.returned none (some e), s2)) ∧
    ((∀ op ∈ ops, op.isFailedAckHandler = false) →
      Subscription.Receive ds ctx (env :: envs) s2 =
        some (ReceivePC.returned none (some subscriptionClosed), s2)) := by
  have hc := (subscription_shutdown_result ctx0 flushed s s1 r hsd).2.1
  obtain ⟨h1, h2, _⟩ := subscription_run_frame ds ops s1 s2 hops
  constructor
  · have hne := h1 (by simp [hc])
    cases he : s2.err with
    | none => exact absurd he hne
    | some e => exact ⟨e, rfl, receive_of_err ds ctx env envs s2 e he⟩
  · intro hall
    exact receive_of_err ds ctx env envs s2 _ (h2 hc hall)

/-- Witness for C4, as amended: a Subscription with a message in its queue is
shut down with a canceled context; after a successful handler run and a
`Receive` step, `Receive` returns `subscriptionClosed` and the message stays in
the queue. -/
theorem receive_after_shutdown_witness :
    Subscription.Shutdown Context.canceled false { newSubscription with q := [recvMsg] } =
      some (some GoError.ctxCanceled, { closedSubscription with q := [recvMsg] }) ∧
    Subscription.run queueDriver
      [SubscriptionOp.ackHandler [some 7] none,
       SubscriptionOp.receiveStep Context.Background env0 ReceivePC.top]
      { closedSubscription with q := [recvMsg] } = some { closedSubscription with q := [recvMsg] } ∧
    Subscription.Receive queueDriver Context.Background [env0]
      { closedSubscription with q := [recvMsg] } =
        some (ReceivePC.returned none (some subscriptionClosed),
          { closedSubscription with q := [recvMsg] }) :=
  ⟨by decide, by decide,
   (receive_after_shutdown queueDriver { newSubscription with q := [recvMsg] }
      { closedSubscription with q := [recvMsg] } { closedSubscription with q := [recvMsg] }
      Context.canceled false (some GoError.ctxCanceled)
      [SubscriptionOp.ackHandler [some 7] none,
       SubscriptionOp.receiveStep Context.Background env0 ReceivePC.top]
      (by decide) (by decide) Context.Background env0 []).2 (by decide)⟩

/-- Counterexample to C4 as stated: `Shutdown` returns on its canceled context
while a handler run is in flight; that run then fails with a provider error and
stores the wrapped error over the closed error, and the next `Receive` returns
the wrapped error, which is not `subscriptionClosed`. -/
theorem receive_after_late_ack_failure :
    Subscription.Shutdown Context.canceled false newSubscription =
      some (some GoError.ctxCanceled, closedSubscription) ∧
    defaultAckBatcher.handler queueDriver [some 7] (some (GoError.provider 1)) closedSubscription =
      (some ackFailure, { closedSubscription with err := some ackFailure }) ∧
    Subscription.Receive queueDriver Context.Background [env0]
        { closedSubscription with err := some ackFailure } =
      some (ReceivePC.returned none (some ackFailure),
            { closedSubscription with err := some ackFailure }) ∧
    ackFailure ≠ subscriptionClosed := by
  decide

/-! ## Shutdown -/

/-- C7: `Topic.Shutdown` and `Subscription.Shutdown` called with a context
that is already done return that context's error whether or not the batcher's
`Shutdown` ever returns (`flushed` is arbitrary, so also when a handler never
finishes); in the state they leave, the closed error is stored and the cancel
function of the handle has been called. -/
theorem shutdown_canceled_ctx_returns (t : Topic) (s : Subscription) (ctx : Context)
    (flushed : Bool) (e : GoError) (h : ctx.Err = some e) :
    Topic.Shutdown ctx flushed t =
      some (some e, { t with err := some topicClosed,
                             batcher := t.batcher.Shutdown flushed,
                             cancelCalls := t.cancelCalls + 1 }) ∧
    Subscription.Shutdown ctx flushed s =
      some (some e, { s with err := some subscriptionClosed,
                             ackBatcher := s.ackBatcher.Shutdown flushed,
                             cancelCalls := s.cancelCalls + 1 }) := by
  constructor
  · simp [Topic.Shutdown, Context.Done, h]
  · simp [Subscription.Shutdown, Context.Done, h]

/-- Witness for C7: a canceled context and a batcher that never finishes. -/
theorem shutdown_canceled_ctx_returns_witness :
    Topic.Shutdown Context.canceled false newTopic = some (some GoError.ctxCanceled, abandonedTopic) ∧
    abandonedTopic.batcher.shutdownReturned = false ∧
    Subscription.Shutdown Context.canceled false newSubscription =
      some (some GoError.ctxCanceled, closedSubscription) :=
  ⟨(shutdown_canceled_ctx_returns newTopic newSubscription Context.canceled false
      GoError.ctxCanceled rfl).1, rfl,
   (shutdown_canceled_ctx_returns newTopic newSubscription Context.canceled false
      GoError.ctxCanceled rfl).2⟩

/-- Counterexample to C8 as stated: a second `Shutdown` of a Topic, with a live
context, returns nil and not the closed error. -/
theorem second_shutdown_returns_nil :
    Topic.Shutdown Context.Background true newTopic = some (none, closedTopic) ∧
    Topic.Shutdown Context.Background true closedTopic =
      some (none, { closedTopic with batcher := ⟨[], 2, true⟩, cancelCalls := 2 }) ∧
    (none : Option GoError) ≠ some topicClosed := by
  decide

/-- C8, as amended: a second `Topic.Shutdown` returns the error of its own
context (nil when that context is live), stores the same closed error again,
and a `Send` with a live context observes the same closed error after the
second `Shutdown` as after the first. -/
theorem shutdown_twice (t t1 t2 : Topic) (ctx1 ctx2 : Context) (f1 f2 : Bool)
    (r1 r2 : Option GoError)
    (h1 : Topic.Shutdown ctx1 f1 t = some (r1, t1))
    (h2 : Topic.Shutdown ctx2 f2 t1 = some (r2, t2)) :
    r2 = ctx2.Err ∧ t1.err = some topicClosed ∧ t2.err = t1.err ∧
    ∀ (ctx : Context) (m : Message) (addResult : Option GoError), ctx.Err = none →
      Topic.Send ctx m addResult t1 = (some topicClosed, t1) ∧
      Topic.Send ctx m addResult t2 = (some topicClosed, t2) := by
  obtain ⟨_, he1, _, _⟩ := topic_shutdown_result ctx1 f1 t t1 r1 h1
  obtain ⟨hr2, he2, _, _⟩ := topic_shutdown_result ctx2 f2 t1 t2 r2 h2
  refine ⟨hr2, he1, by rw [he1, he2], ?_⟩
  intro ctx m a hctx
  constructor
  · rw [send_of_err ctx m a t1 topicClosed he1, hctx]
  · rw [send_of_err ctx m a t2 topicClosed he2, hctx]

/-- Witness for C8, as amended: the second `Shutdown` has a canceled context
and returns `context.Canceled`; a `Send` after it returns `topicClosed`. -/
theorem shutdown_twice_witness :
    Topic.Shutdown Context.Background true newTopic = some (none, closedTopic) ∧
    Topic.Shutdown Context.canceled false closedTopic =
      some (some GoError.ctxCanceled,
            { closedTopic with batcher := ⟨[], 2, false⟩, cancelCalls := 2 }) ∧
    (some GoError.ctxCanceled = Context.canceled.Err ∧ closedTopic.err = some topicClosed ∧
      ({ closedTopic with batcher := ⟨[], 2, false⟩, cancelCalls := 2 } : Topic).err =
        closedTopic.err) ∧
    Topic.Send Context.Background msgHi none
        { closedTopic with batcher := ⟨[], 2, false⟩, cancelCalls := 2 } =
      (some topicClosed, { closedTopic with batcher := ⟨[], 2, false⟩, cancelCalls := 2 }) :=
  have h := shutdown_twice newTopic closedTopic
    { closedTopic with batcher := ⟨[], 2, false⟩, cancelCalls := 2 }
    Context.Background Context.canceled true false none (some GoError.ctxCanceled)
    (by decide) (by decide)
  ⟨by decide, by decide, ⟨h.1, h.2.1, h.2.2.1⟩,
   (h.2.2.2 Context.Background msgHi none rfl).2⟩

/-- Counterexample to C9 as stated: with a canceled context `Topic.Shutdown`
returns although the batcher's `Shutdown` has not returned. -/
theorem shutdown_returns_before_flush :
    Topic.Shutdown Context.canceled false newTopic =
      some (some GoError.ctxCanceled, abandonedTopic) ∧
    abandonedTopic.batcher.shutdownReturned = false := by
  decide

/-- C9, as amended: when `Topic.Shutdown` returns and its context is not done,
it returns nil and the batcher's `Shutdown` has returned. -/
theorem shutdown_live_ctx_flushed (t t1 : Topic) (ctx : Context) (flushed : Bool)
    (r : Option GoError) (h : Topic.Shutdown ctx flushed t = some (r, t1))
    (hctx : ctx.Err = none) :
    r = none ∧ flushed = true ∧ t1.batcher.shutdownReturned = true := by
  obtain ⟨hr, _, hb, hc⟩ := topic_shutdown_result ctx flushed t t1 r h
  have hf : flushed = true := by simpa [Context.Done, hctx] using hc
  exact ⟨by rw [hr, hctx], hf, by rw [hb, hf]⟩

/-- Witness for C9, as amended: a live context and a batcher that flushes. -/
theorem shutdown_live_ctx_flushed_witness :
    Topic.Shutdown Context.Background true newTopic = some (none, closedTopic) ∧
    closedTopic.batcher.shutdownReturned = true :=
  ⟨by decide,
   (shutdown_live_ctx_flushed newTopic closedTopic Context.Background true none
      (by decide) rfl).2.2⟩

/-! ## The permanent-error slot -/

/-- C10: let `t.err` and `s.err` be non-nil.  After any sequence of operations
on the Topic (`Send`, `Shutdown`, runs of the send batch handler) and on the
Subscription (steps of `Receive`, `Shutdown`, `Message.Ack`, runs of the ack
batch handler, `addProcessingTime`) both are still non-nil; from then on every
`Send` returns a non-nil error and leaves the Topic, and so its batcher,
untouched, and every `Receive` returns a nil message with the permanent
error. -/
theorem err_never_cleared (ec : GoError → ErrorCode) (ds : SubscriptionDriver)
    (tops : List TopicOp) (t t1 : Topic) (sops : List SubscriptionOp) (s s1 : Subscription)
    (ht : t.err ≠ none) (hs : s.err ≠ none)
    (htr : Topic.run ec tops t = some t1) (hsr : Subscription.run ds sops s = some s1) :
    t1.err ≠ none ∧ s1.err ≠ none ∧
    (∀ (ctx : Context) (m : Message) (addResult : Option GoError),
      (Topic.Send ctx m addResult t1).1 ≠ none ∧ (Topic.Send ctx m addResult t1).2 = t1) ∧
    (∀ (ctx : Context) (env : ReceiveEnv) (envs : List ReceiveEnv),
      Subscription.Receive ds ctx (env :: envs) s1 = some (ReceivePC.returned none s1.err, s1)) := by
  have h1 := (topic_run_err ec tops t t1 htr).2 ht
  have h2 := (subscription_run_frame ds sops s s1 hsr).1 hs
  refine ⟨h1, h2, ?_, ?_⟩
  · intro ctx m a
    cases he : t1.err with
    | none => exact absurd he h1
    | some e =>
      rw [send_of_err ctx m a t1 e he]
      cases ctx.Err <;> simp
  · intro ctx env envs
    cases he : s1.err with
    | none => exact absurd he h2
    | some e => exact receive_of_err ds ctx env envs s1 e he

/-- Witness for C10: a closed Topic after a `Send` and a handler run, and a
closed Subscription after a `Receive` step and a failed ack handler run. -/
theorem err_never_cleared_witness :
    closedTopic.err ≠ none ∧ closedSubscription.err ≠ none ∧
    ({ closedTopic with sent := [[⟨[104, 105], [([107], [118])], none, none⟩]] } : Topic).err ≠ none ∧
    ({ closedSubscription with err := some ackFailure } : Subscription).err ≠ none :=
  have h := err_never_cleared (fun _ => ErrorCode.Unknown) queueDriver
    [TopicOp.send Context.Background msgHi none, TopicOp.sendHandler [msgHi] none]
    closedTopic { closedTopic with sent := [[⟨[104, 105], [([107], [118])], none, none⟩]] }
    [SubscriptionOp.receiveStep Context.Background env0 ReceivePC.top,
     SubscriptionOp.ackHandler [some 7] (some (GoError.provider 1))]
    closedSubscription { closedSubscription with err := some ackFailure }
    (by decide) (by decide) (by decide) (by decide)
  ⟨by decide, by decide, h.1, h.2.1⟩

/-! ## Steps of Receive, case by case -/

theorem countP_set_add {α : Type} (p : α → Bool) :
    ∀ (l : List α) (i : Nat) (a b : α), l[i]? = some a →
      (l.set i b).countP p + (if p a then 1 else 0) = l.countP p + (if p b then 1 else 0) := by
  intro l
  induction l with
  | nil => intro i a b h; simp at h
  | cons x xs ih =>
    intro i a b h
    cases i with
    | zero =>
      simp only [List.getElem?_cons_zero, Option.some.injEq] at h
      subst h
      simp only [List.set_cons_zero, List.countP_cons]
      omega
    | succ i =>
      simp only [List.getElem?_cons_succ] at h
      have := ih i a b h
      simp only [List.set_cons_succ, List.countP_cons]
      omega

theorem receive_step_top (ds : SubscriptionDriver) (ctx : Context) (env : ReceiveEnv)
    (s s1 : Subscription) (pc1 : ReceivePC)
    (h : Subscription.Receive.step ds ctx env ReceivePC.top s = some (pc1, s1)) :
    (∃ e, s.err = some e ∧ pc1 = ReceivePC.returned none (some e) ∧ s1 = s) ∨
    (∃ m rest, s.err = none ∧ s.q = m :: rest ∧
      pc1 = ReceivePC.returned (some { m with processingStartTime := env.now }) none ∧
      s1 = { s with q := rest }) ∨
    (∃ c, s.err = none ∧ s.q = [] ∧ s.waitc = some c ∧ pc1 = ReceivePC.waiting c ∧ s1 = s) ∨
    (s.err = none ∧ s.q = [] ∧ s.waitc = none ∧
      pc1 = ReceivePC.fetching (Subscription.Receive.nMessages s.avgProcessTime) ∧
      s1 = { s with waitc := some s.chansMade, chansMade := s.chansMade + 1 }) := by
  simp only [Subscription.Receive.step] at h
  split at h
  · rename_i e he
    simp only [Option.some.injEq, Prod.mk.injEq] at h
    exact Or.inl ⟨e, he, h.1.symm, h.2.symm⟩
  · rename_i he
    split at h
    · rename_i m rest hq
      simp only [Option.some.injEq, Prod.mk.injEq] at h
      exact Or.inr (Or.inl ⟨m, rest, he, hq, h.1.symm, h.2.symm⟩)
    · rename_i hq
      split at h
      · rename_i c hw
        simp only [Option.some.injEq, Prod.mk.injEq] at h
        exact Or.inr (Or.inr (Or.inl ⟨c, he, hq, hw, h.1.symm, h.2.symm⟩))
      · rename_i hw
        simp only [Option.some.injEq, Prod.mk.injEq] at h
        exact Or.inr (Or.inr (Or.inr ⟨he, hq, hw, h.1.symm, h.2.symm⟩))

theorem receive_step_waiting (ds : SubscriptionDriver) (ctx : Context) (env : ReceiveEnv)
    (c : Nat) (s s1 : Subscription) (pc1 : ReceivePC)
    (h : Subscription.Receive.step ds ctx env (ReceivePC.waiting c) s = some (pc1, s1)) :
    s1 = s ∧ pc1.isFetching = false := by
  simp only [Subscription.Receive.step] at h
  split at h
  · simp only [Option.some.injEq, Prod.mk.injEq] at h
    obtain ⟨rfl, rfl⟩ := h
    exact ⟨rfl, rfl⟩
  · split at h
    · simp only [Option.some.injEq, Prod.mk.injEq] at h
      obtain ⟨rfl, rfl⟩ := h
      exact ⟨rfl, rfl⟩
    · simp at h

theorem receive_step_fetching (ds : SubscriptionDriver) (ctx : Context) (env : ReceiveEnv)
    (n : Nat) (s s1 : Subscription) (pc1 : ReceivePC)
    (h : Subscription.Receive.step ds ctx env (ReceivePC.fetching n) s = some (pc1, s1)) :
    s1.waitc = none ∧ pc1.isFetching = false ∧ s1.err = s.err := by
  simp only [Subscription.Receive.step] at h
  split at h
  · rename_i hw
    simp only [Option.some.injEq, Prod.mk.injEq] at h
    obtain ⟨rfl, rfl⟩ := h
    exact ⟨hw, rfl, rfl⟩
  · split at h
    · simp only [Option.some.injEq, Prod.mk.injEq] at h
      obtain ⟨rfl, rfl⟩ := h
      exact ⟨rfl, rfl, rfl⟩
    · simp only [Option.some.injEq, Prod.mk.injEq] at h
      obtain ⟨rfl, rfl⟩ := h
      exact ⟨rfl, rfl, rfl⟩

/-! ## Ack failures, FIFO delivery -/

/-- C11: when `SendAcks` fails with `e`, the ack batch handler returns the
wrapped error and stores it in `s.err`; the next `Receive` returns exactly that
error in its first step, with a nil message and the Subscription untouched (the
queue is not popped, no fetch is started).  `Message.Ack` on a message whose
closure submits to the ack batcher returns normally, with the AckID submitted
by `AddNoWait`, and leaves `s.err` as it was. -/
theorem ack_failure_surfaces_on_receive (ds : SubscriptionDriver) (ids : List AckID)
    (e : GoError) (s : Subscription) (ctx : Context) (env : ReceiveEnv)
    (envs : List ReceiveEnv) (body : List Nat) (md : List (GoString × GoString))
    (t0 now : Int) (asf : Option Nat) (id : AckID) (w : Subscription) :
    defaultAckBatcher.handler ds ids (some e) s =
      (some (wrapError ds.ErrorCode e), { s with err := some (wrapError ds.ErrorCode e) }) ∧
    Subscription.Receive.step ds ctx env ReceivePC.top
        { s with err := some (wrapError ds.ErrorCode e) } =
      some (ReceivePC.returned none (some (wrapError ds.ErrorCode e)),
            { s with err := some (wrapError ds.ErrorCode e) }) ∧
    Subscription.Receive ds ctx (env :: envs) { s with err := some (wrapError ds.ErrorCode e) } =
      some (ReceivePC.returned none (some (wrapError ds.ErrorCode e)),
            { s with err := some (wrapError ds.ErrorCode e) }) ∧
    Message.Ack ds now ⟨body, md, t0, asf, AckClosure.queueAck id, false⟩ w =
      ⟨Outcome.returned (⟨body, md, t0, asf, AckClosure.queueAck id, true⟩,
        { w.addProcessingTime (now - t0) with
            ackBatcher := (w.addProcessingTime (now - t0)).ackBatcher.AddNoWait id }), 1⟩ ∧
    (Message.Ack ds now ⟨body, md, t0, asf, AckClosure.queueAck id, false⟩ w).outcome.state.2.err
      = w.err := by
  refine ⟨rfl, ?_, ?_, ?_, ?_⟩
  · simp [Subscription.Receive.step]
  · exact receive_of_err ds ctx env envs _ _ rfl
  · simp [Message.Ack, AckClosure.run]
  · exact (ack_frame ds now _ w).1

/-- C12: on a Subscription without permanent error whose local queue starts
with `ms`, as many consecutive `Receive` calls as `ms` has messages return
those messages in queue order, each with a nil error and stamped with the time
of its call; every call ends in its first step, the queue afterwards is what
followed `ms`, and nothing else of the Subscription has changed (no fetch was
started). -/
theorem receive_fifo (ds : SubscriptionDriver) (ms rest : List Message)
    (calls : List (Context × ReceiveEnv)) (s : Subscription)
    (herr : s.err = none) (hq : s.q = ms ++ rest) (hlen : calls.length = ms.length) :
    Subscription.ReceiveAll ds (calls.map fun c => (c.1, [c.2])) s =
      some (List.zipWith
              (fun m c => ReceivePC.returned (some { m with processingStartTime := c.2.now }) none)
              ms calls,
            { s with q := rest }) := by
  induction ms generalizing calls s with
  | nil =>
    have : calls = [] := List.length_eq_zero.mp hlen
    subst this
    simp only [List.nil_append] at hq
    simp [Subscription.ReceiveAll, ← hq]
  | cons m ms ih =>
    cases calls with
    | nil => simp at hlen
    | cons c calls =>
      simp only [List.length_cons, Nat.add_right_cancel_iff] at hlen
      have hstep : Subscription.Receive ds c.1 [c.2] s =
          some (ReceivePC.returned (some { m with processingStartTime := c.2.now }) none,
                { s with q := ms ++ rest }) := by
        simp [Subscription.Receive, Subscription.Receive.run, Subscription.Receive.step, herr, hq]
      have := ih calls { s with q := ms ++ rest } herr rfl hlen
      simp only [List.map_cons, Subscription.ReceiveAll, hstep, this, List.zipWith_cons_cons]

/-- Witness for C12: two messages in the queue and two calls, the second with a
canceled context. -/
theorem receive_fifo_witness :
    Subscription.ReceiveAll queueDriver
        [(Context.Background, [env0]), (Context.canceled, [env0])]
        { newSubscription with q := [recvMsg, msgHi] } =
      some ([ReceivePC.returned (some { recvMsg with processingStartTime := 100 }) none,
             ReceivePC.returned (some { msgHi with processingStartTime := 100 }) none],
            { newSubscription with q := [] }) :=
  receive_fifo queueDriver [recvMsg, msgHi] []
    [(Context.Background, env0), (Context.canceled, env0)]
    { newSubscription with q := [recvMsg, msgHi] } rfl rfl rfl

/-! ## Rounding -/

theorem nearest_ge_of_ge (n d N : Nat) (hd : 0 < d) (h : N * d ≤ n) :
    N ≤ Float64.nearest n d := by
  have hq : N ≤ n / d := (Nat.le_div_iff_mul_le hd).mpr h
  unfold Float64.nearest
  simp only
  split_ifs <;> omega

theorem nearest_le_of_le (n d N : Nat) (hd : 0 < d) (h : n ≤ N * d) :
    Float64.nearest n d ≤ N := by
  have hdm := Nat.div_add_mod n d
  have hml := Nat.mod_lt n hd
  have hq : n / d ≤ N := by
    apply Nat.div_le_of_le_mul
    rwa [Nat.mul_comm] at h
  unfold Float64.nearest
  simp only
  by_cases hlt : n / d < N
  · split_ifs <;> omega
  · have heq : n / d = N := by omega
    have hr : n % d = 0 := by
      rw [heq, Nat.mul_comm] at hdm
      omega
    simp [hr, hd, heq]

theorem nearest_err (n d : Nat) (hd : 0 < d) :
    2 * (Float64.nearest n d * d) ≤ 2 * n + d ∧ 2 * n ≤ 2 * (Float64.nearest n d * d) + d := by
  have hdm := Nat.div_add_mod n d
  have hml := Nat.mod_lt n hd
  rw [Nat.mul_comm] at hdm
  have h1 : (n / d + 1) * d = n / d * d + d := by ring
  unfold Float64.nearest
  simp only
  split_ifs
  · omega
  · rw [h1]; omega
  · omega
  · rw [h1]; omega

theorem excess_spec : ∀ (j q acc : Nat), (acc = 0 ∨ 2 ^ (52 + acc) ≤ q) →
    Float64.excess j q acc = 0 ∨ 2 ^ (52 + Float64.excess j q acc) ≤ q := by
  intro j
  induction j with
  | zero => intro q acc h; exact h
  | succ j ih =>
    intro q acc h
    unfold Float64.excess
    split_ifs with hc
    · apply ih
      right
      rw [Nat.shiftRight_eq_div_pow] at hc
      have := (Nat.le_div_iff_mul_le (Nat.two_pow_pos _)).mp hc
      rwa [← Nat.pow_add] at this
    · exact ih q acc h

theorem roundUnits_eq (n d : Nat) :
    Float64.roundUnits n d =
      Float64.nearest n (d * 2 ^ Float64.excess 12 (n / d) 0) *
        2 ^ Float64.excess 12 (n / d) 0 := by
  simp [Float64.roundUnits, Nat.one_shiftLeft]

theorem excess_le (n d m t : Nat) (hm : m < 2 ^ 53) (h : n / d ≤ m * 2 ^ t) :
    Float64.excess 12 (n / d) 0 ≤ t := by
  rcases excess_spec 12 (n / d) 0 (Or.inl rfl) with h0 | h0
  · omega
  · have h1 : 2 ^ (52 + Float64.excess 12 (n / d) 0) < 2 ^ (53 + t) := by
      calc 2 ^ (52 + Float64.excess 12 (n / d) 0) ≤ n / d := h0
        _ ≤ m * 2 ^ t := h
        _ < 2 ^ 53 * 2 ^ t := Nat.mul_lt_mul_of_pos_right hm (Nat.two_pow_pos _)
        _ = 2 ^ (53 + t) := (Nat.pow_add 2 53 t).symm
    have := (Nat.pow_lt_pow_iff_right (by norm_num : 1 < 2)).mp h1
    omega

theorem roundUnits_le (n d m t : Nat) (hd : 0 < d) (hm : m < 2 ^ 53)
    (h : n ≤ m * 2 ^ t * d) : Float64.roundUnits n d ≤ m * 2 ^ t := by
  have hq : n / d ≤ m * 2 ^ t := by
    apply Nat.div_le_of_le_mul
    rwa [Nat.mul_comm] at h
  have he := excess_le n d m t hm hq
  rw [roundUnits_eq]
  generalize Float64.excess 12 (n / d) 0 = e at he
  obtain ⟨k, rfl⟩ := Nat.exists_eq_add_of_le he
  have h2 : m * 2 ^ (e + k) = m * 2 ^ k * 2 ^ e := by rw [Nat.pow_add]; ring
  rw [h2]
  apply Nat.mul_le_mul_right
  apply nearest_le_of_le _ _ _ (Nat.mul_pos hd (Nat.two_pow_pos _))
  calc n ≤ m * 2 ^ (e + k) * d := h
    _ = m * 2 ^ k * (d * 2 ^ e) := by rw [Nat.pow_add]; ring

theorem roundUnits_ge (n d m t : Nat) (hd : 0 < d) (hm : m < 2 ^ 53)
    (h : m * 2 ^ t * d ≤ n) : m * 2 ^ t ≤ Float64.roundUnits n d := by
  have hq : m * 2 ^ t ≤ n / d := (Nat.le_div_iff_mul_le hd).mpr h
  rw [roundUnits_eq]
  have hs := excess_spec 12 (n / d) 0 (Or.inl rfl)
  generalize Float64.excess 12 (n / d) 0 = e at hs
  by_cases he : e ≤ t
  · obtain ⟨k, rfl⟩ := Nat.exists_eq_add_of_le he
    have h2 : m * 2 ^ (e + k) = m * 2 ^ k * 2 ^ e := by rw [Nat.pow_add]; ring
    rw [h2]
    apply Nat.mul_le_mul_right
    apply nearest_ge_of_ge _ _ _ (Nat.mul_pos hd (Nat.two_pow_pos _))
    calc m * 2 ^ k * (d * 2 ^ e) = m * 2 ^ (e + k) * d := by rw [Nat.pow_add]; ring
      _ ≤ n := h
  · have he0 : e ≠ 0 := by omega
    have h0 : 2 ^ (52 + e) ≤ n / d := by
      rcases hs with h0 | h0
      · exact absurd h0 he0
      · exact h0
    have h1 : 2 ^ 52 * (d * 2 ^ e) ≤ n := by
      have := (Nat.le_div_iff_mul_le hd).mp h0
      calc 2 ^ 52 * (d * 2 ^ e) = 2 ^ (52 + e) * d := by rw [Nat.pow_add]; ring
        _ ≤ n := this
    have h3 := nearest_ge_of_ge n (d * 2 ^ e) (2 ^ 52) (Nat.mul_pos hd (Nat.two_pow_pos _)) h1
    calc m * 2 ^ t ≤ 2 ^ 53 * 2 ^ t := Nat.mul_le_mul_right _ hm.le
      _ = 2 ^ (53 + t) := (Nat.pow_add 2 53 t).symm
      _ ≤ 2 ^ (52 + e) := Nat.pow_le_pow_right (by norm_num) (by omega)
      _ = 2 ^ 52 * 2 ^ e := Nat.pow_add 2 52 e
      _ ≤ Float64.nearest n (d * 2 ^ e) * 2 ^ e := Nat.mul_le_mul_right _ h3

theorem roundUnits_exact (d m t : Nat) (hd : 0 < d) (hm : m < 2 ^ 53) :
    Float64.roundUnits (m * 2 ^ t * d) d = m * 2 ^ t :=
  le_antisymm (roundUnits_le _ d m t hd hm le_rfl) (roundUnits_ge _ d m t hd hm le_rfl)

/-! ## Constants of the format -/

set_option exponentiation.threshold 4096 in
theorem unit_eq : Float64.unit = 2 ^ 1074 := Nat.one_shiftLeft 1074

theorem unit_pos : 0 < Float64.unit := by decide

theorem seconds_desiredQueueDuration :
    Seconds desiredQueueDuration = Float64.finite false (2 * Float64.unit) := by decide

theorem ofInt_thousand : Float64.ofInt 1000 = Float64.finite false (1000 * Float64.unit) := by
  decide

theorem roundUnits_le_unit (n d N : Nat) (hd : 0 < d) (hN : N < 2 ^ 53)
    (h : n ≤ N * Float64.unit * d) : Float64.roundUnits n d ≤ N * Float64.unit := by
  rw [unit_eq] at h ⊢
  exact roundUnits_le n d N 1074 hd hN h

theorem roundUnits_ge_unit (n d N : Nat) (hd : 0 < d) (hN : N < 2 ^ 53)
    (h : N * Float64.unit * d ≤ n) : N * Float64.unit ≤ Float64.roundUnits n d := by
  rw [unit_eq] at h ⊢
  exact roundUnits_ge n d N 1074 hd hN h

theorem unit_pos_rat : (0 : ℚ) < (Float64.unit : ℚ) := Nat.cast_pos.mpr unit_pos

/-! ## The size of a fetch -/

theorem ceil_units (R U : Nat) (hU : 0 < U) :
    (if R = R / U * U then R else R / U * U + U) = (R + U - 1) / U * U := by
  have hdm := Nat.div_add_mod R U
  have hml := Nat.mod_lt R hU
  have h1 : (R + U - 1) / U = (R % U + U - 1) / U + R / U := by
    have : R + U - 1 = R % U + U - 1 + U * (R / U) := by omega
    rw [this, Nat.add_mul_div_left _ _ hU]
  by_cases hr : R % U = 0
  · have h2 : (R % U + U - 1) / U = 0 := Nat.div_eq_of_lt (by omega)
    have h3 : R = R / U * U := by rw [Nat.mul_comm]; omega
    rw [if_pos h3, h1, h2, Nat.zero_add]
    exact h3
  · have h2 : (R % U + U - 1) / U = 1 := by
      apply Nat.div_eq_of_lt_le <;> omega
    have h3 : ¬ R = R / U * U := by
      intro h
      rw [Nat.mul_comm] at h
      omega
    rw [if_neg h3, h1, h2]
    ring

theorem thousand_units_lt_overflow : 1000 * Float64.unit < Float64.overflow := by decide

theorem ceil_finite (R : Nat) :
    Float64.Ceil (Float64.finite false R) =
      Float64.finite false ((R + Float64.unit - 1) / Float64.unit * Float64.unit) := by
  have h := ceil_units R Float64.unit unit_pos
  simp only [Float64.Ceil, Bool.false_eq_true, if_false]
  rw [← h]
  split_ifs <;> rfl

theorem min_finite (a b : Nat) (hb : 0 < b) :
    Float64.Min (Float64.finite false a) (Float64.finite false b) =
      Float64.finite false (min a b) := by
  have e1 : (Float64.finite false a).eq (Float64.finite false b) = decide (a = b) := by
    simp [Float64.eq, Float64.signed]
  have e2 : (Float64.finite false a).eq Float64.zero = decide (a = 0) := by
    simp [Float64.eq, Float64.signed, Float64.zero]
  have e3 : (Float64.finite false a).lt (Float64.finite false b) = decide (a < b) := by
    simp [Float64.lt, Float64.signed]
  unfold Float64.Min
  rw [e1, e2, e3]
  by_cases h : a < b
  · have h1 : ¬ (a = 0 ∧ a = b) := by omega
    simp [h, h1, h.le]
  · have h1 : ¬ (a = 0 ∧ a = b) := by omega
    have h2 : b ≤ a := by omega
    simp [h, h1, h2]

theorem toInt_finite (c : Nat) (hc : c < 9223372036854775808) :
    Float64.toInt (Float64.finite false (c * Float64.unit)) = c := by
  have h2 : c * Float64.unit / Float64.unit = c := Nat.mul_div_cancel c unit_pos
  have h3 : (-9223372036854775808 : Int) ≤ c := by omega
  have h4 : (c : Int) < 9223372036854775808 := by omega
  simp only [Float64.toInt, Float64.signed, h2, Bool.false_eq_true, if_false]
  rw [if_pos ⟨h3, h4⟩]

theorem min_thousand_toInt (c : Nat) :
    (Float64.toInt (Float64.Min (Float64.finite false (c * Float64.unit))
      (Float64.finite false (1000 * Float64.unit)))).toNat = min c 1000 := by
  have hU := unit_pos
  rw [min_finite _ _ (Nat.mul_pos (by norm_num) hU)]
  have h1 : min (c * Float64.unit) (1000 * Float64.unit) = min c 1000 * Float64.unit := by
    rcases le_total c 1000 with h | h
    · rw [min_eq_left h, min_eq_left (Nat.mul_le_mul_right _ h)]
    · rw [min_eq_right h, min_eq_right (Nat.mul_le_mul_right _ h)]
  rw [h1, toInt_finite _ (by omega)]
  rfl

theorem min_thousand_toInt_inf :
    (Float64.toInt (Float64.Min (Float64.Ceil (Float64.inf false))
      (Float64.finite false (1000 * Float64.unit)))).toNat = 1000 := by
  decide

theorem nMessages_finite (k : Nat) (hk : 0 < k) :
    Subscription.Receive.nMessages (Float64.finite false k) =
      min ((Float64.roundUnits (2 * Float64.unit * Float64.unit) k + Float64.unit - 1) /
        Float64.unit) 1000 := by
  have hU := unit_pos
  have hlt : Float64.zero.lt (Float64.finite false k) = true := by
    simp [Float64.lt, Float64.zero, Float64.signed, hk]
  have hk0 : k ≠ 0 := by omega
  unfold Subscription.Receive.nMessages
  rw [if_pos hlt, seconds_desiredQueueDuration, ofInt_thousand]
  simp only [Float64.div, hk0, if_false, Bool.xor_false, Float64.round]
  generalize Float64.roundUnits (2 * Float64.unit * Float64.unit) k = R
  by_cases hR : R < Float64.overflow
  · rw [if_pos hR, ceil_finite, min_thousand_toInt]
  · rw [if_neg hR, min_thousand_toInt_inf]
    have hov := thousand_units_lt_overflow
    have h3 : 1000 ≤ (R + Float64.unit - 1) / Float64.unit := by
      apply (Nat.le_div_iff_mul_le hU).mpr
      omega
    omega

theorem overflow_le_two_units : Float64.overflow ≤ 2 * Float64.unit * Float64.unit := by decide

theorem quotient_units_pos (k : Nat) (hk : 0 < k) (hk2 : k < Float64.overflow) :
    1 ≤ Float64.roundUnits (2 * Float64.unit * Float64.unit) k := by
  have h := roundUnits_ge (2 * Float64.unit * Float64.unit) k 1 0 hk (by norm_num)
    (by have := overflow_le_two_units; omega)
  simpa using h

theorem nMessages_bounds (k : Nat) (hk : 0 < k) (hk2 : k < Float64.overflow) :
    1 ≤ Subscription.Receive.nMessages (Float64.finite false k) ∧
    Subscription.Receive.nMessages (Float64.finite false k) ≤ 1000 := by
  rw [nMessages_finite k hk]
  have hR := quotient_units_pos k hk hk2
  have hU := unit_pos
  have hc : 1 ≤ (Float64.roundUnits (2 * Float64.unit * Float64.unit) k + Float64.unit - 1) /
      Float64.unit := by
    apply (Nat.le_div_iff_mul_le hU).mpr
    omega
  omega

theorem nMessages_not_positive (avg : Float64) (h : Float64.zero.lt avg = false) :
    Subscription.Receive.nMessages avg = 1 := by
  simp [Subscription.Receive.nMessages, h]

theorem toRat_finite (k : Nat) :
    (Float64.finite false k).toRat = (k : ℚ) / (Float64.unit : ℚ) := by
  simp [Float64.toRat, Float64.signed]

theorem exact_quotient_le (U k N : Nat) (hU : 0 < U) (hk : 0 < k) :
    (2 : ℚ) / ((k : ℚ) / (U : ℚ)) ≤ N ↔ 2 * U ≤ N * k := by
  have hk' : (0 : ℚ) < k := by exact_mod_cast hk
  have hp : (0 : ℚ) < U := by exact_mod_cast hU
  rw [div_le_iff₀ (div_pos hk' hp)]
  rw [← mul_div_assoc, le_div_iff₀ hp]
  constructor
  · intro h
    exact_mod_cast h
  · intro h
    exact_mod_cast h

theorem near_exact_aux (U R k n : Nat) (hU : 0 < U) (hk : 0 < k)
    (hn : n = min ((R + U - 1) / U) 1000) (hn1 : 1 ≤ n)
    (hle : ∀ N, N < 2 ^ 53 → 2 * U * U ≤ N * U * k → R ≤ N * U)
    (hge : ∀ N, N < 2 ^ 53 → N * U * k ≤ 2 * U * U → N * U ≤ R) :
    n ≤ (max 1 (min ⌈(2 : ℚ) / ((k : ℚ) / (U : ℚ))⌉ 1000)).toNat ∧
    (max 1 (min ⌈(2 : ℚ) / ((k : ℚ) / (U : ℚ))⌉ 1000)).toNat ≤ n + 1 := by
  have hxpos : 0 < (2 : ℚ) / ((k : ℚ) / (U : ℚ)) := by
    have hk' : (0 : ℚ) < k := by exact_mod_cast hk
    have hp : (0 : ℚ) < U := by exact_mod_cast hU
    positivity
  have hq := fun N => exact_quotient_le U k N hU hk
  generalize (2 : ℚ) / ((k : ℚ) / (U : ℚ)) = x at hxpos hq ⊢
  have hE1 : 1 ≤ ⌈x⌉ := by
    have := Int.ceil_pos.mpr hxpos
    omega
  constructor
  · by_cases hE : 1000 ≤ ⌈x⌉
    · have : (max 1 (min ⌈x⌉ 1000)).toNat = 1000 := by
        rw [min_eq_right hE]; rfl
      rw [this, hn]
      exact min_le_right _ _
    · have hE' : ⌈x⌉ < 1000 := by omega
      obtain ⟨N, hN⟩ : ∃ N : Nat, (N : Int) = ⌈x⌉ := ⟨⌈x⌉.toNat, Int.toNat_of_nonneg (by omega)⟩
      have hxN : x ≤ (N : ℚ) := by
        have h1 : x ≤ (⌈x⌉ : ℚ) := Int.le_ceil x
        have h2 : (N : ℚ) = (⌈x⌉ : ℚ) := by exact_mod_cast hN
        rw [h2]; exact h1
      have h3 := (hq N).mp hxN
      have h4 : 2 * U * U ≤ N * U * k := by
        calc 2 * U * U ≤ (N * k) * U := Nat.mul_le_mul_right _ h3
          _ = N * U * k := by ring
      have h5 := hle N (by omega) h4
      have h6 : (R + U - 1) / U ≤ N := by
        apply Nat.le_of_lt_succ
        apply (Nat.div_lt_iff_lt_mul hU).mpr
        rw [Nat.succ_mul]
        omega
      have h7 : (max 1 (min ⌈x⌉ 1000)).toNat = N := by
        rw [min_eq_left hE'.le, max_eq_right hE1, ← hN]
        rfl
      rw [h7, hn]
      exact le_trans (min_le_left _ _) h6
  · generalize hEdef : (max 1 (min ⌈x⌉ 1000)).toNat = E
    have hEle : (E : Int) ≤ ⌈x⌉ := by
      have : (1 : Int) ≤ max 1 (min ⌈x⌉ 1000) := le_max_left _ _
      have h1 : ((max 1 (min ⌈x⌉ 1000)).toNat : Int) = max 1 (min ⌈x⌉ 1000) :=
        Int.toNat_of_nonneg (by omega)
      rw [← hEdef, h1]
      exact max_le hE1 (min_le_left _ _)
    have hE1000 : E ≤ 1000 := by
      have h2 : max 1 (min ⌈x⌉ 1000) ≤ 1000 := max_le (by norm_num) (min_le_right _ _)
      omega
    by_cases hE0 : E = 0
    · omega
    · obtain ⟨N, hN⟩ : ∃ N, E = N + 1 := ⟨E - 1, by omega⟩
      have hlt : ((N : Int) : ℚ) < x := by
        apply Int.lt_ceil.mp
        omega
      have hnot : ¬ x ≤ (N : ℚ) := by
        intro h
        rw [Int.cast_natCast] at hlt
        exact absurd h (not_le.mpr hlt)
      have h3 : N * k < 2 * U := by
        by_contra h
        exact hnot ((hq N).mpr (by omega))
      have h4 : N * U * k ≤ 2 * U * U := by
        calc N * U * k = (N * k) * U := by ring
          _ ≤ (2 * U) * U := Nat.mul_le_mul_right _ h3.le
      have h5 := hge N (by omega) h4
      have h6 : N ≤ (R + U - 1) / U := by
        apply (Nat.le_div_iff_mul_le hU).mpr
        omega
      rw [hN, hn]
      have : N ≤ min ((R + U - 1) / U) 1000 := le_min h6 (by omega)
      omega

theorem nMessages_near_exact (k : Nat) (hk : 0 < k) (hk2 : k < Float64.overflow) :
    Subscription.Receive.nMessages (Float64.finite false k) ≤
      (max 1 (min ⌈(2 : ℚ) / (Float64.finite false k).toRat⌉ 1000)).toNat ∧
    (max 1 (min ⌈(2 : ℚ) / (Float64.finite false k).toRat⌉ 1000)).toNat ≤
      Subscription.Receive.nMessages (Float64.finite false k) + 1 := by
  rw [toRat_finite]
  exact near_exact_aux Float64.unit _ k _ unit_pos hk (nMessages_finite k hk)
    (nMessages_bounds k hk hk2).1
    (fun N hN h => roundUnits_le_unit _ k N hk hN h)
    (fun N hN h => roundUnits_ge_unit _ k N hk hN h)

theorem nMessages_slow (k : Nat) (h2 : 2 * Float64.unit ≤ k) (hk2 : k < Float64.overflow) :
    Subscription.Receive.nMessages (Float64.finite false k) = 1 := by
  have hU := unit_pos
  have hk : 0 < k := by omega
  have hb := nMessages_bounds k hk hk2
  have hn := nMessages_finite k hk
  have h5 := roundUnits_le_unit (2 * Float64.unit * Float64.unit) k 1 hk (by norm_num)
    (by
      calc 2 * Float64.unit * Float64.unit = Float64.unit * (2 * Float64.unit) := by ring
        _ ≤ Float64.unit * k := Nat.mul_le_mul_left _ h2
        _ = 1 * Float64.unit * k := by ring)
  have h6 : (Float64.roundUnits (2 * Float64.unit * Float64.unit) k + Float64.unit - 1) /
      Float64.unit ≤ 1 := by
    apply Nat.le_of_lt_succ
    apply (Nat.div_lt_iff_lt_mul hU).mpr
    omega
  omega

/-- Counterexample to C13 as stated: after the samples 13 ms and 3 ms on a new
Subscription the average is 7205759403792793 * 2^-59 s, a little less than
1/80 s.  The exact quotient 2 s / average is a little more than 160, so its
ceiling is 161; the `float64` quotient is rounded to 160 before `math.Ceil` is
applied, and `Receive` asks for 160 messages. -/
theorem quotient_is_rounded_before_ceiling :
    (Subscription.addProcessingTimes [13000000, 3000000] newSubscription).avgProcessTime =
      Float64.finite false (7205759403792793 <<< 1015) ∧
    Subscription.Receive.nMessages (Float64.finite false (7205759403792793 <<< 1015)) = 160 ∧
    ⌈(2 : ℚ) / (Float64.finite false (7205759403792793 <<< 1015)).toRat⌉ = 161 := by
  refine ⟨by decide, by decide, ?_⟩
  rw [toRat_finite, Int.ceil_eq_iff]
  have h1 := exact_quotient_le Float64.unit (7205759403792793 <<< 1015) 160 unit_pos (by decide)
  have h2 := exact_quotient_le Float64.unit (7205759403792793 <<< 1015) 161 unit_pos (by decide)
  constructor
  · have : ¬ 2 * Float64.unit ≤ 160 * (7205759403792793 <<< 1015) := by decide
    have h3 := lt_of_not_le (fun h => this (h1.mp h))
    have e : ((161 : ℤ) : ℚ) - 1 = ((160 : ℕ) : ℚ) := by norm_num
    rw [e]
    exact h3
  · have : 2 * Float64.unit ≤ 161 * (7205759403792793 <<< 1015) := by decide
    have e : ((161 : ℤ) : ℚ) = ((161 : ℕ) : ℚ) := by norm_num
    rw [e]
    exact h2.mpr this

/-- C13, as amended: when a `Receive` becomes the fetch owner, the number `n`
of messages it asks the driver for is 1 if the average is not positive (0
before the first sample), and otherwise the `float64` value
`math.Ceil(2.0 / average)`, whose quotient is rounded to nearest before the
ceiling is taken, capped at 1000.  For every finite positive average `n` is
the exact ceiling of 2 s / average clamped to the range from 1 to 1000, or one
less than that, and `n` lies in that range.  An average of 0.1 s gives 20, one
of 0.001 s gives 1000 (the uncapped value is 2000), and every finite average of
2 s or more gives 1; an average of +Inf would give 0. -/
theorem fetch_size_clamped (ds : SubscriptionDriver) (ctx : Context) (env : ReceiveEnv)
    (s s1 : Subscription) (n : Nat)
    (h : Subscription.Receive.step ds ctx env ReceivePC.top s =
      some (ReceivePC.fetching n, s1)) :
    (Float64.zero.lt s.avgProcessTime = false → n = 1) ∧
    (Float64.zero.lt s.avgProcessTime = true →
      n = (Float64.toInt (Float64.Min
            (Float64.Ceil ((Seconds desiredQueueDuration).div s.avgProcessTime))
            (Float64.ofInt 1000))).toNat) ∧
    (∀ k, s.avgProcessTime = Float64.finite false k → 0 < k → k < Float64.overflow →
      1 ≤ n ∧ n ≤ 1000 ∧
      n ≤ (max 1 (min ⌈(2 : ℚ) / s.avgProcessTime.toRat⌉ 1000)).toNat ∧
      (max 1 (min ⌈(2 : ℚ) / s.avgProcessTime.toRat⌉ 1000)).toNat ≤ n + 1 ∧
      (2 * Float64.unit ≤ k → n = 1)) ∧
    Subscription.Receive.nMessages Float64.zero = 1 ∧
    Subscription.Receive.nMessages (Seconds 100000000) = 20 ∧
    Subscription.Receive.nMessages (Seconds 1000000) = 1000 ∧
    Float64.Ceil ((Seconds desiredQueueDuration).div (Seconds 1000000)) = Float64.ofInt 2000 ∧
    Subscription.Receive.nMessages (Float64.inf false) = 0 := by
  have hn : n = Subscription.Receive.nMessages s.avgProcessTime := by
    rcases receive_step_top ds ctx env s s1 _ h with
      ⟨e, _, hpc, _⟩ | ⟨m, rest, _, _, hpc, _⟩ | ⟨c, _, _, _, hpc, _⟩ | ⟨_, _, _, hpc, _⟩
    · cases hpc
    · cases hpc
    · cases hpc
    · exact ReceivePC.fetching.inj hpc
  refine ⟨?_, ?_, ?_, by decide, by decide, by decide, by decide, by decide⟩
  · intro h0
    rw [hn, nMessages_not_positive _ h0]
  · intro h0
    rw [hn]
    simp [Subscription.Receive.nMessages, h0]
  · intro k hk hk0 hk2
    rw [hn, hk]
    have hb := nMessages_bounds k hk0 hk2
    have he := nMessages_near_exact k hk0 hk2
    exact ⟨hb.1, hb.2, he.1, he.2, fun h2 => nMessages_slow k h2 hk2⟩

/-- Witness for C13, as amended: with an average of a millisecond the fetch
owner asks for 1000 messages. -/
theorem fetch_size_clamped_witness :
    Subscription.Receive.step queueDriver Context.Background env0 ReceivePC.top fastSub =
      some (ReceivePC.fetching 1000, { fastSub with waitc := some 0, chansMade := 1 }) ∧
    (Float64.zero.lt fastSub.avgProcessTime = true →
      (1000 : Nat) = (Float64.toInt (Float64.Min
            (Float64.Ceil ((Seconds desiredQueueDuration).div fastSub.avgProcessTime))
            (Float64.ofInt 1000))).toNat) :=
  have hstep : Subscription.Receive.step queueDriver Context.Background env0 ReceivePC.top
      fastSub = some (ReceivePC.fetching 1000, { fastSub with waitc := some 0, chansMade := 1 }) := by
    decide
  ⟨hstep, (fetch_size_clamped queueDriver Context.Background env0 fastSub
    { fastSub with waitc := some 0, chansMade := 1 } 1000 hstep).2.1⟩

/-! ## Bounds on the moving average -/

theorem frac_eq (B N j : Nat) (hj : j ≤ 1074) (hB : B * 2 ^ j = N * Float64.unit) :
    B = N * 2 ^ (1074 - j) := by
  have h1 : Float64.unit = 2 ^ (1074 - j) * 2 ^ j := by
    rw [unit_eq, ← Nat.pow_add]
    congr 1
    omega
  rw [h1, ← Nat.mul_assoc] at hB
  exact Nat.eq_of_mul_eq_mul_right (Nat.two_pow_pos j) hB

theorem roundUnits_le_frac (n d B N j : Nat) (hd : 0 < d) (hN : N < 2 ^ 53) (hj : j ≤ 1074)
    (hB : B * 2 ^ j = N * Float64.unit) (h : n ≤ B * d) : Float64.roundUnits n d ≤ B := by
  have e := frac_eq B N j hj hB
  rw [e] at h ⊢
  exact roundUnits_le n d N (1074 - j) hd hN h

theorem roundUnits_ge_frac (n d B N j : Nat) (hd : 0 < d) (hN : N < 2 ^ 53) (hj : j ≤ 1074)
    (hB : B * 2 ^ j = N * Float64.unit) (h : B * d ≤ n) : B ≤ Float64.roundUnits n d := by
  have e := frac_eq B N j hj hB
  rw [e] at h ⊢
  exact roundUnits_ge n d N (1074 - j) hd hN h

theorem round_of_lt (neg : Bool) (n d : Nat) (h : Float64.roundUnits n d < Float64.overflow) :
    Float64.round neg n d = Float64.finite neg (Float64.roundUnits n d) := by
  simp [Float64.round, h]

theorem big_lt_overflow : 9007199254740992 * Float64.unit < Float64.overflow := by decide

theorem decay_constants :
    ∃ m95 m05, oneMinusDecay = Float64.finite false m95 ∧ decay = Float64.finite false m05 ∧
      m95 * 9007199254740992 = 8556839292003942 * Float64.unit ∧
      m05 * 144115188075855872 = 7205759403792794 * Float64.unit ∧
      m95 ≤ Float64.unit ∧ m05 ≤ Float64.unit ∧ Float64.unit ≤ 32 * m05 ∧
      m95 + m05 ≤ Float64.unit :=
  ⟨8556839292003942 <<< 1021, 7205759403792794 <<< 1017, by decide, by decide, by decide,
    by decide, by decide, by decide, by decide, by decide⟩

theorem ofInt_natCast (m : Nat) (hm : m < 2 ^ 53) :
    Float64.ofInt (m : Int) = Float64.finite false (m * Float64.unit) := by
  have h1 : Float64.roundUnits (m * Float64.unit) 1 = m * Float64.unit :=
    le_antisymm (roundUnits_le_unit _ 1 m (by norm_num) hm (by omega))
      (roundUnits_ge_unit _ 1 m (by norm_num) hm (by omega))
  have h2 : m * Float64.unit < Float64.overflow := by
    have := big_lt_overflow
    have : m * Float64.unit ≤ 9007199254740992 * Float64.unit :=
      Nat.mul_le_mul_right _ (by norm_num at hm; omega)
    omega
  have h3 : ¬ ((m : Int) < 0) := by omega
  simp only [Float64.ofInt, h3, decide_False, Int.natAbs_ofNat]
  rw [round_of_lt _ _ _ (by rw [h1]; exact h2), h1]

theorem add_finite (a b : Nat) :
    (Float64.finite false a).add (Float64.finite false b) = Float64.round false (a + b) 1 := by
  simp [Float64.add]

theorem mul_finite (a b : Nat) :
    (Float64.finite false a).mul (Float64.finite false b) =
      Float64.round false (a * b) Float64.unit := by
  simp [Float64.mul]

theorem div_finite (a b : Nat) (hb : 0 < b) :
    (Float64.finite false a).div (Float64.finite false b) =
      Float64.round false (a * Float64.unit) b := by
  have : b ≠ 0 := by omega
  simp [Float64.div, this]

/-! ## Rounding errors -/

/-- The rounded magnitude is within half a unit, or within 2^-53 of the exact
value, of the exact value `n / d`. -/
theorem roundUnits_err (n d : Nat) (hd : 0 < d) :
    |(Float64.roundUnits n d : ℚ) - (n : ℚ) / d| ≤ 1 / 2 + (n : ℚ) / d / 2 ^ 53 := by
  have hdq : (0 : ℚ) < d := by exact_mod_cast hd
  rw [roundUnits_eq]
  have hs := excess_spec 12 (n / d) 0 (Or.inl rfl)
  generalize Float64.excess 12 (n / d) 0 = e at hs
  have hu : 0 < 2 ^ e := Nat.two_pow_pos e
  have hne := nearest_err n (d * 2 ^ e) (Nat.mul_pos hd hu)
  generalize Float64.nearest n (d * 2 ^ e) = M at hne
  have huq : (0 : ℚ) < (2 : ℚ) ^ e := by positivity
  have h1 : (2 : ℚ) * (M * (d * 2 ^ e)) ≤ 2 * n + d * 2 ^ e := by exact_mod_cast hne.1
  have h2 : (2 : ℚ) * n ≤ 2 * (M * (d * 2 ^ e)) + d * 2 ^ e := by exact_mod_cast hne.2
  have hx : (n : ℚ) / d * d = n := div_mul_cancel₀ _ hdq.ne'
  have hxnn : (0 : ℚ) ≤ (n : ℚ) / d := by positivity
  have hu2 : (2 : ℚ) ^ e ≤ 1 + (n : ℚ) / d / 2 ^ 52 := by
    rcases hs with h0 | h0
    · rw [h0]
      have : (0 : ℚ) ≤ (n : ℚ) / d / 2 ^ 52 := by positivity
      simpa using this
    · have h3 : 2 ^ (52 + e) * d ≤ n := (Nat.le_div_iff_mul_le hd).mp h0
      have h4 : ((2 : ℚ) ^ 52 * 2 ^ e) * d ≤ n := by
        have : ((2 ^ (52 + e) * d : Nat) : ℚ) ≤ (n : ℚ) := by exact_mod_cast h3
        rw [pow_add] at this
        push_cast at this
        exact this
      have h5 : (2 : ℚ) ^ 52 * 2 ^ e ≤ (n : ℚ) / d := by
        rw [le_div_iff₀ hdq]; exact h4
      have h6 : (2 : ℚ) ^ e ≤ (n : ℚ) / d / 2 ^ 52 := by
        rw [le_div_iff₀ (by positivity)]
        linarith
      linarith
  push_cast
  generalize (n : ℚ) / d = x at hx hxnn hu2 ⊢
  generalize (2 : ℚ) ^ e = u at huq h1 h2 hu2 ⊢
  rw [← hx] at h1 h2
  have h7 : (M : ℚ) * u - x ≤ u / 2 := by
    have : (2 * (M * u - x) - u) * d ≤ 0 := by nlinarith
    have := nonpos_of_mul_nonpos_left this hdq
    linarith
  have h8 : -(u / 2) ≤ (M : ℚ) * u - x := by
    have : (2 * (x - M * u) - u) * d ≤ 0 := by nlinarith
    have := nonpos_of_mul_nonpos_left this hdq
    linarith
  have h9 : u / 2 ≤ 1 / 2 + x / 2 ^ 53 := by
    have : x / 2 ^ 53 = x / 2 ^ 52 / 2 := by
      rw [div_div]; norm_num
    rw [this]
    linarith
  rw [abs_le]
  constructor <;> linarith

theorem ewma_err_aux (ka ms R1 R2 r : ℚ) (h0 : 0 ≤ ka) (h1 : 2 ^ 54 ≤ ms)
    (e1 : |R1 - ka * (8556839292003942 / 9007199254740992)| ≤
      1 / 2 + ka * (8556839292003942 / 9007199254740992) / 2 ^ 53)
    (e2 : |R2 - ms * (7205759403792794 / 144115188075855872)| ≤
      1 / 2 + ms * (7205759403792794 / 144115188075855872) / 2 ^ 53)
    (e3 : |r - (R1 + R2)| ≤ 1 / 2 + (R1 + R2) / 2 ^ 53) :
    |r - (19 / 20 * ka + 1 / 20 * ms)| ≤ (ka + ms) / 2 ^ 51 := by
  rw [abs_le] at e1 e2 e3 ⊢
  norm_num at e1 e2 e3 h1 ⊢
  constructor <;> linarith

theorem unit_ge : 2 ^ 84 ≤ Float64.unit := by decide

theorem units_cast (m M P : Nat) (hP : 0 < P) (h : m * P = M * Float64.unit) :
    (m : ℚ) = (M : ℚ) / (P : ℚ) * (Float64.unit : ℚ) := by
  have hPq : (0 : ℚ) < P := by exact_mod_cast hP
  have : (m : ℚ) * P = M * (Float64.unit : ℚ) := by exact_mod_cast h
  field_simp
  linarith

/-- One update of the moving average, with its rounding error: the new average
differs from 0.95 * average + 0.05 * sample by at most 2^-51 of their sum. -/
theorem ewma_step (ka ms : Nat) (hka : ka ≤ 17179869184 * Float64.unit)
    (hms1 : Float64.unit ≤ 1073741824 * ms) (hms2 : ms ≤ 17179869184 * Float64.unit) :
    ∃ r, ((Float64.finite false ka).mul oneMinusDecay).add
        ((Float64.finite false ms).mul decay) = Float64.finite false r ∧
      Float64.unit ≤ 34359738368 * r ∧ r ≤ 17179869184 * Float64.unit ∧
      |(r : ℚ) - (19 / 20 * (ka : ℚ) + 1 / 20 * (ms : ℚ))| ≤ ((ka : ℚ) + (ms : ℚ)) / 2 ^ 51 := by
  have hU := unit_pos
  have hov := big_lt_overflow
  obtain ⟨m95, m05, h95, h05, e95, e05, hm95, hm05le, hm05, hsum⟩ := decay_constants
  rw [h95, h05, mul_finite, mul_finite]
  -- the first product
  have hR1 : Float64.roundUnits (ka * m95) Float64.unit ≤ 17179869184 * m95 := by
    apply roundUnits_le_frac _ _ _ 8556839292003942 19 hU (by norm_num) (by norm_num)
    · rw [← e95]
      ring
    · calc ka * m95 ≤ 17179869184 * Float64.unit * m95 := Nat.mul_le_mul_right _ hka
        _ = 17179869184 * m95 * Float64.unit := by ring
  -- the second product
  have hR2 : Float64.roundUnits (ms * m05) Float64.unit ≤ 17179869184 * m05 := by
    apply roundUnits_le_frac _ _ _ 7205759403792794 23 hU (by norm_num) (by norm_num)
    · rw [← e05]
      ring
    · calc ms * m05 ≤ 17179869184 * Float64.unit * m05 := Nat.mul_le_mul_right _ hms2
        _ = 17179869184 * m05 * Float64.unit := by ring
  have c95 := units_cast m95 8556839292003942 9007199254740992 (by norm_num) e95
  have c05 := units_cast m05 7205759403792794 144115188075855872 (by norm_num) e05
  clear e95 e05
  obtain ⟨B, hB⟩ : ∃ B, B * 2 ^ 35 = 1 * Float64.unit :=
    ⟨2 ^ 1039, by rw [unit_eq, ← Nat.pow_add]; norm_num⟩
  have hB' : Float64.unit = 34359738368 * B := by norm_num at hB; omega
  have hR2' : B ≤ Float64.roundUnits (ms * m05) Float64.unit := by
    apply roundUnits_ge_frac _ _ B 1 35 hU (by norm_num) (by norm_num) hB
    have h1 : 32 * B ≤ ms := by omega
    have h2 : (32 * B) * Float64.unit ≤ ms * (32 * m05) := Nat.mul_le_mul h1 hm05
    have h3 : (32 * B) * Float64.unit = 32 * (B * Float64.unit) := by ring
    have h4 : ms * (32 * m05) = 32 * (ms * m05) := by ring
    omega
  have hm95' : 17179869184 * m95 ≤ 17179869184 * Float64.unit := Nat.mul_le_mul_left _ hm95
  have hm05' : 17179869184 * m05 ≤ 17179869184 * Float64.unit :=
    Nat.mul_le_mul_left _ hm05le
  rw [round_of_lt _ _ _ (by omega), round_of_lt _ _ _ (by omega), add_finite]
  have er1 := roundUnits_err (ka * m95) Float64.unit hU
  have er2 := roundUnits_err (ms * m05) Float64.unit hU
  generalize Float64.roundUnits (ka * m95) Float64.unit = R1 at hR1 er1
  generalize Float64.roundUnits (ms * m05) Float64.unit = R2 at hR2 hR2' er2
  have hR3 : Float64.roundUnits (R1 + R2) 1 ≤ 17179869184 * Float64.unit := by
    apply roundUnits_le_unit _ _ 17179869184 (by norm_num) (by norm_num)
    omega
  have hR3' : B ≤ Float64.roundUnits (R1 + R2) 1 := by
    apply roundUnits_ge_frac _ _ B 1 35 (by norm_num) (by norm_num) (by norm_num) hB
    omega
  have er3 := roundUnits_err (R1 + R2) 1 (by norm_num)
  rw [round_of_lt _ _ _ (by omega)]
  refine ⟨_, rfl, by omega, hR3, ?_⟩
  generalize Float64.roundUnits (R1 + R2) 1 = r at er3
  -- the three rounding errors, in units
  have hUq := unit_pos_rat
  have hms54 : (2 : ℚ) ^ 54 ≤ (ms : ℚ) := by
    have h1 := unit_ge
    have h2 : 2 ^ 54 ≤ ms := by
      have : (2 : Nat) ^ 84 = 1073741824 * 2 ^ 54 := by norm_num
      omega
    exact_mod_cast h2
  have x1 : ((ka * m95 : Nat) : ℚ) / (Float64.unit : ℚ) =
      (ka : ℚ) * (8556839292003942 / 9007199254740992) := by
    push_cast
    rw [c95]
    field_simp
    ring
  have x2 : ((ms * m05 : Nat) : ℚ) / (Float64.unit : ℚ) =
      (ms : ℚ) * (7205759403792794 / 144115188075855872) := by
    push_cast
    rw [c05]
    field_simp
    ring
  rw [x1] at er1
  rw [x2] at er2
  have x3 : ((R1 + R2 : Nat) : ℚ) / ((1 : Nat) : ℚ) = (R1 : ℚ) + (R2 : ℚ) := by
    push_cast
    simp
  rw [x3] at er3
  exact ewma_err_aux (ka : ℚ) (ms : ℚ) (R1 : ℚ) (R2 : ℚ) (r : ℚ) (Nat.cast_nonneg ka) hms54 er1 er2 er3

theorem seconds_err_aux (X Q ms N S : ℚ) (hX : 2 ^ 54 ≤ X) (_hN : 0 ≤ N) (hS : 0 ≤ S)
    (hXdef : X = S + N)
    (e1 : |Q - N| ≤ 1 / 2 + N / 2 ^ 53)
    (e2 : |ms - (S + Q)| ≤ 1 / 2 + (S + Q) / 2 ^ 53) :
    |ms - X| ≤ 3 * X / 2 ^ 53 := by
  rw [abs_le] at e1 e2 ⊢
  norm_num at e1 e2 hX ⊢
  constructor <;> linarith

/-- A duration of at least 1 ns that fits an `int64` is, in seconds, a finite
`float64` between 2^-30 and 2^34 that differs from the exact number of seconds
by at most 3 * 2^-53 of it. -/
theorem seconds_step (d : Nat) (h1 : 1 ≤ d) (h2 : d < 2 ^ 63) :
    ∃ ms, Seconds (d : Int) = Float64.finite false ms ∧
      Float64.unit ≤ 1073741824 * ms ∧ ms ≤ 17179869184 * Float64.unit ∧
      |(ms : ℚ) - (d : ℚ) / 1000000000 * (Float64.unit : ℚ)| ≤
        3 * ((d : ℚ) / 1000000000 * (Float64.unit : ℚ)) / 2 ^ 53 := by
  have hU := unit_pos
  have hov := big_lt_overflow
  have hsec : d / 1000000000 < 2 ^ 53 := by
    have : d / 1000000000 ≤ d := Nat.div_le_self _ _
    norm_num at h2 ⊢
    omega
  have hsec34 : d / 1000000000 + 1 ≤ 17179869184 := by
    norm_num at h2
    omega
  have hnsec : d % 1000000000 < 1000000000 := Nat.mod_lt _ (by norm_num)
  have hdm := Nat.div_add_mod d 1000000000
  unfold Seconds
  simp only []
  have e1 : (d : Int).tdiv 1000000000 = ((d / 1000000000 : Nat) : Int) :=
    (Int.ofNat_tdiv d 1000000000).symm
  have e2 : (d : Int).tmod 1000000000 = ((d % 1000000000 : Nat) : Int) :=
    (Int.ofNat_tmod d 1000000000).symm
  rw [e1, e2]
  have e9 : Float64.ofInt 1000000000 = Float64.finite false (1000000000 * Float64.unit) :=
    ofInt_natCast 1000000000 (by norm_num)
  rw [e9, ofInt_natCast _ hsec, ofInt_natCast _ (by norm_num; omega),
    div_finite _ _ (by omega)]
  have hdq : (d : ℚ) = 1000000000 * ((d / 1000000000 : Nat) : ℚ) + ((d % 1000000000 : Nat) : ℚ) := by
    exact_mod_cast hdm.symm
  generalize hsecdef : d / 1000000000 = sec at *
  generalize hnsecdef : d % 1000000000 = nsec at *
  -- the fraction of a second
  have hq1 : Float64.roundUnits (nsec * Float64.unit * Float64.unit)
      (1000000000 * Float64.unit) ≤ 1 * Float64.unit := by
    apply roundUnits_le_unit _ _ 1 (by omega) (by norm_num)
    calc nsec * Float64.unit * Float64.unit
        ≤ 1000000000 * Float64.unit * Float64.unit :=
          Nat.mul_le_mul_right _ (Nat.mul_le_mul_right _ hnsec.le)
      _ = 1 * Float64.unit * (1000000000 * Float64.unit) := by ring
  have er1 := roundUnits_err (nsec * Float64.unit * Float64.unit) (1000000000 * Float64.unit)
    (by omega)
  rw [round_of_lt _ _ _ (by omega)]
  generalize hQ : Float64.roundUnits (nsec * Float64.unit * Float64.unit)
      (1000000000 * Float64.unit) = Q at hq1 er1
  rw [add_finite]
  have hs1 : Float64.roundUnits (sec * Float64.unit + Q) 1 ≤ (sec + 1) * Float64.unit := by
    apply roundUnits_le_unit _ _ (sec + 1) (by norm_num) (by norm_num at hsec ⊢; omega)
    have : (sec + 1) * Float64.unit = sec * Float64.unit + Float64.unit := by ring
    omega
  have hs2 : (sec + 1) * Float64.unit ≤ 17179869184 * Float64.unit :=
    Nat.mul_le_mul_right _ hsec34
  have er2 := roundUnits_err (sec * Float64.unit + Q) 1 (by norm_num)
  rw [round_of_lt _ _ _ (by omega)]
  -- the lower bound
  obtain ⟨B, hB⟩ : ∃ B, B * 2 ^ 30 = 1 * Float64.unit :=
    ⟨2 ^ 1044, by rw [unit_eq, ← Nat.pow_add]; norm_num⟩
  have hB' : Float64.unit = 1073741824 * B := by norm_num at hB; omega
  have hBle : B ≤ Float64.roundUnits (sec * Float64.unit + Q) 1 := by
    apply roundUnits_ge_frac _ _ B 1 30 (by norm_num) (by norm_num) (by norm_num) hB
    by_cases hs : 1 ≤ sec
    · have : 1 * Float64.unit ≤ sec * Float64.unit := Nat.mul_le_mul_right _ hs
      omega
    · have hn1 : 1 ≤ nsec := by omega
      have hBQ : B ≤ Q := by
        rw [← hQ]
        apply roundUnits_ge_frac _ _ B 1 30 (by omega) (by norm_num) (by norm_num) hB
        calc B * (1000000000 * Float64.unit) = (1000000000 * B) * Float64.unit := by ring
          _ ≤ (1073741824 * B) * Float64.unit :=
            Nat.mul_le_mul_right _ (Nat.mul_le_mul_right _ (by decide))
          _ = 1 * Float64.unit * Float64.unit := by rw [← hB']; ring
          _ ≤ nsec * Float64.unit * Float64.unit :=
            Nat.mul_le_mul_right _ (Nat.mul_le_mul_right _ hn1)
      omega
  refine ⟨_, rfl, by omega, by omega, ?_⟩
  generalize Float64.roundUnits (sec * Float64.unit + Q) 1 = ms at er2
  -- the two rounding errors, in units
  have hUq := unit_pos_rat
  have hU84 : (2 : ℚ) ^ 84 ≤ (Float64.unit : ℚ) := by exact_mod_cast unit_ge
  have x1 : ((nsec * Float64.unit * Float64.unit : Nat) : ℚ) /
      ((1000000000 * Float64.unit : Nat) : ℚ) =
      (nsec : ℚ) / 1000000000 * (Float64.unit : ℚ) := by
    push_cast
    field_simp
    ring
  rw [x1] at er1
  have x2 : ((sec * Float64.unit + Q : Nat) : ℚ) / ((1 : Nat) : ℚ) =
      (sec : ℚ) * (Float64.unit : ℚ) + (Q : ℚ) := by
    push_cast
    simp
  rw [x2] at er2
  have hd1 : (1 : ℚ) ≤ (d : ℚ) := by exact_mod_cast h1
  have hsecq : (0 : ℚ) ≤ (sec : ℚ) := Nat.cast_nonneg sec
  have hnsecq : (0 : ℚ) ≤ (nsec : ℚ) := Nat.cast_nonneg nsec
  generalize (Float64.unit : ℚ) = U at *
  apply seconds_err_aux ((d : ℚ) / 1000000000 * U) Q ms ((nsec : ℚ) / 1000000000 * U)
    ((sec : ℚ) * U) ?_ (mul_nonneg (div_nonneg hnsecq (by norm_num)) hUq.le)
    (mul_nonneg hsecq hUq.le) ?_ er1 er2
  · have : (2 : ℚ) ^ 54 ≤ 1 / 1000000000 * U := by
      have : (2 : ℚ) ^ 84 = 2 ^ 54 * 1073741824 := by norm_num
      linarith
    have : 1 / 1000000000 * U ≤ (d : ℚ) / 1000000000 * U := by
      apply mul_le_mul_of_nonneg_right _ hUq.le
      apply div_le_div_of_nonneg_right hd1 (by norm_num)
    linarith
  · rw [hdq]
    ring

theorem eq_zero_finite (k : Nat) :
    (Float64.finite false k).eq Float64.zero = decide (k = 0) := by
  simp [Float64.eq, Float64.zero, Float64.signed]

theorem lt_zero_finite (k : Nat) :
    Float64.zero.lt (Float64.finite false k) = decide (0 < k) := by
  simp [Float64.lt, Float64.zero, Float64.signed]

/-- One call of `addProcessingTime` with a sample that is not negative and fits
an `int64`, on an average that is zero or lies between 0 and 2^34 s: the new
average is a finite `float64` between 2^-35 s and 2^34 s. -/
theorem addProcessingTime_bounds (s : Subscription) (d : Int) (hd0 : 0 ≤ d)
    (hd63 : d < 9223372036854775808)
    (ha : s.avgProcessTime.eq Float64.zero = true ∨
      ∃ k, s.avgProcessTime = Float64.finite false k ∧ k ≤ 17179869184 * Float64.unit) :
    ∃ r, (s.addProcessingTime d).avgProcessTime = Float64.finite false r ∧
      Float64.unit ≤ 34359738368 * r ∧ r ≤ 17179869184 * Float64.unit := by
  obtain ⟨dn, hdn, hdn1, hdn2⟩ : ∃ dn : Nat, (if d = 0 then 1 else d) = (dn : Int) ∧ 1 ≤ dn ∧
      dn < 2 ^ 63 := by
    refine ⟨(if d = 0 then 1 else d).toNat, ?_, ?_, ?_⟩ <;> split_ifs <;> omega
  obtain ⟨ms, hms, hms1, hms2, _⟩ := seconds_step dn hdn1 hdn2
  by_cases hz : s.avgProcessTime.eq Float64.zero = true
  · refine ⟨ms, ?_, by omega, hms2⟩
    simp only [Subscription.addProcessingTime, hz, if_true, hdn, hms]
  · rcases ha with ha | ⟨k, hk, hk2⟩
    · exact absurd ha hz
    · obtain ⟨r, hr, hr1, hr2, _⟩ := ewma_step k ms hk2 hms1 hms2
      refine ⟨r, ?_, hr1, hr2⟩
      simp only [Subscription.addProcessingTime, hz, if_false, hdn, hms]
      rw [hk]
      exact hr

theorem addProcessingTimes_bounds :
    ∀ (ds : List Int) (d : Int) (s : Subscription),
      (∀ x ∈ d :: ds, 0 ≤ x ∧ x < 9223372036854775808) →
      (s.avgProcessTime.eq Float64.zero = true ∨
        ∃ k, s.avgProcessTime = Float64.finite false k ∧ k ≤ 17179869184 * Float64.unit) →
      ∃ r, (Subscription.addProcessingTimes (d :: ds) s).avgProcessTime = Float64.finite false r ∧
        Float64.unit ≤ 34359738368 * r ∧ r ≤ 17179869184 * Float64.unit := by
  intro ds
  induction ds with
  | nil =>
    intro d s hnn ha
    have hd := hnn d (List.mem_cons_self _ _)
    exact addProcessingTime_bounds s d hd.1 hd.2 ha
  | cons d1 ds ih =>
    intro d s hnn ha
    have hd := hnn d (List.mem_cons_self _ _)
    obtain ⟨r, hr, _, hr2⟩ := addProcessingTime_bounds s d hd.1 hd.2 ha
    exact ih d1 (s.addProcessingTime d) (fun x hx => hnn x (List.mem_cons_of_mem _ hx))
      (Or.inr ⟨r, hr, hr2⟩)

/-- C15: `addProcessingTime 0` does exactly what `addProcessingTime 1` does
(1 ns); and starting from an average of 0, after one or more samples, none of
them negative (and each a `time.Duration`, so below 2^63 ns), the average is a
finite `float64` that is strictly positive, between 2^-35 s and 2^34 s.  So
`Receive` does not take the size 1 of the case without observation: it divides
by an average that is not zero, and the size it computes lies between 1 and
1000. -/
theorem zero_sample_cannot_stall (s : Subscription) (d : Int) (ds : List Int)
    (hfresh : s.avgProcessTime.eq Float64.zero = true)
    (hnn : ∀ x ∈ d :: ds, 0 ≤ x ∧ x < 9223372036854775808) :
    s.addProcessingTime 0 = s.addProcessingTime 1 ∧
    ∃ k, (Subscription.addProcessingTimes (d :: ds) s).avgProcessTime = Float64.finite false k ∧
      0 < k ∧ Float64.unit ≤ 34359738368 * k ∧ k ≤ 17179869184 * Float64.unit ∧
      Float64.zero.lt (Subscription.addProcessingTimes (d :: ds) s).avgProcessTime = true ∧
      (Subscription.addProcessingTimes (d :: ds) s).avgProcessTime.eq Float64.zero = false ∧
      Subscription.Receive.nMessages (Subscription.addProcessingTimes (d :: ds) s).avgProcessTime =
        (Float64.toInt (Float64.Min
          (Float64.Ceil ((Seconds desiredQueueDuration).div
            (Subscription.addProcessingTimes (d :: ds) s).avgProcessTime))
          (Float64.ofInt 1000))).toNat ∧
      1 ≤ Subscription.Receive.nMessages
        (Subscription.addProcessingTimes (d :: ds) s).avgProcessTime ∧
      Subscription.Receive.nMessages
        (Subscription.addProcessingTimes (d :: ds) s).avgProcessTime ≤ 1000 := by
  refine ⟨by simp [Subscription.addProcessingTime], ?_⟩
  obtain ⟨k, hk, hk1, hk2⟩ := addProcessingTimes_bounds ds d s hnn (Or.inl hfresh)
  have hU := unit_pos
  have hov := big_lt_overflow
  have hk0 : 0 < k := by omega
  have hlt : Float64.zero.lt (Float64.finite false k) = true := by
    rw [lt_zero_finite]; exact decide_eq_true hk0
  have hb := nMessages_bounds k hk0 (by omega)
  rw [hk]
  refine ⟨k, rfl, hk0, hk1, hk2, hlt, ?_, ?_, hb.1, hb.2⟩
  · rw [eq_zero_finite]
    exact decide_eq_false (by omega)
  · simp [Subscription.Receive.nMessages, hlt]

/-- Witness for C15: the samples 0, 0 and 3 ns on a new Subscription. -/
theorem zero_sample_cannot_stall_witness :
    newSubscription.addProcessingTime 0 = newSubscription.addProcessingTime 1 ∧
    ∃ k, (Subscription.addProcessingTimes [0, 0, 3] newSubscription).avgProcessTime =
        Float64.finite false k ∧ 0 < k :=
  have h := zero_sample_cannot_stall newSubscription 0 [0, 3] rfl (by decide)
  ⟨h.1, h.2.imp fun _ hk => ⟨hk.1, hk.2.1⟩⟩

theorem addProcessingTimes_replicate_succ (n : Nat) (d : Int) (s : Subscription) :
    Subscription.addProcessingTimes (List.replicate (n + 1) d) s =
      (Subscription.addProcessingTimes (List.replicate n d) s).addProcessingTime d := by
  induction n generalizing s with
  | zero => rfl
  | succ n ih =>
    rw [List.replicate_succ, Subscription.addProcessingTimes, ih]
    rfl

theorem ewma_exact_aux (r ka ms X : ℚ) (hka : 0 ≤ ka) (hX : 0 ≤ X)
    (e1 : |r - (19 / 20 * ka + 1 / 20 * ms)| ≤ (ka + ms) / 2 ^ 51)
    (e2 : |ms - X| ≤ 3 * X / 2 ^ 53) :
    |r - (19 / 20 * ka + 1 / 20 * X)| ≤ (ka + X) / 2 ^ 50 := by
  rw [abs_le] at e1 e2 ⊢
  norm_num at e1 e2 ⊢
  constructor <;> linarith

theorem approach_step_aux (y y1 x S D M : ℚ) (hD : 0 ≤ D) (hDM : D ≤ M) (_hx : 0 ≤ x)
    (hxM : x ≤ M) (e0 : |y - x| ≤ M / 2 ^ 45) (e2 : |S - D| ≤ 3 * D / 2 ^ 53)
    (e1 : |y1 - (19 / 20 * y + 1 / 20 * S)| ≤ (y + S) / 2 ^ 51) :
    |y1 - (19 / 20 * x + 1 / 20 * D)| ≤ M / 2 ^ 45 := by
  rw [abs_le] at e0 e1 e2 ⊢
  norm_num at e0 e1 e2 ⊢
  constructor <;> linarith

theorem closed_form_bounds (A D : ℚ) (n : Nat) :
    min A D ≤ D + (A - D) * (19 / 20) ^ n ∧ D + (A - D) * (19 / 20) ^ n ≤ max A D := by
  have hp0 : (0 : ℚ) ≤ (19 / 20) ^ n := by positivity
  have hp1 : ((19 : ℚ) / 20) ^ n ≤ 1 := pow_le_one₀ (by norm_num) (by norm_num)
  rcases le_total A D with h | h
  · rw [min_eq_left h, max_eq_right h]
    constructor <;> nlinarith
  · rw [min_eq_right h, max_eq_left h]
    constructor <;> nlinarith

theorem abs_div_unit (a b : ℚ) (h : |a| ≤ b) :
    |a / (Float64.unit : ℚ)| ≤ b / (Float64.unit : ℚ) := by
  rw [abs_div, abs_of_pos unit_pos_rat]
  exact div_le_div_of_nonneg_right h unit_pos_rat.le

theorem scale_sub (r a D U : ℚ) (hU : 0 < U) :
    (r - (19 / 20 * a + 1 / 20 * (D * U))) / U = r / U - (19 / 20 * (a / U) + 1 / 20 * D) := by
  field_simp
  ring

theorem scale_sum (a D U c : ℚ) (hU : 0 < U) :
    (a + D * U) / c / U = (a / U + D) / c := by
  rw [div_div, mul_comm c U, ← div_div, add_div, mul_div_assoc, div_self hU.ne', mul_one]

theorem scale_diff (r D U : ℚ) (hU : 0 < U) : (r - D * U) / U = r / U - D := by
  field_simp
  ring

theorem scale_mul (D U c e : ℚ) (hU : 0 < U) (he : 0 < e) :
    c * (D * U) / e / U = c * D / e := by
  field_simp
  ring

theorem scale_closed (r a D U p : ℚ) (hU : 0 < U) :
    (r - (D * U + (a - D * U) * p)) / U = r / U - (D + (a / U - D) * p) := by
  rw [div_eq_iff hU.ne']
  have e : (r / U - (D + (a / U - D) * p)) * U =
      r / U * U - (D * U + (a / U * U - D * U) * p) := by ring
  rw [e, div_mul_cancel₀ r hU.ne', div_mul_cancel₀ a hU.ne']

theorem scale_div (D U c : ℚ) (hU : 0 < U) : D * U / c / U = D / c := by
  rw [div_right_comm, mul_div_assoc, div_self hU.ne', mul_one]

theorem scale_max (a D U c : ℚ) (hU : 0 < U) :
    max a (D * U) / c / U = max (a / U) D / c := by
  rw [div_right_comm, ← max_div_div_right hU.le, mul_div_assoc, div_self hU.ne', mul_one]

theorem addProcessingTime_of_pos (s : Subscription) (d : Int) (ka : Nat) (hd0 : d ≠ 0)
    (hk : s.avgProcessTime = Float64.finite false ka) (hka0 : 0 < ka) :
    (s.addProcessingTime d).avgProcessTime =
      ((Float64.finite false ka).mul oneMinusDecay).add ((Seconds d).mul decay) := by
  have hz : (Float64.finite false ka).eq Float64.zero = false := by
    rw [eq_zero_finite]
    exact decide_eq_false (by omega)
  unfold Subscription.addProcessingTime
  simp only [if_neg hd0, hk, hz, Bool.false_eq_true, if_false]

theorem addProcessingTime_of_zero (s : Subscription) (d : Int) (hd0 : d ≠ 0)
    (hz : s.avgProcessTime.eq Float64.zero = true) :
    (s.addProcessingTime d).avgProcessTime = Seconds d := by
  unfold Subscription.addProcessingTime
  simp only [if_neg hd0, hz, if_true]

/-- One call of `addProcessingTime` with a positive sample on a positive
average: the new average is a finite `float64` between 2^-35 s and 2^34 s, and
it differs from 0.95 * average + 0.05 * sample by at most 2^-50 of their
sum. -/
theorem addProcessingTime_err (s : Subscription) (d ka : Nat) (hd1 : 1 ≤ d) (hd63 : d < 2 ^ 63)
    (hk : s.avgProcessTime = Float64.finite false ka) (hka0 : 0 < ka)
    (hka : ka ≤ 17179869184 * Float64.unit) :
    ∃ r, (s.addProcessingTime (d : Int)).avgProcessTime = Float64.finite false r ∧
      Float64.unit ≤ 34359738368 * r ∧ r ≤ 17179869184 * Float64.unit ∧
      |(Float64.finite false r).toRat -
          (19 / 20 * (Float64.finite false ka).toRat + 1 / 20 * ((d : ℚ) / 1000000000))| ≤
        ((Float64.finite false ka).toRat + (d : ℚ) / 1000000000) / 2 ^ 50 := by
  obtain ⟨ms, hms, hms1, hms2, ems⟩ := seconds_step d hd1 hd63
  obtain ⟨r, hr, hr1, hr2, er⟩ := ewma_step ka ms hka hms1 hms2
  have hd0 : (d : Int) ≠ 0 := by omega
  refine ⟨r, ?_, hr1, hr2, ?_⟩
  · rw [addProcessingTime_of_pos s d ka hd0 hk hka0, hms]
    exact hr
  · have hUq := unit_pos_rat
    have hD : (0 : ℚ) ≤ (d : ℚ) / 1000000000 := div_nonneg (Nat.cast_nonneg d) (by norm_num)
    have h := ewma_exact_aux (r : ℚ) (ka : ℚ) (ms : ℚ) _ (Nat.cast_nonneg ka)
      (mul_nonneg hD hUq.le) er ems
    have h2 := abs_div_unit _ _ h
    rw [scale_sub _ _ _ _ hUq, scale_sum _ _ _ _ hUq] at h2
    rw [toRat_finite, toRat_finite]
    exact h2

/-- One call of `addProcessingTime` with a positive sample on a positive
average, in units: the sample in seconds and the new average are finite, and
both carry the rounding errors of their operations. -/
theorem addProcessingTime_units (s : Subscription) (d ka : Nat) (hd1 : 1 ≤ d) (hd63 : d < 2 ^ 63)
    (hk : s.avgProcessTime = Float64.finite false ka) (hka0 : 0 < ka)
    (hka : ka ≤ 17179869184 * Float64.unit) :
    ∃ ms r, Seconds (d : Int) = Float64.finite false ms ∧
      ms ≤ 17179869184 * Float64.unit ∧
      |(ms : ℚ) - (d : ℚ) / 1000000000 * (Float64.unit : ℚ)| ≤
        3 * ((d : ℚ) / 1000000000 * (Float64.unit : ℚ)) / 2 ^ 53 ∧
      (s.addProcessingTime (d : Int)).avgProcessTime = Float64.finite false r ∧
      0 < r ∧ r ≤ 17179869184 * Float64.unit ∧
      |(r : ℚ) - (19 / 20 * (ka : ℚ) + 1 / 20 * (ms : ℚ))| ≤ ((ka : ℚ) + (ms : ℚ)) / 2 ^ 51 := by
  obtain ⟨ms, hms, hms1, hms2, ems⟩ := seconds_step d hd1 hd63
  obtain ⟨r, hr, hr1, hr2, er⟩ := ewma_step ka ms hka hms1 hms2
  have hd0 : (d : Int) ≠ 0 := by omega
  have hU := unit_pos
  refine ⟨ms, r, hms, hms2, ems, ?_, by omega, hr2, er⟩
  rw [addProcessingTime_of_pos s d ka hd0 hk hka0, hms]
  exact hr

/-- Constant samples, in units: after `n` calls the average is within 2^-45 of
the larger of the starting average and the sample of the closed form
d + (a - d) * 0.95^n. -/
theorem constant_samples_err (d ka : Nat) (hd1 : 1 ≤ d) (hd63 : d < 2 ^ 63)
    (hka0 : 0 < ka) (hka : ka ≤ 17179869184 * Float64.unit) (s : Subscription)
    (hk : s.avgProcessTime = Float64.finite false ka) (n : Nat) :
    ∃ r, (Subscription.addProcessingTimes (List.replicate n (d : Int)) s).avgProcessTime =
        Float64.finite false r ∧
      0 < r ∧ r ≤ 17179869184 * Float64.unit ∧
      |(r : ℚ) - ((d : ℚ) / 1000000000 * (Float64.unit : ℚ) +
          ((ka : ℚ) - (d : ℚ) / 1000000000 * (Float64.unit : ℚ)) * (19 / 20) ^ n)| ≤
        max (ka : ℚ) ((d : ℚ) / 1000000000 * (Float64.unit : ℚ)) / 2 ^ 45 := by
  have hUq := unit_pos_rat
  have hX0 : (0 : ℚ) ≤ (d : ℚ) / 1000000000 * (Float64.unit : ℚ) :=
    mul_nonneg (div_nonneg (Nat.cast_nonneg d) (by norm_num)) hUq.le
  have hka0q : (0 : ℚ) ≤ (ka : ℚ) := Nat.cast_nonneg ka
  induction n with
  | zero =>
    refine ⟨ka, by simpa [Subscription.addProcessingTimes] using hk, hka0, hka, ?_⟩
    have h0 : (0 : ℚ) ≤ max (ka : ℚ) ((d : ℚ) / 1000000000 * (Float64.unit : ℚ)) / 2 ^ 45 :=
      div_nonneg (le_trans hka0q (le_max_left _ _)) (by norm_num)
    have e : (ka : ℚ) - ((d : ℚ) / 1000000000 * (Float64.unit : ℚ) +
        ((ka : ℚ) - (d : ℚ) / 1000000000 * (Float64.unit : ℚ)) * (19 / 20) ^ 0) = 0 := by
      rw [pow_zero]; ring
    rw [e, abs_zero]
    exact h0
  | succ n ih =>
    obtain ⟨r, hr, hr0, hr2, er⟩ := ih
    obtain ⟨ms, r1, _, _, ems, hr1, hr10, hr12, er1⟩ :=
      addProcessingTime_units _ d r hd1 hd63 hr hr0 hr2
    rw [addProcessingTimes_replicate_succ]
    refine ⟨r1, hr1, hr10, hr12, ?_⟩
    have hb := closed_form_bounds (ka : ℚ) ((d : ℚ) / 1000000000 * (Float64.unit : ℚ)) n
    have hmin : (0 : ℚ) ≤ min (ka : ℚ) ((d : ℚ) / 1000000000 * (Float64.unit : ℚ)) :=
      le_min hka0q hX0
    have h := approach_step_aux (r : ℚ) (r1 : ℚ) _ (ms : ℚ) _ _ hX0 (le_max_right _ _)
      (le_trans hmin hb.1) hb.2 er ems er1
    have e : 19 / 20 * ((d : ℚ) / 1000000000 * (Float64.unit : ℚ) +
        ((ka : ℚ) - (d : ℚ) / 1000000000 * (Float64.unit : ℚ)) * (19 / 20) ^ n) +
        1 / 20 * ((d : ℚ) / 1000000000 * (Float64.unit : ℚ)) =
        (d : ℚ) / 1000000000 * (Float64.unit : ℚ) +
        ((ka : ℚ) - (d : ℚ) / 1000000000 * (Float64.unit : ℚ)) * (19 / 20) ^ (n + 1) := by
      rw [pow_succ]; ring
    rw [e] at h
    exact h

theorem fresh_aux (r ms X p : ℚ) (hp0 : 0 ≤ p) (hp1 : p ≤ 1) (hX : 0 ≤ X)
    (e : |r - (X + (ms - X) * p)| ≤ max ms X / 2 ^ 45) (e2 : |ms - X| ≤ 3 * X / 2 ^ 53) :
    |r - X| ≤ X / 2 ^ 44 := by
  have ht : |(ms - X) * p| ≤ |ms - X| := by
    rw [abs_mul, abs_of_nonneg hp0]
    exact mul_le_of_le_one_right (abs_nonneg _) hp1
  have hmax : max ms X ≤ X + |ms - X| := by
    apply max_le
    · have := le_abs_self (ms - X)
      linarith
    · have := abs_nonneg (ms - X)
      linarith
  have hmax2 : max ms X / 2 ^ 45 ≤ (X + |ms - X|) / 2 ^ 45 :=
    div_le_div_of_nonneg_right hmax (by positivity)
  generalize (ms - X) * p = t at e ht
  generalize |ms - X| = u at e2 ht hmax2
  generalize max ms X / 2 ^ 45 = m at e hmax2
  rw [abs_le] at e ht ⊢
  norm_num at e2 hmax2 ⊢
  constructor <;> linarith

theorem tenth_is_fixed (s : Subscription) (h : s.avgProcessTime = Seconds 100000000) :
    (s.addProcessingTime 100000000).avgProcessTime = Seconds 100000000 := by
  have hz : (Seconds 100000000).eq Float64.zero = false := by decide
  have hf : ((Seconds 100000000).mul oneMinusDecay).add ((Seconds 100000000).mul decay) =
      Seconds 100000000 := by decide
  simp only [Subscription.addProcessingTime, h, hz]
  simpa using hf

theorem tenth_stays (s0 : Subscription) (h0 : s0.avgProcessTime.eq Float64.zero = true)
    (n : Nat) :
    (Subscription.addProcessingTimes (List.replicate (n + 1) 100000000) s0).avgProcessTime =
      Seconds 100000000 := by
  induction n with
  | zero =>
    simp [Subscription.addProcessingTimes, Subscription.addProcessingTime, h0]
  | succ n ih =>
    rw [addProcessingTimes_replicate_succ]
    exact tenth_is_fixed _ ih

/-! ## The moving average -/

theorem toRat_shift (M t j : Nat) (h : t + j = 1074) :
    (Float64.finite false (M <<< t)).toRat = (M : ℚ) / 2 ^ j := by
  have hu : Float64.unit = 2 ^ t * 2 ^ j := by rw [unit_eq, ← Nat.pow_add, h]
  rw [toRat_finite, hu, Nat.shiftLeft_eq]
  push_cast
  have h1 : (0 : ℚ) < 2 ^ t := by positivity
  have h2 : (0 : ℚ) < 2 ^ j := by positivity
  field_simp
  ring

/-- Counterexample to C14 as stated: on a new Subscription (average 0) the
sample 0 sets the average to a nanosecond in seconds and not to the sample in
seconds, which is 0.  And on an average that is not 0 the stored value is not
the exact a * 0.95 + d * 0.05: after the sample 60 ms the average is
1080863910568919 * 2^-54 s, and the sample 110 ms then stores
9007199254740991 * 2^-57 s, which is less than that expression. -/
theorem zero_sample_is_floored :
    (newSubscription.addProcessingTime 0).avgProcessTime = Seconds 1 ∧
    Seconds 0 = Float64.zero ∧
    (newSubscription.addProcessingTime 0).avgProcessTime ≠ Seconds 0 ∧
    (newSubscription.addProcessingTime 60000000).avgProcessTime =
      Float64.finite false (1080863910568919 <<< 1020) ∧
    ((newSubscription.addProcessingTime 60000000).addProcessingTime 110000000).avgProcessTime =
      Float64.finite false (9007199254740991 <<< 1017) ∧
    (Float64.finite false (9007199254740991 <<< 1017)).toRat <
      (Float64.finite false (1080863910568919 <<< 1020)).toRat * (1 - 5 / 100) +
        (110000000 : ℚ) / 1000000000 * (5 / 100) := by
  refine ⟨by decide, by decide, by decide, by decide, by decide, ?_⟩
  rw [toRat_shift 9007199254740991 1017 57 rfl, toRat_shift 1080863910568919 1020 54 rfl]
  norm_num

/-- C14, as amended: for a sample `d` other than 0, `addProcessingTime d` sets
the average to `d.Seconds()` when the average is 0, and otherwise to the
`float64` value of average * (1 - 0.05) + d.Seconds() * 0.05, in which the two
products and the sum are each rounded to nearest; it changes no other field of
the Subscription.  For a positive `d` (a `time.Duration`, so below 2^63 ns):
the first sample sets the average to within 3 * 2^-53 * d of `d` in seconds;
and on a positive average `a` of at most 2^34 s the new average is finite and
differs from the exact a * 0.95 + d * 0.05 by at most 2^-50 * (a + d). -/
theorem addProcessingTime_ewma (s : Subscription) (d : Int) (hd : d ≠ 0) :
    s.addProcessingTime d =
      { s with avgProcessTime :=
          if s.avgProcessTime.eq Float64.zero then Seconds d
          else (s.avgProcessTime.mul oneMinusDecay).add ((Seconds d).mul decay) } ∧
    (0 < d → d < 9223372036854775808 →
      (s.avgProcessTime.eq Float64.zero = true →
        ∃ r, (s.addProcessingTime d).avgProcessTime = Float64.finite false r ∧
          |(s.addProcessingTime d).avgProcessTime.toRat - (d : ℚ) / 1000000000| ≤
            3 * ((d : ℚ) / 1000000000) / 2 ^ 53) ∧
      (∀ ka, s.avgProcessTime = Float64.finite false ka → 0 < ka →
        ka ≤ 17179869184 * Float64.unit →
        ∃ r, (s.addProcessingTime d).avgProcessTime = Float64.finite false r ∧
          |(s.addProcessingTime d).avgProcessTime.toRat -
              (s.avgProcessTime.toRat * (1 - 5 / 100) + (d : ℚ) / 1000000000 * (5 / 100))| ≤
            (s.avgProcessTime.toRat + (d : ℚ) / 1000000000) / 2 ^ 50)) := by
  constructor
  · by_cases h : s.avgProcessTime.eq Float64.zero = true <;>
      simp [Subscription.addProcessingTime, h, hd]
  · intro hd0 hd63
    obtain ⟨dn, hdn, hdn1, hdn2⟩ : ∃ dn : Nat, d = (dn : Int) ∧ 1 ≤ dn ∧ dn < 2 ^ 63 :=
      ⟨d.toNat, by omega, by omega, by omega⟩
    subst hdn
    have hdq : (((dn : Int)) : ℚ) = (dn : ℚ) := Int.cast_natCast dn
    have hUq := unit_pos_rat
    constructor
    · intro hz
      obtain ⟨ms, hms, _, _, ems⟩ := seconds_step dn hdn1 hdn2
      have hnew : (s.addProcessingTime (dn : Int)).avgProcessTime = Float64.finite false ms := by
        rw [addProcessingTime_of_zero s _ hd hz, hms]
      refine ⟨ms, hnew, ?_⟩
      rw [hnew, toRat_finite, hdq]
      have h2 := abs_div_unit _ _ ems
      rw [scale_diff _ _ _ hUq, scale_mul _ _ _ _ hUq (by norm_num)] at h2
      exact h2
    · intro ka hk hka0 hka
      obtain ⟨r, hr, _, _, er⟩ := addProcessingTime_err s dn ka hdn1 hdn2 hk hka0 hka
      refine ⟨r, hr, ?_⟩
      rw [hr, hk, hdq]
      have e : (Float64.finite false ka).toRat * (1 - 5 / 100) + (dn : ℚ) / 1000000000 * (5 / 100) =
          19 / 20 * (Float64.finite false ka).toRat + 1 / 20 * ((dn : ℚ) / 1000000000) := by
        ring
      rw [e]
      exact er

/-- Witness for C14, as amended: a first sample of 5 ns, and a sample of 5 ns
on an average of a second. -/
theorem addProcessingTime_ewma_witness :
    newSubscription.addProcessingTime 5 =
      { newSubscription with avgProcessTime :=
          if newSubscription.avgProcessTime.eq Float64.zero then Seconds 5
          else (newSubscription.avgProcessTime.mul oneMinusDecay).add ((Seconds 5).mul decay) } ∧
    slowSub.addProcessingTime 5 =
      { slowSub with avgProcessTime :=
          if slowSub.avgProcessTime.eq Float64.zero then Seconds 5
          else (slowSub.avgProcessTime.mul oneMinusDecay).add ((Seconds 5).mul decay) } :=
  ⟨(addProcessingTime_ewma newSubscription 5 (by decide)).1,
   (addProcessingTime_ewma slowSub 5 (by decide)).1⟩

/-- Counterexample to C16 as stated: on a new Subscription the sample 7 ms sets
the average to 7 ms in seconds, and a second sample of 7 ms moves it away from
that value, to 1008806316530991 * 2^-57 s, which is less: the average does not
equal the sample after every call, and it leaves the interval between the
starting average and the sample. -/
theorem constant_sample_is_not_kept :
    (Subscription.addProcessingTimes (List.replicate 1 7000000) newSubscription).avgProcessTime =
      Seconds 7000000 ∧
    Seconds 7000000 = Float64.finite false (8070450532247929 <<< 1014) ∧
    (Subscription.addProcessingTimes (List.replicate 2 7000000) newSubscription).avgProcessTime =
      Float64.finite false (1008806316530991 <<< 1017) ∧
    (Subscription.addProcessingTimes (List.replicate 2 7000000) newSubscription).avgProcessTime ≠
      Seconds 7000000 ∧
    (Float64.finite false (1008806316530991 <<< 1017)).lt (Seconds 7000000) = true := by
  decide

/-- C16, as amended: starting from a finite average `a` with 0 < a ≤ 2^34 s,
after `n` samples that all equal `d > 0` (a `time.Duration`, below 2^63 ns) the
average is a finite `float64` within 2^-45 * max(a, d) of
d + (a - d) * 0.95^n, so it lies between `a` and `d` up to that distance.
Starting from an average of 0 it is within 2^-44 * d of `d` after every sample.
With d = 0.1 s it equals `d.Seconds()` after every sample, and the next fetch
size is 20. -/
theorem constant_samples_approach (s s0 : Subscription) (d : Int) (ka n : Nat)
    (ha : s.avgProcessTime = Float64.finite false ka) (hka0 : 0 < ka)
    (hka : ka ≤ 17179869184 * Float64.unit)
    (hd : 0 < d) (hd63 : d < 9223372036854775808)
    (h0 : s0.avgProcessTime.eq Float64.zero = true) :
    (∃ r, (Subscription.addProcessingTimes (List.replicate n d) s).avgProcessTime =
        Float64.finite false r ∧
      |(Subscription.addProcessingTimes (List.replicate n d) s).avgProcessTime.toRat -
          ((d : ℚ) / 1000000000 +
            (s.avgProcessTime.toRat - (d : ℚ) / 1000000000) * (95 / 100) ^ n)| ≤
        max s.avgProcessTime.toRat ((d : ℚ) / 1000000000) / 2 ^ 45 ∧
      min s.avgProcessTime.toRat ((d : ℚ) / 1000000000) -
          max s.avgProcessTime.toRat ((d : ℚ) / 1000000000) / 2 ^ 45 ≤
        (Subscription.addProcessingTimes (List.replicate n d) s).avgProcessTime.toRat ∧
      (Subscription.addProcessingTimes (List.replicate n d) s).avgProcessTime.toRat ≤
        max s.avgProcessTime.toRat ((d : ℚ) / 1000000000) +
          max s.avgProcessTime.toRat ((d : ℚ) / 1000000000) / 2 ^ 45) ∧
    (∃ r, (Subscription.addProcessingTimes (List.replicate (n + 1) d) s0).avgProcessTime =
        Float64.finite false r ∧
      |(Subscription.addProcessingTimes (List.replicate (n + 1) d) s0).avgProcessTime.toRat -
          (d : ℚ) / 1000000000| ≤ (d : ℚ) / 1000000000 / 2 ^ 44) ∧
    (Subscription.addProcessingTimes (List.replicate (n + 1) 100000000) s0).avgProcessTime =
      Seconds 100000000 ∧
    Subscription.Receive.nMessages
      (Subscription.addProcessingTimes (List.replicate (n + 1) 100000000) s0).avgProcessTime
        = 20 := by
  obtain ⟨dn, hdn, hdn1, hdn2⟩ : ∃ dn : Nat, d = (dn : Int) ∧ 1 ≤ dn ∧ dn < 2 ^ 63 :=
    ⟨d.toNat, by omega, by omega, by omega⟩
  subst hdn
  have hdq : (((dn : Int)) : ℚ) = (dn : ℚ) := Int.cast_natCast dn
  have hUq := unit_pos_rat
  have e95 : ((95 : ℚ) / 100) = 19 / 20 := by norm_num
  have hd0 : ((dn : Int)) ≠ 0 := by omega
  rw [hdq, e95]
  refine ⟨?_, ?_, tenth_stays s0 h0 n, ?_⟩
  · obtain ⟨r, hr, _, _, er⟩ := constant_samples_err dn ka hdn1 hdn2 hka0 hka s ha n
    have h2 := abs_div_unit _ _ er
    rw [scale_closed _ _ _ _ _ hUq, scale_max _ _ _ _ hUq] at h2
    have herr : |(Subscription.addProcessingTimes (List.replicate n (dn : Int)) s).avgProcessTime.toRat -
          ((dn : ℚ) / 1000000000 +
            (s.avgProcessTime.toRat - (dn : ℚ) / 1000000000) * (19 / 20) ^ n)| ≤
        max s.avgProcessTime.toRat ((dn : ℚ) / 1000000000) / 2 ^ 45 := by
      rw [hr, ha, toRat_finite, toRat_finite]
      exact h2
    have hb := closed_form_bounds s.avgProcessTime.toRat ((dn : ℚ) / 1000000000) n
    have h3 := abs_le.mp herr
    exact ⟨r, hr, herr, by linarith [hb.1, h3.1], by linarith [hb.2, h3.2]⟩
  · -- the first sample seeds the average, the others keep it near the sample
    obtain ⟨ms, hms, hms1, hms2, ems⟩ := seconds_step dn hdn1 hdn2
    have hU := unit_pos
    have hseed : (s0.addProcessingTime (dn : Int)).avgProcessTime = Float64.finite false ms := by
      rw [addProcessingTime_of_zero s0 _ hd0 h0, hms]
    obtain ⟨r, hr, _, _, er⟩ := constant_samples_err dn ms hdn1 hdn2 (by omega) hms2
      (s0.addProcessingTime (dn : Int)) hseed n
    have hstep : Subscription.addProcessingTimes (List.replicate (n + 1) (dn : Int)) s0 =
        Subscription.addProcessingTimes (List.replicate n (dn : Int))
          (s0.addProcessingTime (dn : Int)) := by
      rw [List.replicate_succ]; rfl
    rw [hstep]
    refine ⟨r, hr, ?_⟩
    have hp0 : (0 : ℚ) ≤ (19 / 20) ^ n := pow_nonneg (by norm_num) n
    have hp1 : ((19 : ℚ) / 20) ^ n ≤ 1 := pow_le_one₀ (by norm_num) (by norm_num)
    have hX0 : (0 : ℚ) ≤ (dn : ℚ) / 1000000000 * (Float64.unit : ℚ) :=
      mul_nonneg (div_nonneg (Nat.cast_nonneg dn) (by norm_num)) hUq.le
    have h := fresh_aux (r : ℚ) (ms : ℚ) _ _ hp0 hp1 hX0 er ems
    have h2 := abs_div_unit _ _ h
    rw [scale_diff _ _ _ hUq, scale_div _ _ _ hUq] at h2
    rw [hr, toRat_finite]
    exact h2
  · rw [tenth_stays s0 h0 n]
    decide

/-- Witness for C16, as amended: an average of a second and two samples of
0.1 s; and a new Subscription fed samples of 0.1 s. -/
theorem constant_samples_approach_witness :
    (∃ r, (Subscription.addProcessingTimes (List.replicate 2 100000000) slowSub).avgProcessTime =
        Float64.finite false r ∧
      |(Subscription.addProcessingTimes (List.replicate 2 100000000) slowSub).avgProcessTime.toRat -
          ((100000000 : ℚ) / 1000000000 +
            (slowSub.avgProcessTime.toRat - (100000000 : ℚ) / 1000000000) * (95 / 100) ^ 2)| ≤
        max slowSub.avgProcessTime.toRat ((100000000 : ℚ) / 1000000000) / 2 ^ 45) ∧
    (Subscription.addProcessingTimes (List.replicate 3 100000000) newSubscription).avgProcessTime
      = Seconds 100000000 ∧
    Subscription.Receive.nMessages
      (Subscription.addProcessingTimes (List.replicate 3 100000000) newSubscription).avgProcessTime
        = 20 :=
  have h := constant_samples_approach slowSub newSubscription 100000000 Float64.unit 2
    (by decide) (by decide) (by decide) (by decide) (by decide) rfl
  ⟨h.1.imp fun _ hr => ⟨hr.1, by simpa using hr.2.1⟩, h.2.2.1, h.2.2.2⟩

/-! ## One fetch in flight -/

theorem ackClosure_run_waitc (ds : SubscriptionDriver) (now : Int) (m : Message)
    (s : Subscription) (c : AckClosure) : (c.run ds now m s).state.waitc = s.waitc := by
  have hw := (addProcessingTime_frame (now - m.processingStartTime) s).2.2.1
  cases c with
  | unset => rfl
  | queueAck id => simpa [AckClosure.run, Outcome.state] using hw
  | callAckFunc =>
    unfold AckClosure.run
    cases ds.AckFunc with
    | none => simpa [Outcome.state] using hw
    | some f =>
      simp only
      split <;> simpa [Outcome.state] using hw

theorem ack_waitc (ds : SubscriptionDriver) (now : Int) (m : Message) (s : Subscription) :
    (Message.Ack ds now m s).outcome.state.2.waitc = s.waitc := by
  have hr := ackClosure_run_waitc ds now m s m.ack
  unfold Message.Ack
  split
  · rfl
  · split
    · simpa [Outcome.state] using hr
    · rename_i heq _
      rw [heq] at hr
      simpa [Outcome.state] using hr
    · rename_i heq _
      rw [heq] at hr
      simpa [Outcome.state] using hr

theorem other_op_frame (ds : SubscriptionDriver) (op : SubscriptionOp) (σ σ1 : System)
    (h : (SystemOp.other op).apply ds σ = some σ1) :
    σ1.s.waitc = σ.s.waitc ∧ σ1.s.q = σ.s.q ∧ σ1.pcs = σ.pcs := by
  cases op with
  | receiveStep ctx env pc => simp [SystemOp.apply] at h
  | shutdown ctx flushed =>
    simp only [SystemOp.apply, SubscriptionOp.apply, Subscription.Shutdown, Option.map_map,
      Option.map_eq_some'] at h
    obtain ⟨a, ha, rfl⟩ := h
    split at ha
    · simp only [Option.some.injEq] at ha
      subst ha
      exact ⟨rfl, rfl, rfl⟩
    · simp at ha
  | ack now m =>
    simp only [SystemOp.apply, SubscriptionOp.apply, Option.map_some', Option.some.injEq] at h
    subst h
    exact ⟨ack_waitc ds now m σ.s, (ack_frame ds now m σ.s).2, rfl⟩
  | ackHandler ids r =>
    simp only [SystemOp.apply, SubscriptionOp.apply, Option.map_some', Option.some.injEq] at h
    subst h
    cases r <;> exact ⟨rfl, rfl, rfl⟩
  | addProcessingTime d =>
    simp only [SystemOp.apply, SubscriptionOp.apply, Option.map_some', Option.some.injEq] at h
    subst h
    have hf := addProcessingTime_frame d σ.s
    exact ⟨hf.2.2.1, hf.2.1, rfl⟩

theorem fetching_of_mem (σ : System) (i n : Nat) (h : σ.pcs[i]? = some (ReceivePC.fetching n)) :
    1 ≤ σ.fetching := by
  unfold System.fetching
  apply List.countP_pos_iff.mpr
  exact ⟨ReceivePC.fetching n, List.mem_iff_getElem?.mpr ⟨i, h⟩, rfl⟩

theorem system_step_inv (ds : SubscriptionDriver) (i : Nat) (ctx : Context) (env : ReceiveEnv)
    (σ σ1 : System) (h : (SystemOp.step i ctx env).apply ds σ = some σ1) (hinv : σ.inv) :
    σ1.inv ∧ (σ.errFree → σ1.errFree) := by
  simp only [SystemOp.apply] at h
  split at h
  · simp at h
  · rename_i pc hpc
    split at h
    · simp at h
    · rename_i pc1 s1 hstep
      simp only [Option.some.injEq] at h
      subst h
      have hcnt := countP_set_add ReceivePC.isFetching σ.pcs i pc pc1 hpc
      obtain ⟨hc, hq⟩ := hinv
      unfold System.fetching at hc
      cases pc with
      | top =>
        rcases receive_step_top ds ctx env σ.s s1 pc1 hstep with
          ⟨e, he, rfl, rfl⟩ | ⟨m, rest, he, hqe, rfl, rfl⟩ | ⟨c, he, hqe, hw, rfl, rfl⟩ |
          ⟨he, hqe, hw, rfl, rfl⟩
        · simp only [ReceivePC.isFetching, Bool.false_eq_true, if_false, Nat.add_zero] at hcnt
          exact ⟨⟨by unfold System.fetching; rw [hcnt, hc], hq⟩, id⟩
        · simp only [ReceivePC.isFetching, Bool.false_eq_true, if_false, Nat.add_zero] at hcnt
          refine ⟨⟨by unfold System.fetching; rw [hcnt, hc], ?_⟩, id⟩
          intro hw
          have := hq hw
          rw [hqe] at this
          cases this
        · simp only [ReceivePC.isFetching, Bool.false_eq_true, if_false, Nat.add_zero] at hcnt
          exact ⟨⟨by unfold System.fetching; rw [hcnt, hc], hq⟩, id⟩
        · simp only [ReceivePC.isFetching, Bool.false_eq_true, if_false, if_true,
            Nat.add_zero] at hcnt
          refine ⟨⟨?_, fun _ => hqe⟩, fun _ _ => he⟩
          unfold System.fetching
          simp only [Option.isSome_some, if_true]
          rw [hcnt, hc, hw]
          rfl
      | waiting c =>
        obtain ⟨rfl, hnf⟩ := receive_step_waiting ds ctx env c σ.s s1 pc1 hstep
        rw [hnf] at hcnt
        simp only [ReceivePC.isFetching, Bool.false_eq_true, if_false, Nat.add_zero] at hcnt
        exact ⟨⟨by unfold System.fetching; rw [hcnt, hc], hq⟩, id⟩
      | fetching n =>
        obtain ⟨hw1, hnf, _⟩ := receive_step_fetching ds ctx env n σ.s s1 pc1 hstep
        have h1 := fetching_of_mem σ i n hpc
        unfold System.fetching at h1
        rw [hnf] at hcnt
        simp only [ReceivePC.isFetching, Bool.false_eq_true, if_false, if_true,
          Nat.add_zero] at hcnt
        have hsome : σ.s.waitc.isSome = true := by
          by_contra hns
          rw [if_neg hns] at hc
          omega
        rw [if_pos hsome] at hc
        refine ⟨⟨?_, ?_⟩, ?_⟩
        · unfold System.fetching
          simp only [hw1, Option.isSome_none, Bool.false_eq_true, if_false]
          omega
        · intro hs; simp [hw1] at hs
        · intro _ hs; simp [hw1] at hs
      | returned m e => simp [Subscription.Receive.step] at hstep
      | panicked v => simp [Subscription.Receive.step] at hstep

theorem system_op_inv (ds : SubscriptionDriver) (op : SystemOp) (σ σ1 : System)
    (h : op.apply ds σ = some σ1) (hinv : σ.inv) :
    σ1.inv ∧ (op.isOther = false → σ.errFree → σ1.errFree) := by
  cases op with
  | call =>
    simp only [SystemOp.apply, Option.some.injEq] at h
    subst h
    refine ⟨⟨?_, hinv.2⟩, fun _ he => he⟩
    have := hinv.1
    unfold System.fetching at this ⊢
    simpa [List.countP_append, ReceivePC.isFetching] using this
  | step i ctx env =>
    have := system_step_inv ds i ctx env σ σ1 h hinv
    exact ⟨this.1, fun _ => this.2⟩
  | other op =>
    obtain ⟨hw, hq, hp⟩ := other_op_frame ds op σ σ1 h
    refine ⟨⟨?_, ?_⟩, fun hf => by simp [SystemOp.isOther] at hf⟩
    · have := hinv.1
      unfold System.fetching at this ⊢
      rw [hp, hw]; exact this
    · rw [hw, hq]; exact hinv.2

theorem system_run_inv (ds : SubscriptionDriver) :
    ∀ (ops : List SystemOp) (σ σ1 : System), System.run ds ops σ = some σ1 → σ.inv →
      σ1.inv ∧ ((∀ op ∈ ops, op.isOther = false) → σ.errFree → σ1.errFree) := by
  intro ops
  induction ops with
  | nil =>
    intro σ σ1 h hinv
    simp only [System.run, Option.some.injEq] at h
    subst h
    exact ⟨hinv, fun _ he => he⟩
  | cons op ops ih =>
    intro σ σ1 h hinv
    simp only [System.run] at h
    split at h
    · rename_i σ2 hop
      obtain ⟨hi2, he2⟩ := system_op_inv ds op σ σ2 hop hinv
      obtain ⟨hi1, he1⟩ := ih σ2 σ1 h hi2
      refine ⟨hi1, fun hall he => ?_⟩
      exact he1 (fun o ho => hall o (List.mem_cons_of_mem _ ho))
        (he2 (hall op (List.mem_cons_self _ _)) he)
    · simp at h

/-- C17: in every state that a Subscription with a nil `waitc` and no caller
reaches by an interleaving of `Receive` calls and other operations, at most one
`ReceiveBatch` call is outstanding, and one is outstanding exactly when `waitc`
is not nil.  No operation other than a step of `Receive` changes `waitc`.  For
every step a goroutine can take in such a state: it starts a fetch only from
the top of the loop with no permanent error, an empty queue, a nil `waitc` and
no fetch outstanding, and `waitc` is not nil after that step; a goroutine that
stands at the top while `waitc` is the channel `c` starts no fetch and leaves
the Subscription as it is, it waits on `c` (always so when the interleaving
consists of `Receive` calls only) or returns the permanent error stored
meanwhile; and a step that resets `waitc` to nil is a step of the goroutine
whose fetch is outstanding, after `getNextBatch` has returned. -/
theorem one_fetch_in_flight (ds : SubscriptionDriver) (ops : List SystemOp)
    (s0 : Subscription) (σ : System)
    (h0 : s0.waitc = none) (hrun : System.run ds ops ⟨s0, []⟩ = some σ) :
    σ.fetching ≤ 1 ∧ (σ.fetching = 1 ↔ σ.s.waitc.isSome = true) ∧
    (∀ (op : SubscriptionOp) (σ1 : System), (SystemOp.other op).apply ds σ = some σ1 →
      σ1.s.waitc = σ.s.waitc ∧ σ1.pcs = σ.pcs) ∧
    ∀ (i : Nat) (ctx : Context) (env : ReceiveEnv) (pc pc1 : ReceivePC) (s1 : Subscription),
      σ.pcs[i]? = some pc → Subscription.Receive.step ds ctx env pc σ.s = some (pc1, s1) →
      (pc1.isFetching = true →
        pc = ReceivePC.top ∧ σ.s.err = none ∧ σ.s.q = [] ∧ σ.s.waitc = none ∧
        σ.fetching = 0 ∧ s1.waitc.isSome = true) ∧
      (∀ c, σ.s.waitc = some c → pc = ReceivePC.top →
        pc1.isFetching = false ∧ s1 = σ.s ∧
        (pc1 = ReceivePC.waiting c ∨ ∃ e, σ.s.err = some e ∧ pc1 = ReceivePC.returned none (some e)) ∧
        ((∀ o ∈ ops, o.isOther = false) → pc1 = ReceivePC.waiting c)) ∧
      (σ.s.waitc.isSome = true → s1.waitc = none → pc.isFetching = true) := by
  have hinit : (System.mk s0 []).inv := by
    constructor
    · simp [System.fetching, h0]
    · intro h; simp [h0] at h
  have hef0 : (System.mk s0 []).errFree := by
    intro h; simp [h0] at h
  obtain ⟨⟨hc, hq⟩, hef⟩ := system_run_inv ds ops _ σ hrun hinit
  refine ⟨?_, ?_, ?_, ?_⟩
  · rw [hc]; split <;> omega
  · rw [hc]
    constructor
    · intro h
      by_contra hn
      rw [if_neg hn] at h
      omega
    · intro h; rw [if_pos h]
  · intro op σ1 hop
    have := other_op_frame ds op σ σ1 hop
    exact ⟨this.1, this.2.2⟩
  · intro i ctx env pc pc1 s1 hpc hstep
    refine ⟨?_, ?_, ?_⟩
    · intro hf
      cases pc with
      | top =>
        rcases receive_step_top ds ctx env σ.s s1 pc1 hstep with
          ⟨e, he, rfl, rfl⟩ | ⟨m, rest, he, hqe, rfl, rfl⟩ | ⟨c, he, hqe, hw, rfl, rfl⟩ |
          ⟨he, hqe, hw, rfl, rfl⟩
        · simp [ReceivePC.isFetching] at hf
        · simp [ReceivePC.isFetching] at hf
        · simp [ReceivePC.isFetching] at hf
        · refine ⟨rfl, he, hqe, hw, ?_, rfl⟩
          rw [hc, hw]; rfl
      | waiting c =>
        have := (receive_step_waiting ds ctx env c σ.s s1 pc1 hstep).2
        rw [this] at hf; cases hf
      | fetching n =>
        have := (receive_step_fetching ds ctx env n σ.s s1 pc1 hstep).2.1
        rw [this] at hf; cases hf
      | returned m e => simp [Subscription.Receive.step] at hstep
      | panicked v => simp [Subscription.Receive.step] at hstep
    · intro c hw hpctop
      subst hpctop
      rcases receive_step_top ds ctx env σ.s s1 pc1 hstep with
        ⟨e, he, rfl, rfl⟩ | ⟨m, rest, he, hqe, rfl, rfl⟩ | ⟨c1, he, hqe, hw1, rfl, rfl⟩ |
        ⟨he, hqe, hw1, rfl, rfl⟩
      · refine ⟨rfl, rfl, Or.inr ⟨e, he, rfl⟩, ?_⟩
        intro hall
        have := hef hall hef0 (by simp [hw])
        rw [he] at this; cases this
      · have := hq (by simp [hw])
        rw [hqe] at this; cases this
      · have hcc : c1 = c := by
          rw [hw] at hw1
          exact (Option.some.inj hw1).symm
        subst hcc
        exact ⟨rfl, rfl, Or.inl rfl, fun _ => rfl⟩
      · rw [hw] at hw1; cases hw1
    · intro hsome hnone
      cases pc with
      | top =>
        rcases receive_step_top ds ctx env σ.s s1 pc1 hstep with
          ⟨e, he, rfl, rfl⟩ | ⟨m, rest, he, hqe, rfl, rfl⟩ | ⟨c, he, hqe, hw, rfl, rfl⟩ |
          ⟨he, hqe, hw, rfl, rfl⟩
        · rw [hnone] at hsome; cases hsome
        · simp only at hnone
          rw [hnone] at hsome; cases hsome
        · rw [hnone] at hsome; cases hsome
        · rw [hw] at hsome; cases hsome
      | waiting c =>
        obtain ⟨rfl, _⟩ := receive_step_waiting ds ctx env c σ.s s1 pc1 hstep
        rw [hnone] at hsome; cases hsome
      | fetching n => rfl
      | returned m e => simp [Subscription.Receive.step] at hstep
      | panicked v => simp [Subscription.Receive.step] at hstep

/-- Witness for C17: two goroutines call `Receive` on a new Subscription; the
first becomes the fetch owner, and the step of the second leads it to wait on
the channel 0. -/
theorem one_fetch_in_flight_witness :
    System.run queueDriver
        [SystemOp.call, SystemOp.call, SystemOp.step 0 Context.Background env0]
        ⟨newSubscription, []⟩ = some twoCallers ∧
    twoCallers.fetching ≤ 1 ∧
    Subscription.Receive.step queueDriver Context.Background env0 ReceivePC.top twoCallers.s =
      some (ReceivePC.waiting 0, twoCallers.s) ∧
    (ReceivePC.waiting 0).isFetching = false :=
  have h := one_fetch_in_flight queueDriver
    [SystemOp.call, SystemOp.call, SystemOp.step 0 Context.Background env0]
    newSubscription twoCallers rfl (by decide)
  ⟨by decide, h.1, by decide,
   ((h.2.2.2 1 Context.Background env0 ReceivePC.top (ReceivePC.waiting 0) twoCallers.s
      (by decide) (by decide)).2.1 0 rfl rfl).1⟩

/-! ## Ack closures, wrapped errors, the send handler -/

/-- C18: `getNextBatch` turns the driver messages into Messages one by one,
in order.  The `ack` closure of the Message built from `dm`, run at time `now`
after `Receive` stamped the message at `t0`, first records the one sample
`now - t0` in the moving average; then, when the driver's `AckFunc` is nil, it
appends the AckID of `dm`, once, to the items of the ack batcher and returns;
and when it is not nil, it calls that function once and leaves the ack batcher
as it was. -/
theorem ack_closure_of_built (ds : SubscriptionDriver) (msgs : List DriverMessage)
    (dm : DriverMessage) (t0 now : Int) (s : Subscription) :
    (Subscription.getNextBatch ds (msgs, none)).1 = msgs.map (Subscription.getNextBatch.m2 ds) ∧
    (Subscription.getNextBatch.m2 ds dm).ack =
      (match ds.AckFunc with
       | none => AckClosure.queueAck dm.AckID
       | some _ => AckClosure.callAckFunc) ∧
    (AckClosure.run ds now { Subscription.getNextBatch.m2 ds dm with processingStartTime := t0 } s
        (Subscription.getNextBatch.m2 ds dm).ack).state =
      (match ds.AckFunc with
       | none =>
         { s.addProcessingTime (now - t0) with
             ackBatcher :=
               { (s.addProcessingTime (now - t0)).ackBatcher with
                   items := s.ackBatcher.items ++ [dm.AckID] } }
       | some _ => { s.addProcessingTime (now - t0) with ackFuncCalls := s.ackFuncCalls + 1 }) ∧
    (AckClosure.run ds now { Subscription.getNextBatch.m2 ds dm with processingStartTime := t0 } s
        (Subscription.getNextBatch.m2 ds dm).ack).isReturned =
      (match ds.AckFunc with
       | none => true
       | some f => (f s.ackFuncCalls).isNone) ∧
    (s.addProcessingTime (now - t0)).ackBatcher = s.ackBatcher ∧
    (s.addProcessingTime (now - t0)).ackFuncCalls = s.ackFuncCalls := by
  have hfr := addProcessingTime_frame (now - t0) s
  refine ⟨rfl, ?_, ?_, ?_, hfr.2.2.2.2.1, hfr.2.2.2.1⟩
  · cases hA : ds.AckFunc <;> simp [Subscription.getNextBatch.m2, hA]
  · cases hA : ds.AckFunc with
    | none =>
      simp [Subscription.getNextBatch.m2, hA, AckClosure.run, Batcher.AddNoWait, hfr.2.2.2.2.1,
        Outcome.state]
    | some f =>
      simp only [Subscription.getNextBatch.m2, hA, AckClosure.run, Option.isNone_some,
        Bool.false_eq_true, if_false, hfr.2.2.2.1]
      cases f s.ackFuncCalls <;> rfl
  · cases hA : ds.AckFunc with
    | none => simp [Subscription.getNextBatch.m2, hA, AckClosure.run, Outcome.isReturned]
    | some f =>
      simp only [Subscription.getNextBatch.m2, hA, AckClosure.run, Option.isNone_some,
        Bool.false_eq_true, if_false, hfr.2.2.2.1]
      cases f s.ackFuncCalls <;> rfl

/-- C19: `wrapError ec err` is `err` itself when `DoNotWrap err` holds, as it
does for a context cancellation, and otherwise the canonical error with code
`ec err` and cause `err`.  The send batch handler, the ack batch handler and
`getNextBatch` return nil when the driver call succeeds and `wrapError` of the
driver error when it fails. -/
theorem wrapError_cases (ec : GoError → ErrorCode) (dsd : SubscriptionDriver) (err : GoError)
    (ms : List Message) (ids : List AckID) (t : Topic) (s : Subscription)
    (msgs : List DriverMessage) :
    wrapError ec err = (if DoNotWrap err then err else GoError.gcerrNew (ec err) err "pubsub") ∧
    DoNotWrap GoError.ctxCanceled = true ∧
    wrapError ec GoError.ctxCanceled = GoError.ctxCanceled ∧
    wrapError ec (GoError.provider 1) =
      GoError.gcerrNew (ec (GoError.provider 1)) (GoError.provider 1) "pubsub" ∧
    (defaultBatcher.handler ec ms (some err) t).1 = some (wrapError ec err) ∧
    (defaultBatcher.handler ec ms none t).1 = none ∧
    (defaultAckBatcher.handler dsd ids (some err) s).1 = some (wrapError dsd.ErrorCode err) ∧
    (defaultAckBatcher.handler dsd ids none s).1 = none ∧
    (Subscription.getNextBatch dsd (msgs, some err)).2 = some (wrapError dsd.ErrorCode err) ∧
    (Subscription.getNextBatch dsd (msgs, none)).2 = none := by
  refine ⟨rfl, rfl, rfl, rfl, rfl, rfl, rfl, rfl, rfl, rfl⟩

/-- C20: one run of the send batch handler on the batch `ms` hands the driver
one list, which has for every Message of `ms`, in the same order, a driver
message with that Message's Body and Metadata, a nil AckID and a nil AsFunc;
the handler returns nil when the driver call succeeds, and it changes nothing
else of the Topic. -/
theorem sendBatch_gets_body_and_metadata (ec : GoError → ErrorCode) (ms : List Message)
    (r : Option GoError) (t : Topic) :
    (defaultBatcher.handler ec ms r t).2 =
      { t with sent := t.sent ++ [ms.map fun m => ⟨m.Body, m.Metadata, none, none⟩] } ∧
    (ms.map fun m => (⟨m.Body, m.Metadata, none, none⟩ : DriverMessage)).length = ms.length ∧
    (∀ i : Nat, (ms.map fun m => (⟨m.Body, m.Metadata, none, none⟩ : DriverMessage))[i]? =
      (ms[i]?).map fun m => ⟨m.Body, m.Metadata, none, none⟩) ∧
    (defaultBatcher.handler ec ms none t).1 = none := by
  refine ⟨?_, by simp, ?_, rfl⟩
  · unfold defaultBatcher.handler
    cases r <;> rfl
  · intro i
    simp [List.getElem?_map]

/-! ## Receive with a canceled context, failed fetches -/

/-- Counterexample to C21 as stated: with a canceled context, `Receive` on a
closed Subscription returns the closed error and not `context.Canceled`, and
`Receive` on a Subscription with a message in its queue returns that message
and removes it from the queue.  And with a fetch in flight: the caller with the
canceled context reaches the `select`, the fetch owner closes the channel and
queues the message it fetched, the `select` takes the case of the channel, and
the caller returns that message. -/
theorem canceled_receive_returns_error_or_message :
    Subscription.Receive queueDriver Context.canceled [env0] closedSubscription =
      some (ReceivePC.returned none (some subscriptionClosed), closedSubscription) ∧
    subscriptionClosed ≠ GoError.ctxCanceled ∧
    Subscription.Receive queueDriver Context.canceled [env0]
        { newSubscription with q := [recvMsg] } =
      some (ReceivePC.returned (some recvMsg) none, newSubscription) ∧
    ({ newSubscription with q := [recvMsg] } : Subscription).q ≠ newSubscription.q ∧
    System.run queueDriver
        [SystemOp.step 1 Context.canceled env0, SystemOp.step 0 Context.Background env0,
         SystemOp.step 1 Context.canceled env0, SystemOp.step 1 Context.canceled env0]
        twoCallers =
      some ⟨recvSub,
        [ReceivePC.top,
         ReceivePC.returned
           (some { Subscription.getNextBatch.m2 queueDriver dm0 with processingStartTime := 100 })
           none]⟩ := by
  decide

/-- C21, as amended: let the context be done with the cancellation error `e`,
and let the Subscription have no permanent error and an empty queue when
`Receive` looks at it.  If a fetch is in flight, `Receive` copies its channel
and goes to the `select`, and there, whatever the Subscription `sW` has become
meanwhile: if the channel is still open, or the `select` picks the case of the
context, `Receive` returns `e` and has changed nothing; if the fetch owner has
closed the channel and the `select` picks that case, `Receive` is back at the
top of the loop.  If no fetch is in flight, `Receive` becomes the fetch owner,
and when the driver call fails with `e`, whatever the Subscription `sF` has
become meanwhile, it returns `e` unwrapped, having closed the channel of its
fetch and set `waitc` to nil; the queue, the moving average and the
permanent-error slot are as it found them. -/
theorem receive_canceled_ctx (ds : SubscriptionDriver) (ctx : Context) (e : GoError)
    (s sW sF : Subscription) (env1 env2 : ReceiveEnv) (cF n : Nat)
    (hctx : ctx.Err = some e) (herr : s.err = none) (hq : s.q = [])
    (hF : sF.waitc = some cF) (hfail : env2.batch.2 = some e) (hd : DoNotWrap e = true) :
    (match s.waitc with
     | some c =>
       Subscription.Receive.step ds ctx env1 ReceivePC.top s = some (ReceivePC.waiting c, s) ∧
       Subscription.Receive.step ds ctx env2 (ReceivePC.waiting c) sW =
         some (if sW.closedChans.contains c && !env2.pickCtx then ReceivePC.top
               else ReceivePC.returned none (some e), sW)
     | none =>
       Subscription.Receive.step ds ctx env1 ReceivePC.top s =
         some (ReceivePC.fetching (Subscription.Receive.nMessages s.avgProcessTime),
               { s with waitc := some s.chansMade, chansMade := s.chansMade + 1 })) ∧
    Subscription.Receive.step ds ctx env2 (ReceivePC.fetching n) sF =
      some (ReceivePC.returned none (some e),
            { sF with closedChans := cF :: sF.closedChans, waitc := none }) ∧
    ({ sF with closedChans := cF :: sF.closedChans, waitc := none } : Subscription).q = sF.q ∧
    ({ sF with closedChans := cF :: sF.closedChans, waitc := none } : Subscription).avgProcessTime =
      sF.avgProcessTime ∧
    ({ sF with closedChans := cF :: sF.closedChans, waitc := none } : Subscription).err =
      sF.err := by
  refine ⟨?_, ?_, rfl, rfl, rfl⟩
  · cases hw : s.waitc with
    | some c =>
      refine ⟨by simp [Subscription.Receive.step, herr, hq, hw], ?_⟩
      have hdone : ctx.Done = true := by simp [Context.Done, hctx]
      cases hcc : sW.closedChans.contains c <;> cases hp : env2.pickCtx <;>
        simp only [Subscription.Receive.step, hcc, hp, hdone, hctx, Bool.not_true, Bool.not_false,
          Bool.or_false, Bool.or_true, Bool.and_true, Bool.and_false, Bool.false_and,
          Bool.true_and, Bool.false_eq_true, if_false, if_true]
    | none =>
      simp [Subscription.Receive.step, herr, hq, hw]
  · simp only [Subscription.Receive.step, Subscription.getNextBatch, hfail, hF, wrapError, hd,
      if_true]

/-- Witness for C21, as amended: a fetch in flight whose channel is still open
at the `select`; the same with the channel closed by then and a `select` that
picks it; and no fetch in flight with a driver call that fails with
`context.Canceled`. -/
theorem receive_canceled_ctx_witness :
    Subscription.Receive.step queueDriver Context.canceled env0 ReceivePC.top fetchingSub =
      some (ReceivePC.waiting 0, fetchingSub) ∧
    Subscription.Receive.step queueDriver Context.canceled envCanceled (ReceivePC.waiting 0)
        fetchingSub = some (ReceivePC.returned none (some GoError.ctxCanceled), fetchingSub) ∧
    Subscription.Receive.step queueDriver Context.canceled envCanceled (ReceivePC.waiting 0)
        recvSub = some (ReceivePC.top, recvSub) ∧
    Subscription.Receive.step queueDriver Context.canceled env0 ReceivePC.top newSubscription =
      some (ReceivePC.fetching 1, fetchingSub) ∧
    Subscription.Receive.step queueDriver Context.canceled envCanceled (ReceivePC.fetching 1)
        fetchingSub =
      some (ReceivePC.returned none (some GoError.ctxCanceled), recvSub) :=
  have h1 := receive_canceled_ctx queueDriver Context.canceled GoError.ctxCanceled fetchingSub
    fetchingSub fetchingSub env0 envCanceled 0 1 rfl rfl rfl rfl rfl rfl
  have h2 := receive_canceled_ctx queueDriver Context.canceled GoError.ctxCanceled fetchingSub
    recvSub fetchingSub env0 envCanceled 0 1 rfl rfl rfl rfl rfl rfl
  have h3 := receive_canceled_ctx queueDriver Context.canceled GoError.ctxCanceled
    newSubscription fetchingSub fetchingSub env0 envCanceled 0 1 rfl rfl rfl rfl rfl rfl
  ⟨h1.1.1, h1.1.2, h2.1.2, h3.1, h1.2.1⟩

/-- C29: let the Subscription have no permanent error, an empty queue and no
fetch in flight, and let the driver call of the fetch fail with `e`.  Then
`Receive` returns a nil message and `wrapError` of `e`; afterwards `waitc` is
nil, the channel of the fetch is closed, and the queue and the permanent-error
slot are as before the fetch.  A later `Receive` starts a fetch of its own, and
a goroutine that waited on the channel goes back to the top of the loop.  The
step that ends a failed fetch changes nothing but `waitc` and the closed
channels, whatever the Subscription has become meanwhile. -/
theorem failed_fetch_releases_ownership (ds : SubscriptionDriver) (ctx ctx2 : Context)
    (env1 env2 env3 : ReceiveEnv) (envs : List ReceiveEnv) (s sF : Subscription) (e : GoError)
    (n c : Nat)
    (herr : s.err = none) (hq : s.q = []) (hw : s.waitc = none)
    (hfail : env2.batch.2 = some e) (hF : sF.waitc = some c) :
    Subscription.Receive ds ctx (env1 :: env2 :: envs) s =
      some (ReceivePC.returned none (some (wrapError ds.ErrorCode e)),
            { s with chansMade := s.chansMade + 1,
                     closedChans := s.chansMade :: s.closedChans }) ∧
    Subscription.Receive.step ds ctx2 env3 ReceivePC.top
        { s with chansMade := s.chansMade + 1, closedChans := s.chansMade :: s.closedChans } =
      some (ReceivePC.fetching (Subscription.Receive.nMessages s.avgProcessTime),
            { s with waitc := some (s.chansMade + 1), chansMade := s.chansMade + 1 + 1,
                     closedChans := s.chansMade :: s.closedChans }) ∧
    Subscription.Receive.step ds ctx2 { env3 with pickCtx := false }
        (ReceivePC.waiting s.chansMade)
        { s with chansMade := s.chansMade + 1, closedChans := s.chansMade :: s.closedChans } =
      some (ReceivePC.top,
            { s with chansMade := s.chansMade + 1,
                     closedChans := s.chansMade :: s.closedChans }) ∧
    Subscription.Receive.step ds ctx env2 (ReceivePC.fetching n) sF =
      some (ReceivePC.returned none (some (wrapError ds.ErrorCode e)),
            { sF with closedChans := c :: sF.closedChans, waitc := none }) := by
  refine ⟨?_, ?_, ?_, ?_⟩
  · simp only [Subscription.Receive, Subscription.Receive.run, Subscription.Receive.step, herr,
      hq, hw, Subscription.getNextBatch, hfail]
  · simp [Subscription.Receive.step, herr, hq, hw]
  · simp [Subscription.Receive.step]
  · simp [Subscription.Receive.step, Subscription.getNextBatch, hfail, hF]

/-- Witness for C29: a new Subscription whose first fetch fails with the
provider error 1. -/
theorem failed_fetch_releases_ownership_witness :
    Subscription.Receive queueDriver Context.Background [env0, envFailed] newSubscription =
      some (ReceivePC.returned none (some ackFailure),
            { newSubscription with chansMade := 1, closedChans := [0] }) ∧
    Subscription.Receive.step queueDriver Context.Background env0 ReceivePC.top
        { newSubscription with chansMade := 1, closedChans := [0] } =
      some (ReceivePC.fetching 1,
            { newSubscription with waitc := some 1, chansMade := 2, closedChans := [0] }) :=
  ⟨(failed_fetch_releases_ownership queueDriver Context.Background Context.Background
      env0 envFailed env0 [] newSubscription fetchingSub (GoError.provider 1) 1 0
      rfl rfl rfl rfl rfl).1, by decide⟩

/-! ## The URL multiplexer -/

theorem schemeMap_lookup_append_old {α : Type} (sm : SchemeMap α) (l : List (String × α))
    (k : String) (x : α) (h : sm.lookup k = some x) :
    (SchemeMap.mk (sm.m ++ l)).lookup k = some x := by
  unfold SchemeMap.lookup at h ⊢
  simp only [List.find?_append]
  cases hf : sm.m.find? fun kv => decide (kv.1 = k) with
  | none => rw [hf] at h; simp at h
  | some y => rw [hf] at h; simpa using h

theorem schemeMap_lookup_append_new {α : Type} (sm : SchemeMap α) (k : String) (x : α)
    (h : sm.lookup k = none) : (SchemeMap.mk (sm.m ++ [(k, x)])).lookup k = some x := by
  unfold SchemeMap.lookup at h ⊢
  simp only [List.find?_append]
  cases hf : sm.m.find? fun kv => decide (kv.1 = k) with
  | none => simp
  | some y => rw [hf] at h; simp at h

theorem schemeMap_register_keeps {α : Type} (api typ scheme : String) (v : α)
    (sm : SchemeMap α) (k : String) (x : α) (h : sm.lookup k = some x) :
    (sm.Register api typ scheme v).state.lookup k = some x := by
  unfold SchemeMap.Register
  cases hs : sm.lookup scheme with
  | some y => simpa [Outcome.state] using h
  | none => simpa [Outcome.state] using schemeMap_lookup_append_old sm _ k x h

theorem schemeMap_register_new {α : Type} (api typ scheme : String) (v : α)
    (sm : SchemeMap α) (h : sm.lookup scheme = none) :
    sm.Register api typ scheme v = Outcome.returned ⟨sm.m ++ [(scheme, v)]⟩ ∧
    (sm.Register api typ scheme v).state.lookup scheme = some v := by
  unfold SchemeMap.Register
  rw [h]
  exact ⟨rfl, schemeMap_lookup_append_new sm scheme v h⟩

theorem muxOp_apply_keeps (op : MuxOp) (mux : URLMux) :
    (∀ k x, mux.topicSchemes.lookup k = some x → (op.apply mux).topicSchemes.lookup k = some x) ∧
    (∀ k x, mux.subscriptionSchemes.lookup k = some x →
      (op.apply mux).subscriptionSchemes.lookup k = some x) := by
  cases op with
  | registerTopic scheme opener =>
    constructor
    · intro k x h
      have := schemeMap_register_keeps "pubsub" "Topic" scheme opener mux.topicSchemes k x h
      simp only [MuxOp.apply, URLMux.RegisterTopic]
      cases hr : mux.topicSchemes.Register "pubsub" "Topic" scheme opener <;>
        (rw [hr] at this; simpa [Outcome.state] using this)
    · intro k x h
      simp only [MuxOp.apply, URLMux.RegisterTopic]
      cases hr : mux.topicSchemes.Register "pubsub" "Topic" scheme opener <;>
        simpa [Outcome.state] using h
  | registerSubscription scheme opener =>
    constructor
    · intro k x h
      simp only [MuxOp.apply, URLMux.RegisterSubscription]
      cases hr : mux.subscriptionSchemes.Register "pubsub" "Subscription" scheme opener <;>
        simpa [Outcome.state] using h
    · intro k x h
      have := schemeMap_register_keeps "pubsub" "Subscription" scheme opener
        mux.subscriptionSchemes k x h
      simp only [MuxOp.apply, URLMux.RegisterSubscription]
      cases hr : mux.subscriptionSchemes.Register "pubsub" "Subscription" scheme opener <;>
        (rw [hr] at this; simpa [Outcome.state] using this)

theorem urlMux_run_keeps :
    ∀ (ops : List MuxOp) (mux : URLMux),
      (∀ k x, mux.topicSchemes.lookup k = some x →
        (URLMux.run ops mux).topicSchemes.lookup k = some x) ∧
      (∀ k x, mux.subscriptionSchemes.lookup k = some x →
        (URLMux.run ops mux).subscriptionSchemes.lookup k = some x) := by
  intro ops
  induction ops with
  | nil => intro mux; exact ⟨fun _ _ h => h, fun _ _ h => h⟩
  | cons op ops ih =>
    intro mux
    have h1 := muxOp_apply_keeps op mux
    have h2 := ih (op.apply mux)
    exact ⟨fun k x h => h2.1 k x (h1.1 k x h), fun k x h => h2.2 k x (h1.2 k x h)⟩

/-- C22: let the URL string parse to `u`.  If no topic opener is registered
for the scheme of `u`, and so on the zero value of `URLMux`, `OpenTopic`
returns a nil Topic and the no-provider-registered error of the lookup and
calls no opener; if one is registered, `OpenTopic` calls it, once, and returns
exactly its two results.  `OpenSubscription` does the same with the
subscription openers. -/
theorem open_dispatches_by_scheme (parse : String → Except GoError URL) (mux : URLMux)
    (ctx : Context) (urlstr : String) (u : URL) (hparse : parse urlstr = .ok u) :
    mux.OpenTopic parse ctx urlstr =
      (match mux.topicSchemes.lookup u.Scheme with
       | none => ⟨none, some (noProviderRegistered "Topic" u.Scheme), []⟩
       | some opener => ⟨(opener ctx u).1, (opener ctx u).2, [u.Scheme]⟩) ∧
    mux.OpenSubscription parse ctx urlstr =
      (match mux.subscriptionSchemes.lookup u.Scheme with
       | none => ⟨none, some (noProviderRegistered "Subscription" u.Scheme), []⟩
       | some opener => ⟨(opener ctx u).1, (opener ctx u).2, [u.Scheme]⟩) ∧
    URLMux.zero.OpenTopic parse ctx urlstr =
      ⟨none, some (noProviderRegistered "Topic" u.Scheme), []⟩ ∧
    URLMux.zero.OpenSubscription parse ctx urlstr =
      ⟨none, some (noProviderRegistered "Subscription" u.Scheme), []⟩ := by
  refine ⟨?_, ?_, ?_, ?_⟩
  · simp only [URLMux.OpenTopic, SchemeMap.FromString, hparse, SchemeMap.FromURL]
    cases mux.topicSchemes.lookup u.Scheme <;> rfl
  · simp only [URLMux.OpenSubscription, SchemeMap.FromString, hparse, SchemeMap.FromURL]
    cases mux.subscriptionSchemes.lookup u.Scheme <;> rfl
  · simp [URLMux.OpenTopic, SchemeMap.FromString, hparse, SchemeMap.FromURL, URLMux.zero,
      SchemeMap.lookup]
  · simp [URLMux.OpenSubscription, SchemeMap.FromString, hparse, SchemeMap.FromURL,
      URLMux.zero, SchemeMap.lookup]

/-- Witness for C22: "azuresb://mytopic" on the zero multiplexer and on the
multiplexer on which `azurepubsub` is registered. -/
theorem open_dispatches_by_scheme_witness :
    URLMux.zero.OpenTopic parseMyTopic Context.Background "azuresb://mytopic" =
      ⟨none, some (noProviderRegistered "Topic" "azuresb"), []⟩ ∧
    azureMux.OpenTopic parseMyTopic Context.Background "azuresb://mytopic" =
      ⟨some newTopic, none, ["azuresb"]⟩ :=
  have hp : parseMyTopic "azuresb://mytopic" = .ok urlMyTopic := by simp [parseMyTopic]
  ⟨(open_dispatches_by_scheme parseMyTopic azureMux Context.Background "azuresb://mytopic"
      urlMyTopic hp).2.2.1,
   (open_dispatches_by_scheme parseMyTopic azureMux Context.Background "azuresb://mytopic"
      urlMyTopic hp).1⟩

/-- C23: `RegisterTopic` returns exactly when no topic opener is registered for
the scheme and panics otherwise, and leaves the subscription openers alone;
`RegisterSubscription` likewise with the two kinds exchanged.  So the `init` of
`azurepubsub` returns exactly when "azuresb" is registered for neither kind, as
on the zero multiplexer.  After a registration that returned, the scheme stays
registered with that opener through every later sequence of registrations. -/
theorem register_once_per_scheme (mux mux1 mux2 : URLMux) (scheme scheme1 scheme2 : String)
    (ot ot1 : TopicURLOpener) (os os2 : SubscriptionURLOpener) (ops : List MuxOp)
    (h1 : mux1.topicSchemes.lookup scheme1 = none)
    (h2 : mux2.subscriptionSchemes.lookup scheme2 = none) :
    (mux.RegisterTopic scheme ot).isReturned = (mux.topicSchemes.lookup scheme).isNone ∧
    (mux.RegisterSubscription scheme os).isReturned =
      (mux.subscriptionSchemes.lookup scheme).isNone ∧
    (mux.RegisterTopic scheme ot).state.subscriptionSchemes = mux.subscriptionSchemes ∧
    (mux.RegisterSubscription scheme os).state.topicSchemes = mux.topicSchemes ∧
    (azurepubsub.init ot os mux).isReturned =
      ((mux.topicSchemes.lookup azurepubsub.Scheme).isNone &&
       (mux.subscriptionSchemes.lookup azurepubsub.Scheme).isNone) ∧
    (azurepubsub.init ot os URLMux.zero).isReturned = true ∧
    (mux1.RegisterTopic scheme1 ot1).isReturned = true ∧
    (URLMux.run ops (mux1.RegisterTopic scheme1 ot1).state).topicSchemes.lookup scheme1 =
      some ot1 ∧
    (mux2.RegisterSubscription scheme2 os2).isReturned = true ∧
    (URLMux.run ops (mux2.RegisterSubscription scheme2 os2).state).subscriptionSchemes.lookup
      scheme2 = some os2 := by
  have hT : ∀ (m : URLMux) (sc : String) (o : TopicURLOpener),
      (m.RegisterTopic sc o).isReturned = (m.topicSchemes.lookup sc).isNone ∧
      (m.RegisterTopic sc o).state.subscriptionSchemes = m.subscriptionSchemes := by
    intro m sc o
    simp only [URLMux.RegisterTopic, SchemeMap.Register]
    cases m.topicSchemes.lookup sc <;> exact ⟨rfl, rfl⟩
  have hS : ∀ (m : URLMux) (sc : String) (o : SubscriptionURLOpener),
      (m.RegisterSubscription sc o).isReturned = (m.subscriptionSchemes.lookup sc).isNone ∧
      (m.RegisterSubscription sc o).state.topicSchemes = m.topicSchemes := by
    intro m sc o
    simp only [URLMux.RegisterSubscription, SchemeMap.Register]
    cases m.subscriptionSchemes.lookup sc <;> exact ⟨rfl, rfl⟩
  have hinit : ∀ m : URLMux, (azurepubsub.init ot os m).isReturned =
      ((m.topicSchemes.lookup azurepubsub.Scheme).isNone &&
       (m.subscriptionSchemes.lookup azurepubsub.Scheme).isNone) := by
    intro m
    have ht := hT m azurepubsub.Scheme ot
    unfold azurepubsub.init
    cases hr : m.RegisterTopic azurepubsub.Scheme ot with
    | panicked m1 v =>
      rw [hr] at ht
      simp only [Outcome.isReturned] at ht
      simp [Outcome.isReturned, ← ht.1]
    | returned m1 =>
      rw [hr] at ht
      simp only [Outcome.isReturned, Outcome.state] at ht
      simp only
      rw [(hS m1 azurepubsub.Scheme os).1, ht.2, ← ht.1]
      simp
  have hreg1 : (mux1.RegisterTopic scheme1 ot1).state.topicSchemes.lookup scheme1 = some ot1 := by
    have := (schemeMap_register_new "pubsub" "Topic" scheme1 ot1 mux1.topicSchemes h1).2
    simp only [URLMux.RegisterTopic]
    cases hr : mux1.topicSchemes.Register "pubsub" "Topic" scheme1 ot1 <;>
      (rw [hr] at this; simpa [Outcome.state] using this)
  have hreg2 : (mux2.RegisterSubscription scheme2 os2).state.subscriptionSchemes.lookup scheme2 =
      some os2 := by
    have := (schemeMap_register_new "pubsub" "Subscription" scheme2 os2
      mux2.subscriptionSchemes h2).2
    simp only [URLMux.RegisterSubscription]
    cases hr : mux2.subscriptionSchemes.Register "pubsub" "Subscription" scheme2 os2 <;>
      (rw [hr] at this; simpa [Outcome.state] using this)
  refine ⟨(hT mux scheme ot).1, (hS mux scheme os).1, (hT mux scheme ot).2,
    (hS mux scheme os).2, hinit mux, ?_, ?_, ?_, ?_, ?_⟩
  · rw [hinit]; rfl
  · rw [(hT mux1 scheme1 ot1).1, h1]; rfl
  · exact (urlMux_run_keeps ops _).1 scheme1 ot1 hreg1
  · rw [(hS mux2 scheme2 os2).1, h2]; rfl
  · exact (urlMux_run_keeps ops _).2 scheme2 os2 hreg2

/-- Witness for C23: on the zero multiplexer "azuresb" is registered as a topic
scheme; a second topic registration of it panics, a subscription registration
of it returns, and the first opener stays registered. -/
theorem register_once_per_scheme_witness :
    (URLMux.zero.RegisterTopic "azuresb" azureTopicOpener).isReturned = true ∧
    ((URLMux.zero.RegisterTopic "azuresb" azureTopicOpener).state.RegisterTopic "azuresb"
      azureTopicOpener).isReturned = false ∧
    (azurepubsub.init azureTopicOpener azureSubscriptionOpener URLMux.zero).isReturned = true ∧
    (URLMux.run [MuxOp.registerTopic "azuresb" azureTopicOpener,
                 MuxOp.registerSubscription "azuresb" azureSubscriptionOpener]
        (URLMux.zero.RegisterTopic "azuresb" azureTopicOpener).state).topicSchemes.lookup
      "azuresb" = some azureTopicOpener :=
  have h := register_once_per_scheme
    (URLMux.zero.RegisterTopic "azuresb" azureTopicOpener).state URLMux.zero URLMux.zero
    "azuresb" "azuresb" "azuresb" azureTopicOpener azureTopicOpener azureSubscriptionOpener
    azureSubscriptionOpener
    [MuxOp.registerTopic "azuresb" azureTopicOpener,
     MuxOp.registerSubscription "azuresb" azureSubscriptionOpener] rfl rfl
  ⟨h.2.2.2.2.2.2.1, by rw [h.1]; rfl, h.2.2.2.2.2.1, h.2.2.2.2.2.2.2.1⟩

/-! ## Retry -/

theorem retry_not_retryable (ctx : Context) (isRetryable : GoError → Bool)
    (f : Nat → Option GoError) (fuel i : Nat) (h : ∀ e, isRetryable e = false) :
    retry.Call ctx isRetryable f (fuel + 1) i = some (f i, i + 1) := by
  unfold retry.Call
  cases hf : f i with
  | none => rfl
  | some e => simp [h e]

/-- C24: with a context that is not done and an `IsRetryable` that is always
true, the call of an operation that fails twice and then succeeds returns nil
after exactly three invocations.  With an `IsRetryable` that is always false,
as it is for the topic and the subscription driver of `azurepubsub`, whatever
the context, a failing operation is invoked exactly once and its error is
returned; and one run of the send batch handler calls `SendBatch` exactly
once. -/
theorem retry_invocations (ctx ctx2 : Context) (f g SendBatch : Nat → Option GoError)
    (e1 e2 e : GoError) (fuel : Nat) (ec : GoError → ErrorCode) (ms : List Message) (t : Topic)
    (hctx : ctx.Err = none) (hf0 : f 0 = some e1) (hf1 : f 1 = some e2) (hf2 : f 2 = none)
    (hg : g 0 = some e) :
    retry.Call ctx (fun _ => true) f (fuel + 3) 0 = some (none, 3) ∧
    retry.Call ctx2 (fun _ => false) g (fuel + 1) 0 = some (some e, 1) ∧
    (∀ err, azurepubsub.IsRetryable err = false) ∧
    retry.Call ctx2 azurepubsub.IsRetryable g (fuel + 1) 0 = some (some e, 1) ∧
    defaultBatcher.handlerCall (fuel + 1) ctx2 azurepubsub.IsRetryable ec ms SendBatch t =
      some (defaultBatcher.handler ec ms (SendBatch 0) t, 1) := by
  refine ⟨?_, ?_, fun _ => rfl, ?_, ?_⟩
  · simp [retry.Call, hf0, hf1, hf2, Context.Done, hctx]
  · rw [retry_not_retryable ctx2 (fun _ => false) g fuel 0 (fun _ => rfl), hg]
  · rw [retry_not_retryable ctx2 azurepubsub.IsRetryable g fuel 0 (fun _ => rfl), hg]
  · unfold defaultBatcher.handlerCall
    rw [retry_not_retryable ctx2 azurepubsub.IsRetryable SendBatch fuel 0 (fun _ => rfl)]
    rfl

/-- Witness for C24: the operation `failsTwice` under an always-true predicate,
and `failsAlways` under an always-false one and a canceled context. -/
theorem retry_invocations_witness :
    retry.Call Context.Background (fun _ => true) failsTwice 3 0 = some (none, 3) ∧
    retry.Call Context.canceled (fun _ => false) failsAlways 1 0 =
      some (some (GoError.provider 1), 1) ∧
    defaultBatcher.handlerCall 1 Context.canceled azurepubsub.IsRetryable
        azurepubsub.ErrorCode [msgHi] failsAlways newTopic =
      some (defaultBatcher.handler azurepubsub.ErrorCode [msgHi] (failsAlways 0) newTopic, 1) :=
  have h := retry_invocations Context.Background Context.canceled failsTwice failsAlways
    failsAlways (GoError.provider 1) (GoError.provider 1) (GoError.provider 1) 0
    azurepubsub.ErrorCode [msgHi] newTopic rfl rfl rfl rfl rfl
  ⟨h.1, h.2.1, h.2.2.2.2⟩

/-! ## azurepubsub: error codes and SendAcks -/

/-- Counterexample to C25 as stated: an `error` that holds a nil `*amqp.Error`
pointer is an `*amqp.Error`, and on it `errorCode` does not return a code: the
type assertion succeeds and the dereference `aerr.Condition` panics. -/
theorem errorCode_panics_on_nil_pointer :
    azurepubsub.errorCode azurepubsub.ErrorValue.nilAmqpError = none ∧
    ∀ c, azurepubsub.errorCode azurepubsub.ErrorValue.nilAmqpError ≠ some c := by
  simp [azurepubsub.errorCode]

/-- C25, as amended: on every error other than a nil `*amqp.Error` pointer
`errorCode` of `azurepubsub` returns, and the code it returns is one of the
eight canonical ones: `Unknown` for every error that is not an `*amqp.Error`;
for an `*amqp.Error` the Service Bus conditions NotFound, PreconditionFailed,
InternalError, NotImplemented, ResourceLimitExceeded and InvalidField give
`NotFound`, `FailedPrecondition`, `Internal`, `Unimplemented`,
`ResourceExhausted` and `InvalidArgument`, both UnauthorizedAccess and
NotAllowed give `PermissionDenied`, and every other condition gives `Unknown`.
The methods `ErrorCode` of the topic and the subscription return that code. -/
theorem errorCode_total (v : azurepubsub.ErrorValue) (condition : String)
    (hv : v ≠ azurepubsub.ErrorValue.nilAmqpError) :
    (∃ c, azurepubsub.errorCode v = some c ∧
      c ∈ [ErrorCode.NotFound, ErrorCode.FailedPrecondition, ErrorCode.Internal,
           ErrorCode.Unimplemented, ErrorCode.PermissionDenied, ErrorCode.ResourceExhausted,
           ErrorCode.InvalidArgument, ErrorCode.Unknown] ∧
      ((∀ cond, v ≠ azurepubsub.ErrorValue.value (GoError.amqp cond)) →
        c = ErrorCode.Unknown) ∧
      ∀ err, v = azurepubsub.ErrorValue.value err → azurepubsub.ErrorCode err = c) ∧
    azurepubsub.errorCode (.value (GoError.amqp AmqpCondition.ErrorNotFound)) =
      some ErrorCode.NotFound ∧
    azurepubsub.errorCode (.value (GoError.amqp AmqpCondition.ErrorPreconditionFailed)) =
      some ErrorCode.FailedPrecondition ∧
    azurepubsub.errorCode (.value (GoError.amqp AmqpCondition.ErrorInternalError)) =
      some ErrorCode.Internal ∧
    azurepubsub.errorCode (.value (GoError.amqp AmqpCondition.ErrorNotImplemented)) =
      some ErrorCode.Unimplemented ∧
    azurepubsub.errorCode (.value (GoError.amqp AmqpCondition.ErrorResourceLimitExceeded)) =
      some ErrorCode.ResourceExhausted ∧
    azurepubsub.errorCode (.value (GoError.amqp AmqpCondition.ErrorInvalidField)) =
      some ErrorCode.InvalidArgument ∧
    azurepubsub.errorCode (.value (GoError.amqp AmqpCondition.ErrorUnauthorizedAccess)) =
      some ErrorCode.PermissionDenied ∧
    azurepubsub.errorCode (.value (GoError.amqp AmqpCondition.ErrorNotAllowed)) =
      some ErrorCode.PermissionDenied ∧
    azurepubsub.errorCode (.value (GoError.amqp (AmqpCondition.other condition))) =
      some ErrorCode.Unknown := by
  refine ⟨?_, rfl, rfl, rfl, rfl, rfl, rfl, rfl, rfl, rfl⟩
  cases v with
  | nilAmqpError => exact absurd rfl hv
  | value err =>
    cases err with
    | amqp c =>
      cases c <;>
        exact ⟨_, rfl, by simp, fun h => absurd rfl (h _), fun e he => by
          cases he; rfl⟩
    | _ =>
      exact ⟨ErrorCode.Unknown, rfl, by simp, fun _ => rfl, fun e he => by
        cases he; rfl⟩

/-- Witness for C25, as amended: an `*amqp.Error` whose condition is
NotFound. -/
theorem errorCode_total_witness :
    ∃ c, azurepubsub.errorCode (.value (GoError.amqp AmqpCondition.ErrorNotFound)) = some c ∧
      c ∈ [ErrorCode.NotFound, ErrorCode.FailedPrecondition, ErrorCode.Internal,
           ErrorCode.Unimplemented, ErrorCode.PermissionDenied, ErrorCode.ResourceExhausted,
           ErrorCode.InvalidArgument, ErrorCode.Unknown] ∧
      ((∀ cond, azurepubsub.ErrorValue.value (GoError.amqp AmqpCondition.ErrorNotFound) ≠
          azurepubsub.ErrorValue.value (GoError.amqp cond)) → c = ErrorCode.Unknown) ∧
      ∀ err, azurepubsub.ErrorValue.value (GoError.amqp AmqpCondition.ErrorNotFound) =
          azurepubsub.ErrorValue.value err → azurepubsub.ErrorCode err = c :=
  (errorCode_total (.value (GoError.amqp AmqpCondition.ErrorNotFound)) "" (by decide)).1

/-- C30: for a non-empty list of AckIDs, when the connection is dialed and
`cbs.NegotiateClaim` fails, `SendAcks` returns nil after the dial, the
negotiation and the close of the connection, without the update-disposition
request; the ack batch handler, which calls `SendAcks` once, then returns nil
and leaves the Subscription, its permanent-error slot included, as it was.  For
an empty list `SendAcks` returns nil and does nothing on the network. -/
theorem sendAcks_swallows_claim_failure (r r0 : azurepubsub.AmqpResults) (ids : List AckID)
    (e : GoError) (fuel : Nat) (ctx : Context) (s : Subscription)
    (hids : ids ≠ []) (hdial : r.Dial = none) (hclaim : r.NegotiateClaim = some e) :
    azurepubsub.SendAcks r ids =
      (none, [azurepubsub.NetAction.dial, azurepubsub.NetAction.negotiateClaim,
              azurepubsub.NetAction.close]) ∧
    (∀ l, azurepubsub.NetAction.updateDisposition l ∉ (azurepubsub.SendAcks r ids).2) ∧
    defaultAckBatcher.handlerCall (fuel + 1) ctx azurepubsub.IsRetryable
        azurepubsub.subscription ids (fun _ => (azurepubsub.SendAcks r ids).1) s =
      some ((none, s), 1) ∧
    azurepubsub.SendAcks r0 [] = (none, []) := by
  have hlen : ¬ ids.length = 0 := by
    intro h; exact hids (List.length_eq_zero.mp h)
  have h1 : azurepubsub.SendAcks r ids =
      (none, [azurepubsub.NetAction.dial, azurepubsub.NetAction.negotiateClaim,
              azurepubsub.NetAction.close]) := by
    simp [azurepubsub.SendAcks, hlen, hdial, hclaim]
  refine ⟨h1, ?_, ?_, rfl⟩
  · intro l
    rw [h1]
    simp
  · unfold defaultAckBatcher.handlerCall
    rw [retry_not_retryable ctx azurepubsub.IsRetryable _ fuel 0 (fun _ => rfl), h1]
    rfl

/-- Witness for C30: one AckID, a dialed connection and a failed negotiation. -/
theorem sendAcks_swallows_claim_failure_witness :
    azurepubsub.SendAcks claimFails [some 7] =
      (none, [azurepubsub.NetAction.dial, azurepubsub.NetAction.negotiateClaim,
              azurepubsub.NetAction.close]) ∧
    defaultAckBatcher.handlerCall 1 Context.Background azurepubsub.IsRetryable
        azurepubsub.subscription [some 7]
        (fun _ => (azurepubsub.SendAcks claimFails [some 7]).1) newSubscription =
      some ((none, newSubscription), 1) :=
  have h := sendAcks_swallows_claim_failure claimFails claimFails [some 7] (GoError.provider 2)
    0 Context.Background newSubscription (by decide) rfl rfl
  ⟨h.1, h.2.2.1⟩

/-! ## azurepubsub: URL openers -/

theorem values_get_of_not_mem (q : Values) (key : String) (h : ∀ kv ∈ q, kv.1 ≠ key) :
    Values.Get q key = "" := by
  induction q with
  | nil => rfl
  | cons kv rest ih =>
    obtain ⟨k, v, vs⟩ := kv
    have hk : k ≠ key := h (k, v, vs) (List.mem_cons_self _ _)
    simp only [Values.Get, if_neg hk]
    exact ih (fun kv hkv => h kv (List.mem_cons_of_mem _ hkv))

theorem values_get_of_mem (q : Values) (key v : String) (vs : List String)
    (hnd : (q.map Prod.fst).Nodup) (h : (key, v, vs) ∈ q) : Values.Get q key = v := by
  induction q with
  | nil => simp at h
  | cons kv rest ih =>
    obtain ⟨k, v1, vs1⟩ := kv
    simp only [List.map_cons, List.nodup_cons] at hnd
    rcases List.mem_cons.mp h with heq | hmem
    · simp only [Prod.mk.injEq] at heq
      obtain ⟨rfl, rfl, rfl⟩ := heq
      simp [Values.Get]
    · have hk : k ≠ key := by
        intro hk
        subst hk
        exact hnd.1 (List.mem_map.mpr ⟨(k, v, vs), hmem, rfl⟩)
      simp only [Values.Get, if_neg hk]
      exact ih hnd.2 hmem

theorem values_get_perm (q q1 : Values) (key : String) (hnd : (q.map Prod.fst).Nodup)
    (hperm : q1.Perm q) : Values.Get q1 key = Values.Get q key := by
  have hnd1 : (q1.map Prod.fst).Nodup := (hperm.map Prod.fst).nodup_iff.mpr hnd
  by_cases h : ∃ kv ∈ q, kv.1 = key
  · obtain ⟨⟨k, v, vs⟩, hmem, hk⟩ := h
    simp only at hk
    subst hk
    rw [values_get_of_mem q k v vs hnd hmem,
      values_get_of_mem q1 k v vs hnd1 (hperm.mem_iff.mpr hmem)]
  · have hq : ∀ kv ∈ q, kv.1 ≠ key := fun kv hkv hk => h ⟨kv, hkv, hk⟩
    have hq1 : ∀ kv ∈ q1, kv.1 ≠ key := fun kv hkv => hq kv (hperm.mem_iff.mp hkv)
    rw [values_get_of_not_mem q key hq, values_get_of_not_mem q1 key hq1]

theorem namespace_usable (sb : azurepubsub.ServiceBus) (o : azurepubsub.URLOpener)
    (kind : String) (u : URL) (hcs : o.ConnectionString ≠ "")
    (hns : sb.NewNamespace o.ConnectionString = none) : o.namespace sb kind u = none := by
  simp [azurepubsub.URLOpener.namespace, hcs, hns]

theorem openSubscriptionURL_keeps_url (sb : azurepubsub.ServiceBus) (ctx : Context) (u : URL)
    (o : azurepubsub.URLOpener) : (o.OpenSubscriptionURL sb ctx u).2 = u := by
  unfold azurepubsub.URLOpener.OpenSubscriptionURL
  split
  · rfl
  · simp only
    split
    · rfl
    · split
      · rfl
      · split
        · rfl
        · split <;> rfl

/-- C26: let the connection string be usable (not empty, and accepted by the
SDK).  Then `OpenTopicURL` returns an error and no Topic for every URL with at
least one query parameter, and a Topic and no error for a URL without query
parameters whose topic the SDK opens; and `OpenSubscriptionURL` returns an
error and no Subscription for every URL that has a query parameter other than
"subscription". -/
theorem openers_reject_unknown_parameters (sb : azurepubsub.ServiceBus)
    (o : azurepubsub.URLOpener) (ctx : Context) (u u0 us : URL)
    (hcs : o.ConnectionString ≠ "") (hns : sb.NewNamespace o.ConnectionString = none)
    (hq : u.Query ≠ []) (hq0 : u0.Query = [])
    (hnt : sb.NewTopic (sb.pathJoin u0.Host u0.Path) = none)
    (hs : ∃ kv ∈ us.Query, kv.1 ≠ "subscription") :
    (∃ e, o.OpenTopicURL sb ctx u = ((none, some e), u)) ∧
    o.OpenTopicURL sb ctx u0 = ((some newTopic, none), u0) ∧
    (∃ e, o.OpenSubscriptionURL sb ctx us = ((none, some e), us)) := by
  refine ⟨?_, ?_, ?_⟩
  · unfold azurepubsub.URLOpener.OpenTopicURL
    rw [namespace_usable sb o "topic" u hcs hns]
    cases hqe : u.Query with
    | nil => exact absurd hqe hq
    | cons kv rest => exact ⟨_, rfl⟩
  · unfold azurepubsub.URLOpener.OpenTopicURL
    rw [namespace_usable sb o "topic" u0 hcs hns]
    simp [hq0, hnt]
  · unfold azurepubsub.URLOpener.OpenSubscriptionURL
    rw [namespace_usable sb o "subscription" us hcs hns]
    simp only
    split
    · exact ⟨_, rfl⟩
    · split
      · exact ⟨_, rfl⟩
      · split
        · exact ⟨_, rfl⟩
        · rename_i hdel
          obtain ⟨kv, hmem, hk⟩ := hs
          have : kv ∈ Values.Del us.Query "subscription" := by
            unfold Values.Del
            exact List.mem_filter.mpr ⟨hmem, by simpa using hk⟩
          rw [hdel] at this
          simp at this

/-- Witness for C26: the URLs of the two tests. -/
theorem openers_reject_unknown_parameters_witness :
    (∃ e, testOpener.OpenTopicURL okServiceBus Context.Background urlParam =
      ((none, some e), urlParam)) ∧
    testOpener.OpenTopicURL okServiceBus Context.Background urlMyTopic =
      ((some newTopic, none), urlMyTopic) ∧
    (∃ e, testOpener.OpenSubscriptionURL okServiceBus Context.Background urlSubParam =
      ((none, some e), urlSubParam)) :=
  openers_reject_unknown_parameters okServiceBus testOpener Context.Background
    urlParam urlMyTopic urlSubParam (by decide) rfl (by decide) rfl rfl
    ⟨("param", "value", []), by simp [urlSubParam], by decide⟩

/-- C27: for every URL whose "subscription" parameter is missing, or whose
first value for it is empty, `OpenSubscriptionURL` returns an error and no
Subscription; and for every URL, the URL argument is the same after the call
as before it. -/
theorem subscription_parameter_required (sb : azurepubsub.ServiceBus)
    (o : azurepubsub.URLOpener) (ctx : Context) (u u1 : URL)
    (hmiss : (∀ kv ∈ u.Query, kv.1 ≠ "subscription") ∨
      Values.Get u.Query "subscription" = "") :
    (∃ e, o.OpenSubscriptionURL sb ctx u = ((none, some e), u)) ∧
    (o.OpenSubscriptionURL sb ctx u1).2 = u1 := by
  have hget : Values.Get u.Query "subscription" = "" := by
    rcases hmiss with h | h
    · exact values_get_of_not_mem _ _ h
    · exact h
  refine ⟨?_, openSubscriptionURL_keeps_url sb ctx u1 o⟩
  unfold azurepubsub.URLOpener.OpenSubscriptionURL
  split
  · exact ⟨_, rfl⟩
  · simp only
    split
    · exact ⟨_, rfl⟩
    · simp only [hget, if_true]
      exact ⟨_, rfl⟩

/-- Witness for C27: "azuresb://mytopic", which has no "subscription"
parameter. -/
theorem subscription_parameter_required_witness :
    (∃ e, testOpener.OpenSubscriptionURL okServiceBus Context.Background urlMyTopic =
      ((none, some e), urlMyTopic)) ∧
    (testOpener.OpenSubscriptionURL okServiceBus Context.Background urlSub).2 = urlSub :=
  subscription_parameter_required okServiceBus testOpener Context.Background urlMyTopic urlSub
    (Or.inl (by simp [urlMyTopic]))

/-! ## constantvar -/

theorem loop_error_of_unknown (u : URL) (q : Values)
    (h : ∃ kv ∈ q, kv.1 ≠ "decoder" ∧ kv.1 ≠ "val" ∧ kv.1 ≠ "err") :
    ∀ (value : String) (errVal : Option GoError),
      ∃ e, constantvar.OpenVariableURL.loop u q value errVal = .error e := by
  induction q with
  | nil => simp at h
  | cons kv rest ih =>
    intro value errVal
    obtain ⟨k, v, vs⟩ := kv
    by_cases hk : k ≠ "decoder" ∧ k ≠ "val" ∧ k ≠ "err"
    · simp only [constantvar.OpenVariableURL.loop, if_neg hk.1, if_neg hk.2.1, if_neg hk.2.2]
      exact ⟨_, rfl⟩
    · have hrest : ∃ kv ∈ rest, kv.1 ≠ "decoder" ∧ kv.1 ≠ "val" ∧ kv.1 ≠ "err" := by
        obtain ⟨kv, hmem, hbad⟩ := h
        rcases List.mem_cons.mp hmem with rfl | hmem
        · exact absurd hbad hk
        · exact ⟨kv, hmem, hbad⟩
      unfold constantvar.OpenVariableURL.loop
      split
      · exact ih hrest _ _
      · split
        · exact ih hrest _ _
        · split
          · exact ih hrest _ _
          · exact ⟨_, rfl⟩

theorem loop_ok_of_known (u : URL) (q : Values)
    (hvalid : ∀ kv ∈ q, kv.1 = "decoder" ∨ kv.1 = "val" ∨ kv.1 = "err")
    (hnd : (q.map Prod.fst).Nodup) :
    ∀ (value : String) (errVal : Option GoError),
      ∃ value1 errVal1, constantvar.OpenVariableURL.loop u q value errVal = .ok (value1, errVal1) ∧
        (∀ v vs, ("val", v, vs) ∈ q → value1 = v) ∧
        ((∀ kv ∈ q, kv.1 ≠ "val") → value1 = value) ∧
        (∀ v vs, ("err", v, vs) ∈ q → errVal1 = some (GoError.errorsNew v)) ∧
        ((∀ kv ∈ q, kv.1 ≠ "err") → errVal1 = errVal) := by
  induction q with
  | nil =>
    intro value errVal
    exact ⟨value, errVal, rfl, by simp, fun _ => rfl, by simp, fun _ => rfl⟩
  | cons kv rest ih =>
    intro value errVal
    obtain ⟨k, v, vs⟩ := kv
    simp only [List.map_cons, List.nodup_cons] at hnd
    have hrest : ∀ kv ∈ rest, kv.1 = "decoder" ∨ kv.1 = "val" ∨ kv.1 = "err" :=
      fun kv hkv => hvalid kv (List.mem_cons_of_mem _ hkv)
    have hnotin : ∀ kv ∈ rest, kv.1 ≠ k := by
      intro kv hkv hk
      exact hnd.1 (List.mem_map.mpr ⟨kv, hkv, hk⟩)
    rcases hvalid (k, v, vs) (List.mem_cons_self _ _) with hk | hk | hk
    · simp only at hk
      subst hk
      obtain ⟨value1, errVal1, hl, h1, h2, h3, h4⟩ := ih hrest hnd.2 value errVal
      refine ⟨value1, errVal1, by simp [constantvar.OpenVariableURL.loop, hl], ?_, ?_, ?_, ?_⟩
      · intro v1 vs1 hmem
        rcases List.mem_cons.mp hmem with heq | hmem
        · simp at heq
        · exact h1 v1 vs1 hmem
      · intro hno
        exact h2 (fun kv hkv => hno kv (List.mem_cons_of_mem _ hkv))
      · intro v1 vs1 hmem
        rcases List.mem_cons.mp hmem with heq | hmem
        · simp at heq
        · exact h3 v1 vs1 hmem
      · intro hno
        exact h4 (fun kv hkv => hno kv (List.mem_cons_of_mem _ hkv))
    · simp only at hk
      subst hk
      obtain ⟨value1, errVal1, hl, h1, h2, h3, h4⟩ := ih hrest hnd.2 v errVal
      refine ⟨value1, errVal1, by simp [constantvar.OpenVariableURL.loop, hl], ?_, ?_, ?_, ?_⟩
      · intro v1 vs1 hmem
        rcases List.mem_cons.mp hmem with heq | hmem
        · simp only [Prod.mk.injEq, true_and] at heq
          rw [heq.1]
          exact h2 hnotin
        · exact absurd rfl (hnotin _ hmem)
      · intro hno
        exact absurd rfl (hno _ (List.mem_cons_self _ _))
      · intro v1 vs1 hmem
        rcases List.mem_cons.mp hmem with heq | hmem
        · simp at heq
        · exact h3 v1 vs1 hmem
      · intro hno
        exact h4 (fun kv hkv => hno kv (List.mem_cons_of_mem _ hkv))
    · simp only at hk
      subst hk
      obtain ⟨value1, errVal1, hl, h1, h2, h3, h4⟩ :=
        ih hrest hnd.2 value (some (GoError.errorsNew v))
      refine ⟨value1, errVal1, by simp [constantvar.OpenVariableURL.loop, hl], ?_, ?_, ?_, ?_⟩
      · intro v1 vs1 hmem
        rcases List.mem_cons.mp hmem with heq | hmem
        · simp at heq
        · exact h1 v1 vs1 hmem
      · intro hno
        exact h2 (fun kv hkv => hno kv (List.mem_cons_of_mem _ hkv))
      · intro v1 vs1 hmem
        rcases List.mem_cons.mp hmem with heq | hmem
        · simp only [Prod.mk.injEq, true_and] at heq
          rw [heq.1]
          exact h4 hnotin
        · exact absurd rfl (hnotin _ hmem)
      · intro hno
        exact absurd rfl (hno _ (List.mem_cons_self _ _))

theorem openVariableURL_of_known (rv : constantvar.Runtimevar) (u : URL) (d : Nat)
    (hdec : rv.DecoderByName (Values.Get u.Query "decoder") = .ok d)
    (hvalid : ∀ kv ∈ u.Query, kv.1 = "decoder" ∨ kv.1 = "val" ∨ kv.1 = "err")
    (hnd : (u.Query.map Prod.fst).Nodup) :
    ∃ V, constantvar.OpenVariableURL rv u = (some V, none) ∧
      (∀ ev evs, ("err", ev, evs) ∈ u.Query →
        V = constantvar.Variable.NewError (GoError.errorsNew ev)) ∧
      ((∀ kv ∈ u.Query, kv.1 ≠ "err") →
        (∀ v vs, ("val", v, vs) ∈ u.Query → V = constantvar.NewBytes rv v d) ∧
        ((∀ kv ∈ u.Query, kv.1 ≠ "val") → V = constantvar.NewBytes rv "" d)) := by
  obtain ⟨value1, errVal1, hl, h1, h2, h3, h4⟩ := loop_ok_of_known u u.Query hvalid hnd "" none
  cases he : errVal1 with
  | none =>
    refine ⟨constantvar.NewBytes rv value1 d, ?_, ?_, ?_⟩
    · simp [constantvar.OpenVariableURL, hdec, hl, he]
    · intro ev evs hmem
      have := h3 ev evs hmem
      rw [he] at this
      cases this
    · intro _
      exact ⟨fun v vs hmem => by rw [h1 v vs hmem], fun hno => by rw [h2 hno]⟩
  | some e =>
    refine ⟨constantvar.Variable.NewError e, ?_, ?_, ?_⟩
    · simp [constantvar.OpenVariableURL, hdec, hl, he]
    · intro ev evs hmem
      have := h3 ev evs hmem
      rw [he] at this
      rw [Option.some.inj this]
    · intro hno
      have := h4 hno
      rw [he] at this
      cases this

theorem openVariableURL_of_unknown (rv : constantvar.Runtimevar) (u : URL)
    (h : ∃ kv ∈ u.Query, kv.1 ≠ "decoder" ∧ kv.1 ≠ "val" ∧ kv.1 ≠ "err") :
    ∃ e, constantvar.OpenVariableURL rv u = (none, some e) := by
  unfold constantvar.OpenVariableURL
  simp only
  cases rv.DecoderByName (Values.Get u.Query "decoder") with
  | error err => exact ⟨_, rfl⟩
  | ok d =>
    obtain ⟨e, he⟩ := loop_error_of_unknown u u.Query h "" none
    simp only [he]
    exact ⟨_, rfl⟩

/-- Counterexample to C28 as stated: the query of "constant://?a=1&b=2" visited
as a, b gives the error that names "a", and visited as b, a the error that
names "b": two different results for one URL.  (`URL.String` writes a URL with
an empty host and path without the "//".) -/
theorem openVariableURL_error_names_first_unknown :
    constantvar.OpenVariableURL okRuntimevar urlTwoUnknown =
      (none, some (GoError.fmtErrorf "open variable %q: invalid query parameter %q"
        ["constant:?a=1&b=2", "a"])) ∧
    constantvar.OpenVariableURL okRuntimevar
        { urlTwoUnknown with Query := [("b", "2", []), ("a", "1", [])] } =
      (none, some (GoError.fmtErrorf "open variable %q: invalid query parameter %q"
        ["constant:?a=1&b=2", "b"])) ∧
    List.Perm [("b", "2", ([] : List String)), ("a", "1", [])] urlTwoUnknown.Query ∧
    constantvar.OpenVariableURL okRuntimevar urlTwoUnknown ≠
      constantvar.OpenVariableURL okRuntimevar
        { urlTwoUnknown with Query := [("b", "2", []), ("a", "1", [])] } := by
  have h1 : constantvar.OpenVariableURL okRuntimevar urlTwoUnknown =
      (none, some (GoError.fmtErrorf "open variable %q: invalid query parameter %q"
        ["constant:?a=1&b=2", "a"])) := by
    simp [constantvar.OpenVariableURL, constantvar.OpenVariableURL.loop, okRuntimevar,
      urlTwoUnknown, Values.Get, URL.String]
  have h2 : constantvar.OpenVariableURL okRuntimevar
        { urlTwoUnknown with Query := [("b", "2", []), ("a", "1", [])] } =
      (none, some (GoError.fmtErrorf "open variable %q: invalid query parameter %q"
        ["constant:?a=1&b=2", "b"])) := by
    simp [constantvar.OpenVariableURL, constantvar.OpenVariableURL.loop, okRuntimevar,
      urlTwoUnknown, Values.Get, URL.String]
  refine ⟨h1, h2, List.Perm.swap _ _ _, ?_⟩
  rw [h1, h2]
  decide

/-- C28, as amended: let the query map have the entries of `u.Query`, visited
in any order.  Whether `OpenVariableURL` fails, and the Variable it returns
when it does not, are the same for every order.  It fails, returning no
Variable, when the decoder is invalid and when there is a parameter other than
"decoder", "val" and "err".  When the decoder is valid, all parameters are
among those three and "err" is one of them, the result is the always-failing
Variable built from "err", whether or not "val" is there. -/
theorem openVariableURL_order (rv : constantvar.Runtimevar) (u : URL) (q1 : Values)
    (hperm : q1.Perm u.Query) (hnd : (u.Query.map Prod.fst).Nodup) :
    (constantvar.OpenVariableURL rv { u with Query := q1 }).1 =
      (constantvar.OpenVariableURL rv u).1 ∧
    (constantvar.OpenVariableURL rv { u with Query := q1 }).2.isSome =
      (constantvar.OpenVariableURL rv u).2.isSome ∧
    (∀ e, rv.DecoderByName (Values.Get u.Query "decoder") = .error e →
      (constantvar.OpenVariableURL rv u).1 = none ∧
      (constantvar.OpenVariableURL rv u).2.isSome = true) ∧
    ((∃ kv ∈ u.Query, kv.1 ≠ "decoder" ∧ kv.1 ≠ "val" ∧ kv.1 ≠ "err") →
      (constantvar.OpenVariableURL rv u).1 = none ∧
      (constantvar.OpenVariableURL rv u).2.isSome = true) ∧
    (∀ d ev evs, rv.DecoderByName (Values.Get u.Query "decoder") = .ok d →
      (∀ kv ∈ u.Query, kv.1 = "decoder" ∨ kv.1 = "val" ∨ kv.1 = "err") →
      ("err", ev, evs) ∈ u.Query →
      constantvar.OpenVariableURL rv u =
        (some (constantvar.Variable.NewError (GoError.errorsNew ev)), none)) := by
  have hdecErr : ∀ (w : URL) e, rv.DecoderByName (Values.Get w.Query "decoder") = .error e →
      (constantvar.OpenVariableURL rv w).1 = none ∧
      (constantvar.OpenVariableURL rv w).2.isSome = true := by
    intro w e he
    simp [constantvar.OpenVariableURL, he]
  have hunk : ∀ (w : URL), (∃ kv ∈ w.Query, kv.1 ≠ "decoder" ∧ kv.1 ≠ "val" ∧ kv.1 ≠ "err") →
      (constantvar.OpenVariableURL rv w).1 = none ∧
      (constantvar.OpenVariableURL rv w).2.isSome = true := by
    intro w h
    obtain ⟨e, he⟩ := openVariableURL_of_unknown rv w h
    rw [he]
    exact ⟨rfl, rfl⟩
  have hget : Values.Get q1 "decoder" = Values.Get u.Query "decoder" :=
    values_get_perm u.Query q1 "decoder" hnd hperm
  have hnd1 : (q1.map Prod.fst).Nodup := (hperm.map Prod.fst).nodup_iff.mpr hnd
  have hsame : (constantvar.OpenVariableURL rv { u with Query := q1 }).1 =
        (constantvar.OpenVariableURL rv u).1 ∧
      (constantvar.OpenVariableURL rv { u with Query := q1 }).2.isSome =
        (constantvar.OpenVariableURL rv u).2.isSome := by
    cases hdec : rv.DecoderByName (Values.Get u.Query "decoder") with
    | error e =>
      have a := hdecErr u e hdec
      have b := hdecErr { u with Query := q1 } e (by simpa [hget] using hdec)
      exact ⟨by rw [a.1, b.1], by rw [a.2, b.2]⟩
    | ok d =>
      by_cases hbad : ∃ kv ∈ u.Query, kv.1 ≠ "decoder" ∧ kv.1 ≠ "val" ∧ kv.1 ≠ "err"
      · have a := hunk u hbad
        have b := hunk { u with Query := q1 } (by
          obtain ⟨kv, hmem, hk⟩ := hbad
          exact ⟨kv, hperm.mem_iff.mpr hmem, hk⟩)
        exact ⟨by rw [a.1, b.1], by rw [a.2, b.2]⟩
      · have hvalid : ∀ kv ∈ u.Query, kv.1 = "decoder" ∨ kv.1 = "val" ∨ kv.1 = "err" := by
          intro kv hkv
          by_contra hne
          simp only [not_or] at hne
          exact hbad ⟨kv, hkv, hne⟩
        have hvalid1 : ∀ kv ∈ q1, kv.1 = "decoder" ∨ kv.1 = "val" ∨ kv.1 = "err" :=
          fun kv hkv => hvalid kv (hperm.mem_iff.mp hkv)
        obtain ⟨V, hV, hVe, hVn⟩ := openVariableURL_of_known rv u d hdec hvalid hnd
        obtain ⟨W, hW, hWe, hWn⟩ := openVariableURL_of_known rv { u with Query := q1 } d
          (by simpa [hget] using hdec) hvalid1 hnd1
        have hVW : W = V := by
          by_cases herr : ∃ kv ∈ u.Query, kv.1 = "err"
          · obtain ⟨⟨k, ev, evs⟩, hmem, hk⟩ := herr
            simp only at hk
            subst hk
            rw [hVe ev evs hmem, hWe ev evs (hperm.mem_iff.mpr hmem)]
          · have hno : ∀ kv ∈ u.Query, kv.1 ≠ "err" := fun kv hkv hk => herr ⟨kv, hkv, hk⟩
            have hno1 : ∀ kv ∈ q1, kv.1 ≠ "err" := fun kv hkv => hno kv (hperm.mem_iff.mp hkv)
            by_cases hval : ∃ kv ∈ u.Query, kv.1 = "val"
            · obtain ⟨⟨k, v, vs⟩, hmem, hk⟩ := hval
              simp only at hk
              subst hk
              rw [(hVn hno).1 v vs hmem, (hWn hno1).1 v vs (hperm.mem_iff.mpr hmem)]
            · have hnv : ∀ kv ∈ u.Query, kv.1 ≠ "val" := fun kv hkv hk => hval ⟨kv, hkv, hk⟩
              have hnv1 : ∀ kv ∈ q1, kv.1 ≠ "val" :=
                fun kv hkv => hnv kv (hperm.mem_iff.mp hkv)
              rw [(hVn hno).2 hnv, (hWn hno1).2 hnv1]
        rw [hV, hW, hVW]
        exact ⟨rfl, rfl⟩
  refine ⟨hsame.1, hsame.2, hdecErr u, hunk u, ?_⟩
  intro d ev evs hdec hvalid hmem
  obtain ⟨V, hV, hVe, _⟩ := openVariableURL_of_known rv u d hdec hvalid hnd
  rw [hV, hVe ev evs hmem]

/-- Witness for C28, as amended: "constant://?err=boom&val=foo", visited as
err, val and as val, err. -/
theorem openVariableURL_order_witness :
    (constantvar.OpenVariableURL okRuntimevar
        { urlErrVal with Query := [("val", "foo", []), ("err", "boom", [])] }).1 =
      (constantvar.OpenVariableURL okRuntimevar urlErrVal).1 ∧
    constantvar.OpenVariableURL okRuntimevar urlErrVal =
      (some (constantvar.Variable.NewError (GoError.errorsNew "boom")), none) :=
  have h := openVariableURL_order okRuntimevar urlErrVal
    [("val", "foo", []), ("err", "boom", [])] (List.Perm.swap _ _ _)
    (by simp [urlErrVal])
  ⟨h.1, h.2.2.2.2 0 "boom" [] (by simp [okRuntimevar, urlErrVal, Values.Get])
    (by simp [urlErrVal]) (by simp [urlErrVal])⟩

end Pubsub
